import Mathlib

/-!
BinaryBrain `FrameBuffer`: a shallow embedding and its checked properties.

The development follows `include/bb/FrameBuffer.h`, and then the loops of
`include/bb/ConvolutionCol2Im.h`, `include/bb/SparseLutDiscreteN.h`,
`include/bb/NeuralNetConvolution.h`, `include/bb/SparseLayer.h` and the
sample `samples/cifar10/Cifar10SparseLutCnn.cpp`.

* `index_t` is embedded as `Int`; C++ integer division and remainder are
  `Int.tdiv` and `Int.tmod` (rounding toward zero).
* A buffer's storage is a list of bytes (`List Nat`), addressed from the
  base pointer returned by the lock functions.  A store outside the list is
  dropped and a load outside the list yields `0`.
* `BB_ASSERT` is embedded as a failing `Option`; `BB_DEBUG_ASSERT`, which is
  compiled out of release builds, is kept as a separate predicate.
* An element value is represented by its object representation read as a
  little-endian natural number (a single `0`/`1` for `Bit`), so equality of
  values below is equality of bit patterns.
-/

namespace bb

/-! ## Element types (`bb/DataType.h`) -/

/-- The eleven element-type tags `BB_TYPE_*` a buffer can carry. -/
inductive DType
  | BIT | FP32 | FP64 | INT8 | INT16 | INT32 | INT64 | UINT8 | UINT16 | UINT32 | UINT64
  deriving DecidableEq, Repr

/-- Modelled from the spec: `DataType_GetBitSize` of `bb/DataType.h`, the
bit width of one element of each of the eleven element types (`BIT` is the
1-bit packed type). -/
def DataType_GetBitSize : DType → Int
  | .BIT => 1
  | .FP32 => 32
  | .FP64 => 64
  | .INT8 => 8
  | .INT16 => 16
  | .INT32 => 32
  | .INT64 => 64
  | .UINT8 => 8
  | .UINT16 => 16
  | .UINT32 => 32
  | .UINT64 => 64

/-- Modelled from the spec: `DataType_GetByteSize` of `bb/DataType.h`, the
bit width rounded up to whole bytes. -/
def DataType_GetByteSize (t : DType) : Int :=
  (DataType_GetBitSize t + 7).tdiv 8

/-! ## Storage access (`bb/DataType.h`) -/

/-- Store the `s` low-order bytes of `v`, least significant first, at the
byte offsets `a, a + 1, ...` of the storage. -/
def writeBytes : List Nat → Nat → Nat → Nat → List Nat
  | m, _, 0, _ => m
  | m, a, s + 1, v => writeBytes (m.set a (v % 256)) (a + 1) s (v / 256)

/-- Load `s` bytes from byte offset `a` as a little-endian number; a cell of
the storage is read as a byte. -/
def readBytes (m : List Nat) : Nat → Nat → Nat
  | _, 0 => 0
  | a, s + 1 => m.getD a 0 % 256 + 256 * readBytes m (a + 1) s

/-- Store at a signed byte offset; an offset before the storage is dropped. -/
def writeAt (m : List Nat) (a : Int) (s v : Nat) : List Nat :=
  if a < 0 then m else writeBytes m a.toNat s v

/-- Load from a signed byte offset; an offset before the storage reads `0`. -/
def readAt (m : List Nat) (a : Int) (s : Nat) : Nat :=
  if a < 0 then 0 else readBytes m a.toNat s

/-- Set (`byte |= mask`) or clear (`byte &= ~mask`) bit `k` of a byte. -/
def setBit (b k : Nat) (v : Bool) : Nat :=
  if v then b ||| (1 <<< k) else b &&& (255 ^^^ (1 <<< k))

/-- Store one bit at a signed byte offset. -/
def writeBitAt (m : List Nat) (a : Int) (k : Nat) (v : Bool) : List Nat :=
  if a < 0 then m else m.set a.toNat (setBit (m.getD a.toNat 0) k v)

/-- Load one bit from a signed byte offset. -/
def readBitAt (m : List Nat) (a : Int) (k : Nat) : Bool :=
  if a < 0 then false else (m.getD a.toNat 0).testBit k

/-- Modelled from the spec: `DataType_Write<T>(base, index, value)` of
`bb/DataType.h`.  For a byte-sized type it stores the value as element
`index` of the array of `T` at `base`; for `Bit` it inserts the single bit
`index % 8` into byte `index / 8` without touching the other bits. -/
def DataType_Write (t : DType) (m : List Nat) (base index : Int) (value : Nat) : List Nat :=
  match t with
  | .BIT => writeBitAt m (base + index.tdiv 8) (index.tmod 8).toNat (decide (value ≠ 0))
  | _ => writeAt m (base + index * DataType_GetByteSize t) (DataType_GetByteSize t).toNat value

/-- Modelled from the spec: `DataType_Read<T>(base, index)` of
`bb/DataType.h`, the inverse addressing of `DataType_Write`. -/
def DataType_Read (t : DType) (m : List Nat) (base index : Int) : Nat :=
  match t with
  | .BIT => if readBitAt m (base + index.tdiv 8) (index.tmod 8).toNat then 1 else 0
  | _ => readAt m (base + index * DataType_GetByteSize t) (DataType_GetByteSize t).toNat

/-! ## Tensor (`bb/Tensor.h`) -/

/-- Modelled from the spec: the `Tensor` of `bb/Tensor.h`, reduced to its
shape, its element type and the bytes of its storage. -/
structure Tensor where
  m_shape : List Int
  m_type : DType
  m_mem : List Nat
  deriving DecidableEq, Repr

/-- Modelled from the spec: `Tensor::Resize`, which allocates a byte
footprint of `product(shape)` elements scaled by the bit width of the
element type and rounded to a byte boundary.  The fresh storage is taken to
be zero-filled. -/
def Tensor.Resize (_self : Tensor) (shape : List Int) (type : DType) : Tensor :=
  { m_shape := shape
    m_type := type
    m_mem := List.replicate ((shape.prod * DataType_GetBitSize type + 7).tdiv 8).toNat 0 }

/-- Modelled from the spec: `Tensor::FillZero`, which clears every byte of
the storage. -/
def Tensor.FillZero (self : Tensor) : Tensor :=
  { self with m_mem := List.replicate self.m_mem.length 0 }

/-! ## FrameBuffer -/

/-- The data members of `class FrameBuffer`. -/
structure FrameBuffer where
  m_tensor : Tensor
  m_data_type : DType
  m_frame_size : Int
  m_frame_stride : Int
  m_node_size : Int
  m_node_shape : List Int
  deriving DecidableEq, Repr

namespace FrameBuffer

def GetType (self : FrameBuffer) : DType := self.m_data_type
def GetFrameSize (self : FrameBuffer) : Int := self.m_frame_size
def GetNodeSize (self : FrameBuffer) : Int := self.m_node_size
def GetFrameStride (self : FrameBuffer) : Int := self.m_frame_stride
def GetShape (self : FrameBuffer) : List Int := self.m_node_shape

/-- The embedding of `FrameBuffer::Resize(frame_size, shape, data_type)`. -/
def Resize (self : FrameBuffer) (frame_size : Int) (shape : List Int) (data_type : DType) :
    FrameBuffer :=
  let m_frame_stride :=
    ((frame_size * DataType_GetBitSize data_type + 255).tdiv 256) * (Int.tdiv 256 8)
  let tensor_type := if data_type = DType.BIT then DType.UINT8 else data_type
  let tensor_shape := m_frame_stride.tdiv (DataType_GetByteSize tensor_type) :: shape
  { m_tensor := self.m_tensor.Resize tensor_shape tensor_type
    m_data_type := data_type
    m_frame_size := frame_size
    m_frame_stride := m_frame_stride
    m_node_size := shape.foldl (fun acc size => acc * size) 1
    m_node_shape := shape }

/-- The embedding of `FrameBuffer::FillZero`. -/
def FillZero (self : FrameBuffer) : FrameBuffer :=
  { self with m_tensor := self.m_tensor.FillZero }

/-- The invariants `Resize` establishes between the size fields and the
storage: a non-negative frame count, the padded frame stride, and a storage
of `frame_stride * node_size` bytes. -/
def WF (self : FrameBuffer) : Prop :=
  0 ≤ self.m_frame_size
    ∧ self.m_frame_stride
        = ((self.m_frame_size * DataType_GetBitSize self.m_data_type + 255).tdiv 256) * 32
    ∧ self.m_tensor.m_mem.length = (self.m_frame_stride * self.m_node_size).toNat

instance (self : FrameBuffer) : Decidable self.WF := by
  unfold WF; infer_instance

/-- The element position `(frame, node)` lies inside the buffer. -/
def ValidIndex (self : FrameBuffer) (frame node : Int) : Prop :=
  0 ≤ frame ∧ frame < self.GetFrameSize ∧ 0 ≤ node ∧ node < self.GetNodeSize

instance (self : FrameBuffer) (frame node : Int) : Decidable (self.ValidIndex frame node) := by
  unfold ValidIndex; infer_instance

/-- Two buffers with the same element type and the same sizes. -/
def SameLayout (a b : FrameBuffer) : Prop :=
  a.m_data_type = b.m_data_type ∧ a.m_frame_size = b.m_frame_size
    ∧ a.m_frame_stride = b.m_frame_stride ∧ a.m_node_size = b.m_node_size

instance (a b : FrameBuffer) : Decidable (a.SameLayout b) := by
  unfold SameLayout; infer_instance

/-- A bit pattern that fits the element type `t`. -/
def ValidValue (t : DType) (v : Nat) : Prop := v < 2 ^ (DataType_GetBitSize t).toNat

instance (t : DType) (v : Nat) : Decidable (ValidValue t v) := by
  unfold ValidValue; infer_instance

/-- The embedding of `FrameBuffer::GetNodeBaseAddr(base_addr, node)`, as a
byte offset from the start of the storage. -/
def GetNodeBaseAddr (self : FrameBuffer) (base_addr node : Int) : Int :=
  base_addr + self.m_frame_stride * node

/-- The embedding of `FrameBuffer::Get<MemTp, ValueTp>(frame, node)` with
`ValueTp = MemTp` (the `static_cast` is then the identity). -/
def Get (MemTp : DType) (self : FrameBuffer) (frame node : Int) : Nat :=
  DataType_Read MemTp self.m_tensor.m_mem (self.GetNodeBaseAddr 0 node) frame

/-- The embedding of `FrameBuffer::Set<MemTp, ValueTp>(frame, node, value)`
with `ValueTp = MemTp`. -/
def Set (MemTp : DType) (self : FrameBuffer) (frame node : Int) (value : Nat) : FrameBuffer :=
  { self with
    m_tensor :=
      { self.m_tensor with
        m_mem := DataType_Write MemTp self.m_tensor.m_mem (self.GetNodeBaseAddr 0 node) frame
          value } }

end FrameBuffer

/-! ## Typed views -/

namespace FrameBufferConstPtr_

/-- The embedding of `FrameBufferConstPtr_::GetNodeBaseAddr(node)`. -/
def GetNodeBaseAddr (m_buf : FrameBuffer) (node : Int) : Int :=
  0 + m_buf.m_frame_stride * node

/-- The embedding of `FrameBufferConstPtr_<Tp>::Get(frame, node)`. -/
def Get (Tp : DType) (m_buf : FrameBuffer) (frame node : Int) : Nat :=
  DataType_Read Tp m_buf.m_tensor.m_mem (GetNodeBaseAddr m_buf node) frame

end FrameBufferConstPtr_

namespace FrameBufferPtr_

/-- The embedding of `FrameBufferPtr_::GetNodeBaseAddr(node)` (release
build: the `BB_DEBUG_ASSERT` on `node` is compiled out). -/
def GetNodeBaseAddr (m_buf : FrameBuffer) (node : Int) : Int :=
  0 + m_buf.m_frame_stride * node

/-- The embedding of `FrameBufferPtr_<Tp>::Set(frame, node, value)`; the
result is the buffer the view points to, after the store. -/
def Set (Tp : DType) (m_buf : FrameBuffer) (frame node : Int) (value : Nat) : FrameBuffer :=
  { m_buf with
    m_tensor :=
      { m_buf.m_tensor with
        m_mem := DataType_Write Tp m_buf.m_tensor.m_mem (GetNodeBaseAddr m_buf node) frame
          value } }

end FrameBufferPtr_

/-! ## Loops -/

/-- The loop `for (index_t i = 0; i < n; ++i) body(i)` over a state: the
bodies run in the order `0, 1, ..., n - 1`. -/
def forLoop {σ : Type} : Nat → (Int → σ → σ) → σ → σ
  | 0, _, s => s
  | n + 1, body, s => body (n : Int) (forLoop n body s)

/-! ## FrameBuffer: construction, shape and copies -/

/-- Modelled from the spec: `Tensor::Clone`, a tensor of the same shape and
type that owns a copy of the bytes. -/
def Tensor.Clone (self : Tensor) : Tensor := self

/-- Modelled from the spec: `Tensor::Reshape`, which keeps the storage and
replaces the shape, one negative entry being resolved from the number of
elements. -/
def Tensor.Reshape (self : Tensor) (shape : List Int) : Tensor :=
  let known := (shape.filter (fun size => decide (0 ≤ size))).prod
  { self with m_shape := shape.map (fun size => if size < 0 then self.m_shape.prod.tdiv known
                                                 else size) }

namespace FrameBuffer

/-- The embedding of the default constructor `FrameBuffer(bool hostOnly)`:
every size member takes its default initialiser `0` and the shape is empty.
The member `m_data_type` starts as the integer `0`, whose meaning is fixed in
`bb/DataType.h`; the embedding takes that tag and the empty tensor as
parameters. -/
def ctor (m_tensor : Tensor) (t0 : DType) : FrameBuffer :=
  { m_tensor := m_tensor
    m_data_type := t0
    m_frame_size := 0
    m_frame_stride := 0
    m_node_size := 0
    m_node_shape := [] }

/-- The embedding of the constructor `FrameBuffer(frame_size, shape,
data_type, hostOnly)`, which runs `Resize` on the default members. -/
def ctor_sized (m_tensor : Tensor) (t0 : DType) (frame_size : Int) (shape : List Int)
    (data_type : DType) : FrameBuffer :=
  (ctor m_tensor t0).Resize frame_size shape data_type

/-- The embedding of `FrameBuffer::operator=`: every member is copied from
`buf`. -/
def operator_assign (_self buf : FrameBuffer) : FrameBuffer :=
  { m_tensor := buf.m_tensor
    m_data_type := buf.m_data_type
    m_frame_size := buf.m_frame_size
    m_frame_stride := buf.m_frame_stride
    m_node_size := buf.m_node_size
    m_node_shape := buf.m_node_shape }

/-- The embedding of `FrameBuffer::Clone`. -/
def Clone (self : FrameBuffer) : FrameBuffer :=
  { m_tensor := self.m_tensor.Clone
    m_data_type := self.m_data_type
    m_frame_size := self.m_frame_size
    m_frame_stride := self.m_frame_stride
    m_node_size := self.m_node_size
    m_node_shape := self.m_node_shape }

/-- The embedding of `FrameBuffer::ResizeLike`. -/
def ResizeLike (self buf : FrameBuffer) : FrameBuffer :=
  self.Resize buf.GetFrameSize buf.GetShape buf.GetType

/-- The embedding of `FrameBuffer::GetNodeIndex(indices)` in a release
build.  The loop state is the pair `(stride, index)`; an entry of `indices`
or of the shape that does not exist reads as `0`. -/
def GetNodeIndex (self : FrameBuffer) (indices : List Int) : Int :=
  (forLoop self.m_node_shape.length
    (fun i (st : Int × Int) =>
      (st.1 * self.m_node_shape.getD i.toNat 0, st.2 + st.1 * indices.getD i.toNat 0))
    (1, 0)).2

/-- The embedding of `FrameBuffer::Get<MemTp, ValueTp>(frame, indices)`. -/
def Get_indices (MemTp : DType) (self : FrameBuffer) (frame : Int) (indices : List Int) : Nat :=
  self.Get MemTp frame (self.GetNodeIndex indices)

/-- The embedding of `FrameBuffer::Set<MemTp, ValueTp>(frame, indices,
value)`. -/
def Set_indices (MemTp : DType) (self : FrameBuffer) (frame : Int) (indices : List Int)
    (value : Nat) : FrameBuffer :=
  self.Set MemTp frame (self.GetNodeIndex indices) value

/-- The embedding of `FrameBuffer::Reshape(shape)`.  The first loop keeps
the pair `(auto_index, total)`; the result is `none` when the division
`m_node_size / total` has a zero divisor or when `BB_ASSERT(total ==
m_node_size)` fails. -/
def Reshape (self : FrameBuffer) (shape : List Int) : Option FrameBuffer :=
  let st := forLoop shape.length
    (fun i (st : Int × Int) =>
      if shape.getD i.toNat 0 < 0 then (i, st.2) else (st.1, st.2 * shape.getD i.toNat 0))
    (-1, 1)
  let auto_index := st.1
  let total := st.2
  if auto_index ≥ 0 ∧ total = 0 then none
  else
    let shape :=
      if auto_index ≥ 0 then shape.set auto_index.toNat (self.m_node_size.tdiv total) else shape
    let total := shape.foldl (fun acc size => acc * size) 1
    if total = self.m_node_size then
      some { self with
        m_node_shape := shape
        m_tensor := self.m_tensor.Reshape (-1 :: shape) }
    else none

end FrameBuffer

/-! ## FrameBuffer: `CopyTo` and `GetRange` -/

/-- The library function `memcpy(dst + dst_off, src + src_off, n)` on the
byte lists of two distinct objects. -/
def memcpy (dst : List Nat) (dst_off : Int) (src : List Nat) (src_off : Int) (n : Int) :
    List Nat :=
  forLoop n.toNat
    (fun k d =>
      if dst_off + k < 0 then d
      else d.set (dst_off + k).toNat (if src_off + k < 0 then 0 else src.getD (src_off + k).toNat 0))
    dst

namespace FrameBuffer

/-- The embedding of `FrameBuffer::LockConst<Tp>()`.  No `BB_ASSERT` lies on
its path, so it has no failing case; the view is represented by its element
type and the buffer it points to. -/
def LockConst (Tp : DType) (self : FrameBuffer) : Option (DType × FrameBuffer) :=
  some (Tp, self)

/-- The embedding of `FrameBuffer::Lock<Tp>(new_buf)`, as `LockConst`. -/
def Lock (Tp : DType) (self : FrameBuffer) (_new_buf : Bool) : Option (DType × FrameBuffer) :=
  some (Tp, self)

/-- The embedding of `FrameBuffer::CopyTo_<T>`, on two buffers that do not
share their storage; the result is the destination after the copy. -/
def CopyTo_ (T : DType) (self dst : FrameBuffer)
    (frame_size src_frame_offset dst_frame_offset node_size src_node_offset
      dst_node_offset : Int) : FrameBuffer :=
  forLoop node_size.toNat
    (fun node dst =>
      forLoop frame_size.toNat
        (fun frame dst =>
          FrameBufferPtr_.Set T dst (frame + dst_frame_offset) (node + dst_node_offset)
            (FrameBufferConstPtr_.Get T self (frame + src_frame_offset)
              (node + src_node_offset)))
        dst)
    dst

/-- The embedding of the host path of `FrameBuffer::CopyTo`; `none` is a
failed `BB_ASSERT`.  The `switch` calls `CopyTo_<T>` with the type of the
buffer's tag, and each of the eleven tags has a case. -/
def CopyTo (self dst : FrameBuffer)
    (frame_size src_frame_offset dst_frame_offset node_size src_node_offset
      dst_node_offset : Int) : Option FrameBuffer :=
  if dst.GetType ≠ self.GetType then none
  else
    let node_size :=
      if node_size ≤ 0 then
        min (dst.GetNodeSize - dst_node_offset) (self.GetFrameSize - src_node_offset)
      else node_size
    let frame_size :=
      if frame_size ≤ 0 then
        min (dst.GetFrameSize - dst_frame_offset) (self.GetFrameSize - dst_frame_offset)
      else frame_size
    if ¬ (frame_size + src_frame_offset ≤ self.GetFrameSize) then none
    else if ¬ (frame_size + dst_frame_offset ≤ dst.GetFrameSize) then none
    else if ¬ (node_size + src_node_offset ≤ self.GetNodeSize) then none
    else if ¬ (node_size + dst_node_offset ≤ dst.GetNodeSize) then none
    else
      some (self.CopyTo_ self.GetType dst frame_size src_frame_offset dst_frame_offset
        node_size src_node_offset dst_node_offset)

/-- The first branch of `FrameBuffer::GetRange`: the loop that moves one
bit at a time with `DataType_Read<Bit>` and `DataType_Write<Bit>`.  Both
addresses are formed with the stride `m_frame_stride` of the source. -/
def GetRange_bits (self buf : FrameBuffer) (start size : Int) : FrameBuffer :=
  { buf with
    m_tensor :=
      { buf.m_tensor with
        m_mem :=
          forLoop self.m_node_size.toNat
            (fun node dst =>
              forLoop size.toNat
                (fun frame dst =>
                  let val := DataType_Read DType.BIT self.m_tensor.m_mem
                    (0 + self.m_frame_stride * node) (frame + start)
                  DataType_Write DType.BIT dst (0 + self.m_frame_stride * node) frame val)
                dst)
            buf.m_tensor.m_mem } }

/-- The second branch of `FrameBuffer::GetRange`: one `memcpy` per node. -/
def GetRange_memcpy (self buf : FrameBuffer) (start size : Int) : FrameBuffer :=
  let unit := DataType_GetBitSize self.m_data_type
  let byte_offset := (start * unit + 7).tdiv 8
  let byte_size := (size * unit + 7).tdiv 8
  { buf with
    m_tensor :=
      { buf.m_tensor with
        m_mem :=
          forLoop self.m_node_size.toNat
            (fun node dst =>
              memcpy dst (0 + buf.m_frame_stride * node) self.m_tensor.m_mem
                (0 + self.m_frame_stride * node + byte_offset) byte_size)
            buf.m_tensor.m_mem } }

/-- The embedding of `FrameBuffer::GetRange(start, size)`; `none` is a
failed `BB_ASSERT`.  The buffer `buf(size, m_node_shape, m_data_type)` is
built by the sized constructor, whose result does not depend on the default
members it starts from. -/
def GetRange (self : FrameBuffer) (start size : Int) : Option FrameBuffer :=
  if ¬ (start ≥ 0 ∧ start < self.m_frame_size) then none
  else if ¬ (size ≥ 0 ∧ size < self.m_frame_size - start) then none
  else
    let buf := ctor_sized self.m_tensor self.m_data_type size self.m_node_shape self.m_data_type
    if self.m_data_type = DType.BIT ∧ start.tmod 8 ≠ 0 then
      some (self.GetRange_bits buf start size)
    else
      some (self.GetRange_memcpy buf start size)

/-- The copy in the words of the specification, to compare `GetRange` with:
the element-by-element copy of the frames `[start, start + size)` into a
fresh buffer of `size` frames, element `(frame, node)` of the result taken
from element `(start + frame, node)` of the source. -/
def GetRange_elementwise (self : FrameBuffer) (start size : Int) : FrameBuffer :=
  let buf := ctor_sized self.m_tensor self.m_data_type size self.m_node_shape self.m_data_type
  forLoop self.m_node_size.toNat
    (fun node buf =>
      forLoop size.toNat
        (fun frame buf =>
          buf.Set self.m_data_type frame node (self.Get self.m_data_type (start + frame) node))
        buf)
    buf

end FrameBuffer

/-! ## Serialisation -/

/-- The value of the `w`-bit pattern `p` read as a two's-complement signed
integer. -/
def toSigned (w : Nat) (p : Nat) : Int :=
  if p % 2 ^ w < 2 ^ (w - 1) then ((p % 2 ^ w : Nat) : Int) else ((p % 2 ^ w : Nat) : Int) - 2 ^ w

/-- The four bytes of the object representation of an `int`, least
significant first. -/
def intBytes (x : Int) : List Nat :=
  let p := (x % 2 ^ 32).toNat
  [p % 256, p / 256 % 256, p / 65536 % 256, p / 16777216 % 256]

/-- The `int` whose object representation is the four given bytes. -/
def intOfBytes (b0 b1 b2 b3 : Nat) : Int :=
  toSigned 32 (b0 + 256 * b1 + 65536 * b2 + 16777216 * b3)

/-- The eleven tags, in the order of the `switch` statements. -/
def DType.all : List DType :=
  [.BIT, .FP32, .FP64, .INT8, .INT16, .INT32, .INT64, .UINT8, .UINT16, .UINT32, .UINT64]

/-- The stream functions of the absent headers that `Save` and `Load` call,
and the numbering `BB_TYPE_*` of the tags: `SaveIndex`/`LoadIndex`,
`SaveIndices`/`LoadIndices` and `Tensor::Save`/`Tensor::Load`.  A writer
gives the bytes it appends; a reader gives the value and the rest of the
stream, or `none`. -/
structure StreamCodec where
  BB_TYPE : DType → Int
  SaveIndex : Int → List Nat
  LoadIndex : List Nat → Option (Int × List Nat)
  SaveIndices : List Int → List Nat
  LoadIndices : List Nat → Option (List Int × List Nat)
  TensorSave : Tensor → List Nat
  TensorLoad : Tensor → List Nat → Option (Tensor × List Nat)

namespace FrameBuffer

/-- The embedding of `FrameBuffer::Save(std::ostream&)`: the bytes appended
to the stream. -/
def Save (c : StreamCodec) (self : FrameBuffer) : List Nat :=
  intBytes (c.BB_TYPE self.m_data_type)
    ++ (c.SaveIndex self.m_frame_size
    ++ (c.SaveIndex self.m_frame_stride
    ++ (c.SaveIndex self.m_node_size
    ++ (c.SaveIndices self.m_node_shape
    ++ c.TensorSave self.m_tensor))))

/-- The embedding of `FrameBuffer::Load(std::istream&)`: the loaded buffer
and the rest of the stream.  It is `none` when the stream ends early, when a
reader fails, or when the stored `int` is the number of none of the eleven
tags. -/
def Load (c : StreamCodec) (self : FrameBuffer) (is : List Nat) :
    Option (FrameBuffer × List Nat) :=
  match is with
  | b0 :: b1 :: b2 :: b3 :: is =>
    match DType.all.find? (fun t => decide (c.BB_TYPE t = intOfBytes b0 b1 b2 b3)) with
    | none => none
    | some m_data_type =>
      match c.LoadIndex is with
      | none => none
      | some (m_frame_size, is) =>
        match c.LoadIndex is with
        | none => none
        | some (m_frame_stride, is) =>
          match c.LoadIndex is with
          | none => none
          | some (m_node_size, is) =>
            match c.LoadIndices is with
            | none => none
            | some (m_node_shape, is) =>
              match c.TensorLoad self.m_tensor is with
              | none => none
              | some (m_tensor, is) =>
                some ({ m_tensor := m_tensor
                        m_data_type := m_data_type
                        m_frame_size := m_frame_size
                        m_frame_stride := m_frame_stride
                        m_node_size := m_node_size
                        m_node_shape := m_node_shape }, is)
  | _ => none

end FrameBuffer

/-! ## Generic access -/

/-- The conversions between integers and the floating-point types, which
stay uninterpreted: `toInt t p` is the integer that `static_cast` gives from
the number of type `t` with bit pattern `p`, and `ofInt t x` the bit pattern
of `static_cast<t>(x)`. -/
structure FloatConv where
  toInt : DType → Nat → Int
  ofInt : DType → Int → Nat

/-- The number that `static_cast<Tp>(x)` gives from an integer `x`: wrapped
into the range of an integer `Tp`, `0` or `1` for `Bit`, and `x` itself for a
floating-point `Tp`. -/
def static_cast (Tp : DType) (x : Int) : Int :=
  match Tp with
  | .BIT => if x ≠ 0 then 1 else 0
  | .FP32 => x
  | .FP64 => x
  | .INT8 => toSigned 8 (x % 2 ^ 8).toNat
  | .INT16 => toSigned 16 (x % 2 ^ 16).toNat
  | .INT32 => toSigned 32 (x % 2 ^ 32).toNat
  | .INT64 => toSigned 64 (x % 2 ^ 64).toNat
  | .UINT8 => x % 2 ^ 8
  | .UINT16 => x % 2 ^ 16
  | .UINT32 => x % 2 ^ 32
  | .UINT64 => x % 2 ^ 64

namespace FrameBuffer

/-- The embedding of `FrameBuffer::ReadValue<Tp>(base, frame)`: each case of
the `switch` reads through the type it names and converts the result with
`static_cast<Tp>`. -/
def ReadValue (conv : FloatConv) (Tp : DType) (self : FrameBuffer) (base frame : Int) : Int :=
  let m := self.m_tensor.m_mem
  match self.m_data_type with
  | .BIT => static_cast Tp (DataType_Read .BIT m base frame)
  | .FP32 => static_cast Tp (conv.toInt .FP32 (DataType_Read .FP32 m base frame))
  | .FP64 => static_cast Tp (conv.toInt .FP64 (DataType_Read .FP64 m base frame))
  | .INT8 => static_cast Tp (toSigned 8 (DataType_Read .INT8 m base frame))
  | .INT16 => static_cast Tp (toSigned 16 (DataType_Read .INT16 m base frame))
  | .INT32 => static_cast Tp (toSigned 32 (DataType_Read .INT32 m base frame))
  | .INT64 => static_cast Tp (toSigned 64 (DataType_Read .INT64 m base frame))
  | .UINT8 => static_cast Tp (toSigned 8 (DataType_Read .INT8 m base frame))
  | .UINT16 => static_cast Tp (toSigned 16 (DataType_Read .INT16 m base frame))
  | .UINT32 => static_cast Tp (toSigned 32 (DataType_Read .INT32 m base frame))
  | .UINT64 => static_cast Tp (toSigned 64 (DataType_Read .INT64 m base frame))

/-- The embedding of `FrameBuffer::WriteValue<Tp>(base, frame, value)` for
an integer `value`: each case converts with the `static_cast` it names and
stores through the type it names. -/
def WriteValue (conv : FloatConv) (self : FrameBuffer) (base frame : Int) (value : Int) :
    FrameBuffer :=
  let m := self.m_tensor.m_mem
  let store (m_mem : List Nat) : FrameBuffer :=
    { self with m_tensor := { self.m_tensor with m_mem := m_mem } }
  match self.m_data_type with
  | .BIT => store (DataType_Write .BIT m base frame (static_cast .BIT value).toNat)
  | .FP32 => store (DataType_Write .FP32 m base frame (conv.ofInt .FP32 value))
  | .FP64 => store (DataType_Write .FP64 m base frame (conv.ofInt .FP64 value))
  | .INT8 => store (DataType_Write .INT8 m base frame (static_cast .INT8 value % 2 ^ 8).toNat)
  | .INT16 => store (DataType_Write .INT16 m base frame (static_cast .INT16 value % 2 ^ 16).toNat)
  | .INT32 => store (DataType_Write .INT32 m base frame (static_cast .INT32 value % 2 ^ 32).toNat)
  | .INT64 => store (DataType_Write .INT64 m base frame (static_cast .INT64 value % 2 ^ 64).toNat)
  | .UINT8 => store (DataType_Write .INT8 m base frame (static_cast .UINT8 value % 2 ^ 8).toNat)
  | .UINT16 =>
    store (DataType_Write .INT16 m base frame (static_cast .UINT16 value % 2 ^ 16).toNat)
  | .UINT32 =>
    store (DataType_Write .INT32 m base frame (static_cast .UINT32 value % 2 ^ 32).toNat)
  | .UINT64 =>
    store (DataType_Write .INT64 m base frame (static_cast .UINT64 value % 2 ^ 64).toNat)

/-- The embedding of `FrameBuffer::GetValue<Tp>(frame, node)`. -/
def GetValue (conv : FloatConv) (Tp : DType) (self : FrameBuffer) (frame node : Int) : Int :=
  self.ReadValue conv Tp (self.GetNodeBaseAddr 0 node) frame

/-- The embedding of `FrameBuffer::SetValue<Tp>(frame, node, value)`; the
argument is the number that the `Tp` value denotes. -/
def SetValue (conv : FloatConv) (self : FrameBuffer) (frame node : Int) (value : Int) :
    FrameBuffer :=
  self.WriteValue conv (self.GetNodeBaseAddr 0 node) frame value

end FrameBuffer

/-! ## Builds with `BB_DEBUG_ASSERT` enabled

In these variants a failed `BB_DEBUG_ASSERT` is `none`. -/

namespace FrameBuffer

/-- The function `FrameBuffer::GetNodeBaseAddr` with its assertion
`BB_DEBUG_ASSERT(node < m_node_size)`. -/
def GetNodeBaseAddr_debug (self : FrameBuffer) (base_addr node : Int) : Option Int :=
  if node < self.m_node_size then some (base_addr + self.m_frame_stride * node) else none

/-- The function `FrameBuffer::Get<MemTp, ValueTp>(frame, node)` with its
assertion on the element type and the one of `GetNodeBaseAddr`. -/
def Get_debug (MemTp : DType) (self : FrameBuffer) (frame node : Int) : Option Nat :=
  if self.m_data_type = MemTp then
    match self.GetNodeBaseAddr_debug 0 node with
    | none => none
    | some addr => some (DataType_Read MemTp self.m_tensor.m_mem addr frame)
  else none

/-- The function `FrameBuffer::Set<MemTp, ValueTp>(frame, node, value)` with
its assertion on the element type and the one of `GetNodeBaseAddr`. -/
def Set_debug (MemTp : DType) (self : FrameBuffer) (frame node : Int) (value : Nat) :
    Option FrameBuffer :=
  if self.m_data_type = MemTp then
    match self.GetNodeBaseAddr_debug 0 node with
    | none => none
    | some addr =>
      some { self with
        m_tensor :=
          { self.m_tensor with
            m_mem := DataType_Write MemTp self.m_tensor.m_mem addr frame value } }
  else none

/-- The function `FrameBuffer::GetNodeIndex(indices)` with its assertions:
the two sizes agree and every coordinate lies inside its dimension. -/
def GetNodeIndex_debug (self : FrameBuffer) (indices : List Int) : Option Int :=
  if indices.length = self.m_node_shape.length then
    match forLoop self.m_node_shape.length
        (fun i (st : Option (Int × Int)) =>
          match st with
          | none => none
          | some st =>
            if indices.getD i.toNat 0 ≥ 0 ∧ indices.getD i.toNat 0 < self.m_node_shape.getD i.toNat 0
            then
              some (st.1 * self.m_node_shape.getD i.toNat 0, st.2 + st.1 * indices.getD i.toNat 0)
            else none)
        (some (1, 0)) with
    | none => none
    | some st => some st.2
  else none

end FrameBuffer

namespace FrameBufferConstPtr_

/-- The function `FrameBufferConstPtr_<Tp>::Get(frame, node)` in a debug
build: neither it nor the `GetNodeBaseAddr` of the const view asserts
anything. -/
def Get_debug (Tp : DType) (m_buf : FrameBuffer) (frame node : Int) : Option Nat :=
  some (Get Tp m_buf frame node)

end FrameBufferConstPtr_

namespace FrameBufferPtr_

/-- The function `FrameBufferPtr_::GetNodeBaseAddr(node)` with its assertion
`BB_DEBUG_ASSERT(node >= 0 && node < m_buf->GetNodeSize())`. -/
def GetNodeBaseAddr_debug (m_buf : FrameBuffer) (node : Int) : Option Int :=
  if node ≥ 0 ∧ node < m_buf.GetNodeSize then some (0 + m_buf.m_frame_stride * node) else none

/-- The function `FrameBufferPtr_<Tp>::Set(frame, node, value)` with the
assertion of `GetNodeBaseAddr`. -/
def Set_debug (Tp : DType) (m_buf : FrameBuffer) (frame node : Int) (value : Nat) :
    Option FrameBuffer :=
  match GetNodeBaseAddr_debug m_buf node with
  | none => none
  | some addr =>
    some { m_buf with
      m_tensor :=
        { m_buf.m_tensor with
          m_mem := DataType_Write Tp m_buf.m_tensor.m_mem addr frame value } }

end FrameBufferPtr_

/-! ## Linear node indices in closed form -/

/-- The row-major linear index of the words of the specification: the sum
over `j` of `indices[j]` times the product of the dimensions after `j`, so
that the last coordinate varies fastest. -/
def rowMajorIndex (shape indices : List Int) : Int :=
  ((List.range shape.length).map
    (fun j => indices.getD j 0 * (shape.drop (j + 1)).prod)).sum

/-- The linear index in which the first coordinate varies fastest: the sum
over `j` of `indices[j]` times the product of the dimensions before `j`. -/
def firstFastestIndex (shape indices : List Int) : Int :=
  ((List.range shape.length).map
    (fun j => indices.getD j 0 * (shape.take j).prod)).sum

/-! ## Example buffers -/

/-- A zero-filled `FP32` buffer with `frame_size = 4` and node shape
`[2, 3]`. -/
def exampleFP32 : FrameBuffer :=
  (FrameBuffer.ctor_sized ⟨[], DType.FP32, []⟩ DType.FP32 4 [2, 3] DType.FP32).FillZero

/-- A zero-filled `BIT` buffer with `frame_size = 40` and node shape
`[2, 3]`. -/
def exampleBIT : FrameBuffer :=
  (FrameBuffer.ctor_sized ⟨[], DType.BIT, []⟩ DType.BIT 40 [2, 3] DType.BIT).FillZero

/-! ## An example stream codec -/

/-- A number for an integer: the non-negative ones are even. -/
def encodeInt (x : Int) : Nat :=
  if 0 ≤ x then 2 * x.toNat else 2 * (-x - 1).toNat + 1

/-- The integer of a number given by `encodeInt`. -/
def decodeInt (n : Nat) : Int :=
  if n % 2 = 0 then ((n / 2 : Nat) : Int) else -((n / 2 : Nat) : Int) - 1

/-- A numbering of the eleven tags, used by the example codec. -/
def exampleBB_TYPE : DType → Int
  | .BIT => 1
  | .FP32 => 257
  | .FP64 => 258
  | .INT8 => 513
  | .INT16 => 514
  | .INT32 => 515
  | .INT64 => 516
  | .UINT8 => 769
  | .UINT16 => 770
  | .UINT32 => 771
  | .UINT64 => 772

/-- A codec in which an index is one cell of the stream, a list of indices
is its length followed by its entries, and a tensor is its type, its shape
and its bytes. -/
def exampleCodec : StreamCodec where
  BB_TYPE := exampleBB_TYPE
  SaveIndex := fun i => [encodeInt i]
  LoadIndex := fun is =>
    match is with
    | [] => none
    | n :: is => some (decodeInt n, is)
  SaveIndices := fun l => l.length :: l.map encodeInt
  LoadIndices := fun is =>
    match is with
    | [] => none
    | n :: is => some ((is.take n).map decodeInt, is.drop n)
  TensorSave := fun t =>
    encodeInt (exampleBB_TYPE t.m_type) :: t.m_shape.length :: t.m_mem.length
      :: (t.m_shape.map encodeInt ++ t.m_mem)
  TensorLoad := fun _ is =>
    match is with
    | ty :: n :: k :: is =>
      match DType.all.find? (fun t => decide (exampleBB_TYPE t = decodeInt ty)) with
      | none => none
      | some m_type =>
        some ({ m_shape := (is.take n).map decodeInt
                m_type := m_type
                m_mem := (is.drop n).take k }, (is.drop n).drop k)
    | _ => none

/-- A `UINT8` buffer with `frame_size = 3` and node shape `[2]` holding the
value `200` at frame `1` of node `1`. -/
def exampleUINT8 : FrameBuffer :=
  (FrameBuffer.ctor_sized ⟨[], DType.UINT8, []⟩ DType.UINT8 3 [2] DType.UINT8).FillZero.Set
    DType.UINT8 1 1 200

/-- The result of `Reshape({-1, 2})` on the `FP32` example buffer, whose
`node_size` is `6`. -/
def exampleReshaped : FrameBuffer :=
  (exampleFP32.Reshape [-1, 2]).getD exampleFP32

/-- A `UINT64` source buffer with `frame_size = 5` (stride 64) and node
shape `[2]`, whose element `(f, n)` holds `100 + 10 * n + f`. -/
def exampleSrc64 : FrameBuffer :=
  forLoop 2
    (fun n fb => forLoop 5 (fun f fb => fb.Set DType.UINT64 f n (100 + 10 * n + f).toNat) fb)
    (FrameBuffer.ctor_sized ⟨[], DType.UINT64, []⟩ DType.UINT64 5 [2] DType.UINT64).FillZero

/-- A zero-filled `UINT64` destination buffer with `frame_size = 4` (stride
32) and node shape `[3]`. -/
def exampleDst64 : FrameBuffer :=
  (FrameBuffer.ctor_sized ⟨[], DType.UINT64, []⟩ DType.UINT64 4 [3] DType.UINT64).FillZero

/-- A `BIT` buffer with `frame_size = 300` (stride 64) and node shape `[2]`
in which exactly the bits of the frames `1` and `8` of node `1` are set. -/
def exampleBIT300 : FrameBuffer :=
  (((FrameBuffer.ctor_sized ⟨[], DType.BIT, []⟩ DType.BIT 300 [2] DType.BIT).FillZero.Set
    DType.BIT 1 1 1).Set DType.BIT 8 1 1)

/-- The buffer `buf(10, m_node_shape, m_data_type)` that `GetRange(start,
10)` builds for `exampleBIT300`; its stride is 32. -/
def exampleRange10 : FrameBuffer :=
  FrameBuffer.ctor_sized exampleBIT300.m_tensor exampleBIT300.m_data_type 10
    exampleBIT300.m_node_shape exampleBIT300.m_data_type

/-! ## Reachable states -/

/-- The states of a `FrameBuffer` that construction (default or sized),
`Resize`, `ResizeLike`, `Reshape`, `Clone` and assignment can produce. -/
inductive Reachable : FrameBuffer → Prop
  | ctor (m_tensor : Tensor) (t0 : DType) : Reachable (FrameBuffer.ctor m_tensor t0)
  | ctor_sized (m_tensor : Tensor) (t0 : DType) (frame_size : Int) (shape : List Int)
      (data_type : DType) :
      Reachable (FrameBuffer.ctor_sized m_tensor t0 frame_size shape data_type)
  | Resize (self : FrameBuffer) (frame_size : Int) (shape : List Int) (data_type : DType) :
      Reachable self → Reachable (self.Resize frame_size shape data_type)
  | ResizeLike (self buf : FrameBuffer) :
      Reachable self → Reachable buf → Reachable (self.ResizeLike buf)
  | Reshape (self : FrameBuffer) (shape : List Int) (r : FrameBuffer) :
      Reachable self → self.Reshape shape = some r → Reachable r
  | Clone (self : FrameBuffer) : Reachable self → Reachable self.Clone
  | operator_assign (self buf : FrameBuffer) :
      Reachable self → Reachable buf → Reachable (self.operator_assign buf)

/-- The clone of a sized `FP32` buffer with `frame_size = 4` and node shape
`[2, 3]`. -/
def exampleClone : FrameBuffer :=
  (FrameBuffer.ctor_sized ⟨[], DType.FP32, []⟩ DType.FP32 4 [2, 3] DType.FP32).Clone

/-- The default-constructed buffer used in the examples. -/
def exampleDefault : FrameBuffer :=
  FrameBuffer.ctor ⟨[], DType.FP32, []⟩ DType.FP32

/-- Conversions for the floating-point types that the examples, which use
integer buffers only, never call. -/
def exampleConv : FloatConv where
  toInt := fun _ _ => 0
  ofInt := fun _ _ => 0

/-! ## Residency of the storage -/

/-- Modelled from the spec: the residency state of a storage, which side
holds the current bytes. -/
inductive Residency
  | HostValid | DeviceValid | Both
  deriving DecidableEq, Repr

/-- Modelled from the spec: the effect of `LockMemoryConst()` on the
residency: the host side is synchronised if needed and the device side stays
valid. -/
def Residency.LockMemoryConst : Residency → Residency
  | .DeviceValid => .Both
  | s => s

/-- Modelled from the spec: the effect of `LockMemory(new_buf)` on the
residency: a mutable host lock invalidates the device side. -/
def Residency.LockMemory (_s : Residency) (_new_buf : Bool) : Residency :=
  .HostValid

namespace FrameBuffer

/-- The lock that `FrameBuffer::LockConst<Tp>()` acquires: the view calls
`m_buf->LockMemoryConst()`. -/
def LockConst_residency (s : Residency) : Residency := s.LockMemoryConst

/-- The lock that `FrameBuffer::Get<MemTp, ValueTp>(frame, node)` acquires:
`auto ptr = LockMemoryConst();`. -/
def Get_residency (s : Residency) : Residency := s.LockMemoryConst

/-- The lock that `FrameBuffer::GetValue<Tp>(frame, node)` acquires:
`auto ptr = LockMemory();`, with the default argument `new_buf = false`.
The wrappers `GetBit`, `GetFP32`, ... call `GetValue`. -/
def GetValue_residency (s : Residency) : Residency := s.LockMemory false

/-- The locks that `FrameBuffer::IsZero<Tp>()` acquires: it calls `GetValue`
for the elements in turn, at least once when the buffer has an element. -/
def IsZero_residency (self : FrameBuffer) (s : Residency) : Residency :=
  if 0 < self.GetFrameSize ∧ 0 < self.GetNodeSize then GetValue_residency s else s

end FrameBuffer

/-- A `UINT8` source buffer with `frame_size = 1` and node shape `[2]`
holding `5` at node `0` and `7` at node `1`. -/
def exampleSrc8 : FrameBuffer :=
  ((FrameBuffer.ctor_sized ⟨[], DType.UINT8, []⟩ DType.UINT8 1 [2] DType.UINT8).FillZero.Set
    DType.UINT8 0 0 5).Set DType.UINT8 0 1 7

/-- A zero-filled `UINT8` destination buffer with `frame_size = 1` and node
shape `[2]`. -/
def exampleDst8 : FrameBuffer :=
  (FrameBuffer.ctor_sized ⟨[], DType.UINT8, []⟩ DType.UINT8 1 [2] DType.UINT8).FillZero

/-- The result of `Reshape({1, -1})` on the `UINT8` example buffer. -/
def exampleUINT8Reshaped : FrameBuffer :=
  (exampleUINT8.Reshape [1, -1]).getD exampleUINT8

/-! ## Elementwise algebra -/

/-- The members of `bb/Tensor.h`, which is absent, that the operators of
`FrameBuffer` use: they enter as parameters.  `ctor hostOnly` is the
constructor `Tensor(bool hostOnly)`, `IsHostOnly` the member
`Tensor::IsHostOnly()`, and the others are the elementwise operators.  A
`double` operand is represented by its bit pattern. -/
structure TensorOps where
  ctor : Bool → Tensor
  IsHostOnly : Tensor → Bool
  add : Tensor → Tensor → Tensor
  add_scalar : Tensor → Nat → Tensor
  scalar_add : Nat → Tensor → Tensor
  sub : Tensor → Tensor → Tensor
  sub_scalar : Tensor → Nat → Tensor
  scalar_sub : Nat → Tensor → Tensor
  mul : Tensor → Tensor → Tensor
  mul_scalar : Tensor → Nat → Tensor
  scalar_mul : Nat → Tensor → Tensor
  div : Tensor → Tensor → Tensor
  div_scalar : Tensor → Nat → Tensor
  scalar_div : Nat → Tensor → Tensor
  Sqrt : Tensor → Tensor
  Exp : Tensor → Tensor

namespace FrameBuffer

/-- The embedding of `FrameBuffer::IsHostOnly()`, which returns
`m_tensor.IsHostOnly()`. -/
def IsHostOnly (ops : TensorOps) (self : FrameBuffer) : Bool := ops.IsHostOnly self.m_tensor

/-- The two statements every operator starts and ends with: `FrameBuffer
dst(src.GetFrameSize(), src.GetShape(), src.GetType(), src.IsHostOnly());`
followed by `dst.m_tensor = tensor; return dst;`.  The constructor builds
its member with `m_tensor(hostOnly)` and runs `Resize`; the assignment then
replaces that member. -/
def operator_result (ops : TensorOps) (src : FrameBuffer) (tensor : Tensor) : FrameBuffer :=
  { ctor_sized (ops.ctor (src.IsHostOnly ops)) src.m_data_type src.GetFrameSize src.GetShape
      src.GetType with
    m_tensor := tensor }

/-- The embedding of `operator+(FrameBuffer const&, FrameBuffer const&)`. -/
def operator_add (ops : TensorOps) (src0 src1 : FrameBuffer) : FrameBuffer :=
  src0.operator_result ops (ops.add src0.m_tensor src1.m_tensor)

/-- The embedding of `operator+(FrameBuffer const&, double)`. -/
def operator_add_scalar (ops : TensorOps) (src0 : FrameBuffer) (src1 : Nat) : FrameBuffer :=
  src0.operator_result ops (ops.add_scalar src0.m_tensor src1)

/-- The embedding of `operator+(double, FrameBuffer const&)`. -/
def operator_scalar_add (ops : TensorOps) (src0 : Nat) (src1 : FrameBuffer) : FrameBuffer :=
  src1.operator_result ops (ops.scalar_add src0 src1.m_tensor)

/-- The embedding of `operator-(FrameBuffer const&, FrameBuffer const&)`. -/
def operator_sub (ops : TensorOps) (src0 src1 : FrameBuffer) : FrameBuffer :=
  src0.operator_result ops (ops.sub src0.m_tensor src1.m_tensor)

/-- The embedding of `operator-(FrameBuffer const&, double)`. -/
def operator_sub_scalar (ops : TensorOps) (src0 : FrameBuffer) (src1 : Nat) : FrameBuffer :=
  src0.operator_result ops (ops.sub_scalar src0.m_tensor src1)

/-- The embedding of `operator-(double, FrameBuffer const&)`. -/
def operator_scalar_sub (ops : TensorOps) (src0 : Nat) (src1 : FrameBuffer) : FrameBuffer :=
  src1.operator_result ops (ops.scalar_sub src0 src1.m_tensor)

/-- The embedding of `operator*(FrameBuffer const&, FrameBuffer const&)`. -/
def operator_mul (ops : TensorOps) (src0 src1 : FrameBuffer) : FrameBuffer :=
  src0.operator_result ops (ops.mul src0.m_tensor src1.m_tensor)

/-- The embedding of `operator*(FrameBuffer const&, double)`. -/
def operator_mul_scalar (ops : TensorOps) (src0 : FrameBuffer) (src1 : Nat) : FrameBuffer :=
  src0.operator_result ops (ops.mul_scalar src0.m_tensor src1)

/-- The embedding of `operator*(double, FrameBuffer const&)`. -/
def operator_scalar_mul (ops : TensorOps) (src0 : Nat) (src1 : FrameBuffer) : FrameBuffer :=
  src1.operator_result ops (ops.scalar_mul src0 src1.m_tensor)

/-- The embedding of `operator/(FrameBuffer const&, FrameBuffer const&)`. -/
def operator_div (ops : TensorOps) (src0 src1 : FrameBuffer) : FrameBuffer :=
  src0.operator_result ops (ops.div src0.m_tensor src1.m_tensor)

/-- The embedding of `operator/(FrameBuffer const&, double)`. -/
def operator_div_scalar (ops : TensorOps) (src0 : FrameBuffer) (src1 : Nat) : FrameBuffer :=
  src0.operator_result ops (ops.div_scalar src0.m_tensor src1)

/-- The embedding of `operator/(double, FrameBuffer const&)`. -/
def operator_scalar_div (ops : TensorOps) (src0 : Nat) (src1 : FrameBuffer) : FrameBuffer :=
  src1.operator_result ops (ops.scalar_div src0 src1.m_tensor)

/-- The embedding of the function `Sqrt(FrameBuffer const&)` and of the
member `FrameBuffer::Sqrt()`, which have the same body. -/
def Sqrt (ops : TensorOps) (src : FrameBuffer) : FrameBuffer :=
  src.operator_result ops (ops.Sqrt src.m_tensor)

/-- The embedding of the function `Exp(FrameBuffer const&)` and of the
member `FrameBuffer::Exp()`, which have the same body. -/
def Exp (ops : TensorOps) (src : FrameBuffer) : FrameBuffer :=
  src.operator_result ops (ops.Exp src.m_tensor)

/-- The metadata an operator gives its result `r` from the operand `src`:
frame size, node shape and element type are those of `src`, the stride and
the node count are recomputed from them by `Resize`. -/
def MetaOf (src r : FrameBuffer) : Prop :=
  r.GetFrameSize = src.GetFrameSize ∧ r.GetShape = src.GetShape ∧ r.GetType = src.GetType
    ∧ r.GetFrameStride
        = ((src.GetFrameSize * DataType_GetBitSize src.GetType + 255).tdiv 256) * 32
    ∧ r.GetNodeSize = src.GetShape.prod

instance (src r : FrameBuffer) : Decidable (src.MetaOf r) := by
  unfold MetaOf; infer_instance

end FrameBuffer

/-- Tensor members for the examples: each operator returns its first tensor
operand, and no tensor is host-only. -/
def exampleOps : TensorOps where
  ctor := fun _ => ⟨[], DType.FP32, []⟩
  IsHostOnly := fun _ => false
  add := fun a _ => a
  add_scalar := fun a _ => a
  scalar_add := fun _ a => a
  sub := fun a _ => a
  sub_scalar := fun a _ => a
  scalar_sub := fun _ a => a
  mul := fun a _ => a
  mul_scalar := fun a _ => a
  scalar_mul := fun _ a => a
  div := fun a _ => a
  div_scalar := fun a _ => a
  scalar_div := fun _ a => a
  Sqrt := fun a => a
  Exp := fun a => a

/-! ## Coordinates of a node -/

/-- The coordinate tuple `indices` lies inside `shape`: both have the same
length and `0 ≤ indices[j] < shape[j]` for every `j`, the condition that
`GetNodeIndex` asserts. -/
def InBounds : List Int → List Int → Prop
  | [], [] => True
  | s :: shape, i :: indices => 0 ≤ i ∧ i < s ∧ InBounds shape indices
  | _, _ => False

/-- The decision procedure of `InBounds`. -/
def InBounds.decide : (shape indices : List Int) → Decidable (InBounds shape indices)
  | [], [] => isTrue trivial
  | [], _ :: _ => isFalse (fun h => h)
  | _ :: _, [] => isFalse (fun h => h)
  | s :: shape, i :: indices =>
    match InBounds.decide shape indices with
    | isTrue h => if h0 : 0 ≤ i ∧ i < s then isTrue ⟨h0.1, h0.2, h⟩
                  else isFalse (fun hc => h0 ⟨hc.1, hc.2.1⟩)
    | isFalse h => isFalse (fun hc => h hc.2.2)

instance (shape indices : List Int) : Decidable (InBounds shape indices) :=
  InBounds.decide shape indices

/-- The coordinate tuple of the node `n`, first coordinate fastest: the
digits of `n` in the mixed radix `shape`. -/
def toIndices : List Int → Int → List Int
  | [], _ => []
  | s :: shape, n => n % s :: toIndices shape (n / s)

/-! ## Shared storage -/

/-- Modelled from the spec: a buffer handle when storage is shared by
reference.  The bytes live in a heap, the list of the memory objects
allocated so far; a handle holds the members of `FrameBuffer` (`m_members`,
whose own byte list is not used) and the number `m_memory` of the memory
object its tensor refers to. -/
structure BufferHandle where
  m_members : FrameBuffer
  m_memory : Nat
  deriving DecidableEq, Repr

namespace BufferHandle

/-- The buffer a handle denotes in a heap: its members with the bytes of its
memory object. -/
def deref (heap : List (List Nat)) (self : BufferHandle) : FrameBuffer :=
  { self.m_members with
    m_tensor := { self.m_members.m_tensor with m_mem := heap.getD self.m_memory [] } }

/-- Modelled from the spec: `FrameBuffer::operator=` on handles.  The
assignment `m_tensor = buf.m_tensor` makes the tensor refer to the memory
object of `buf` ("assignment shares storage"); the other members are
copied. -/
def operator_assign (_self buf : BufferHandle) : BufferHandle :=
  { m_members := _self.m_members.operator_assign buf.m_members
    m_memory := buf.m_memory }

/-- Modelled from the spec: `FrameBuffer::Clone` on handles.  `m_tensor.Clone()`
allocates a new memory object holding a copy of the bytes ("`Clone`
deep-copies"); the result is the new heap and the handle of the clone. -/
def Clone (heap : List (List Nat)) (self : BufferHandle) : List (List Nat) × BufferHandle :=
  (heap ++ [heap.getD self.m_memory []],
    { m_members := self.m_members.Clone, m_memory := heap.length })

/-- The function `FrameBuffer::Get<MemTp, ValueTp>(frame, node)` through a
handle. -/
def Get (heap : List (List Nat)) (MemTp : DType) (self : BufferHandle) (frame node : Int) :
    Nat :=
  (self.deref heap).Get MemTp frame node

/-- The function `FrameBuffer::Set<MemTp, ValueTp>(frame, node, value)`
through a handle: the heap after the store. -/
def Set (heap : List (List Nat)) (MemTp : DType) (self : BufferHandle) (frame node : Int)
    (value : Nat) : List (List Nat) :=
  heap.set self.m_memory ((self.deref heap).Set MemTp frame node value).m_tensor.m_mem

end BufferHandle

/-- A heap with one memory object, the bytes of the `UINT8` example
buffer. -/
def exampleHeap : List (List Nat) := [exampleUINT8.m_tensor.m_mem]

/-- The handle of the `UINT8` example buffer in `exampleHeap`. -/
def exampleHandle : BufferHandle := { m_members := exampleUINT8, m_memory := 0 }

/-! ## Sum and norm -/

/-- Modelled from the spec: the number denoted by the bit pattern `p` of an
`FP32` element (IEEE 754 binary32, finite values). -/
def fp32Value (p : Nat) : ℚ :=
  let sign : ℚ := if p / 2 ^ 31 % 2 = 1 then -1 else 1
  let e : Nat := p / 2 ^ 23 % 256
  let m : Nat := p % 2 ^ 23
  if e = 0 then sign * (m : ℚ) / 2 ^ 149
  else if e < 150 then sign * ((2 ^ 23 + m : Nat) : ℚ) / 2 ^ (150 - e)
  else sign * ((2 ^ 23 + m : Nat) : ℚ) * 2 ^ (e - 150)

namespace FrameBuffer

/-- The leading dimension `Resize` gives the tensor: the number of element
slots in the frame run of one node, `frame_stride / byte_size`, padding
included. -/
def tensorFrames (self : FrameBuffer) : Int :=
  self.m_frame_stride.tdiv
    (DataType_GetByteSize (if self.m_data_type = DType.BIT then DType.UINT8 else self.m_data_type))

/-- Modelled from the spec: the square of `FrameBuffer::Norm()`, that is
`(*this * *this).Sum()`, in exact arithmetic.  `Tensor::operator*` multiplies
elementwise and `Tensor::Sum` adds all elements of the tensor, whose shape
is `[tensorFrames]` followed by the node shape: every slot of every node,
the padding slots after `frame_size` included.  `val` gives the number that
a bit pattern of the element type denotes. -/
def NormSq (val : Nat → ℚ) (self : FrameBuffer) : ℚ :=
  ((List.range self.m_node_size.toNat).map
    (fun n =>
      ((List.range self.tensorFrames.toNat).map
        (fun f =>
          val (DataType_Read
                (if self.m_data_type = DType.BIT then DType.UINT8 else self.m_data_type)
                self.m_tensor.m_mem (0 + self.m_frame_stride * Int.ofNat n)
                (Int.ofNat f)) ^ 2)).sum)).sum

end FrameBuffer

/-- A zero-filled `FP32` buffer with `frame_size = 4` (8 slots per node) and
node shape `[1]` whose four elements are then set to `3.0`, the pattern
`0x40400000`. -/
def exampleNorm : FrameBuffer :=
  forLoop 4 (fun f fb => fb.Set DType.FP32 f 0 1077936128)
    (FrameBuffer.ctor_sized ⟨[], DType.FP32, []⟩ DType.FP32 4 [1] DType.FP32).FillZero

/-- The buffer `exampleNorm` with `3.0` also in the padding slot of frame
`4`. -/
def exampleNormPadded : FrameBuffer := exampleNorm.Set DType.FP32 4 0 1077936128

/-! ## Vectors of values (`SetVector`) -/

/-- The ways a call that reads from a `std::vector` can end: a failed
`BB_ASSERT`, a read outside a vector (undefined behaviour, made explicit
here), or completion with a result. -/
inductive Outcome (α : Type) where
  | abort : Outcome α
  | undefined : Outcome α
  | done : α → Outcome α
  deriving DecidableEq, Repr

namespace FrameBuffer

/-- The embedding of `FrameBuffer::SetVector<Tp>(frame, data)`; `none` is a
failed `BB_ASSERT`.  The entries of `data` are the numbers that the `Tp`
values denote, as in `SetValue`. -/
def SetVector (conv : FloatConv) (self : FrameBuffer) (frame : Int) (data : List Int) :
    Option FrameBuffer :=
  if ¬ ((data.length : Int) = self.m_node_size) then none
  else if ¬ (frame > 0 ∧ frame < self.m_frame_size) then none
  else
    some
      (forLoop self.m_node_size.toNat
        (fun node self => self.SetValue conv frame node (data.getD node.toNat 0))
        self)

/-- The embedding of `FrameBuffer::SetVector<Tp>(data, offset)`.  The rows
hold bit patterns of `Tp`, stored through the view of `Lock<Tp>()`.  Each
`operator[]` on `data` or on one of its rows that lies outside the vector
ends the call as `Outcome.undefined`. -/
def SetVector_offset (Tp : DType) (self : FrameBuffer) (data : List (List Nat))
    (offset : Int) : Outcome FrameBuffer :=
  if ¬ (self.GetType = Tp) then Outcome.abort
  else if ¬ (offset + self.m_frame_size ≤ (data.length : Int)) then Outcome.abort
  else
    forLoop self.m_frame_size.toNat
      (fun frame st =>
        match st with
        | Outcome.done ptr =>
          match data.get? frame.toNat with
          | none => Outcome.undefined
          | some checked =>
            if ¬ ((checked.length : Int) = self.m_node_size) then Outcome.abort
            else
              forLoop self.m_node_size.toNat
                (fun node st =>
                  match st with
                  | Outcome.done ptr =>
                    if frame + offset < 0 then Outcome.undefined
                    else
                      match data.get? (frame + offset).toNat with
                      | none => Outcome.undefined
                      | some row =>
                        match row.get? node.toNat with
                        | none => Outcome.undefined
                        | some value =>
                          Outcome.done (FrameBufferPtr_.Set Tp ptr frame node value)
                  | o => o)
                (Outcome.done ptr)
        | o => o)
      (Outcome.done self)

end FrameBuffer

/-! ## SparseLutDiscreteN (`bb/SparseLutDiscreteN.h`) -/

/-- The member functions of a sub-layer that `SparseLutDiscreteN` calls, on
a sub-layer state `S`.  The sub-layers themselves (`StochasticLutN`,
`StochasticBatchNormalization`, `HardTanh`) stay uninterpreted. -/
structure SubLayer (S : Type) where
  Forward : S → FrameBuffer → Bool → S × FrameBuffer
  ReForward : S → FrameBuffer → S × FrameBuffer
  Backward : S → FrameBuffer → S × FrameBuffer
  SetFrameBufferX : S → FrameBuffer → S
  GetFrameBufferX : S → FrameBuffer

/-- The data members of `class SparseLutDiscreteN`. -/
structure SparseLutDiscreteN (L B A : Type) where
  m_memory_saving : Bool
  m_bn_enable : Bool
  m_lut : L
  m_batch_norm : B
  m_activation : A

namespace SparseLutDiscreteN

variable {L B A : Type}

/-- The embedding of `SparseLutDiscreteN::Forward(x_buf, train)`; `empty`
is the default-constructed `FrameBuffer()`. -/
def Forward (lut : SubLayer L) (batch_norm : SubLayer B) (activation : SubLayer A)
    (empty : FrameBuffer) (self : SparseLutDiscreteN L B A) (x_buf : FrameBuffer)
    (train : Bool) : SparseLutDiscreteN L B A × FrameBuffer :=
  let r1 := lut.Forward self.m_lut x_buf train
  let self := { self with m_lut := r1.1 }
  let x_buf := r1.2
  let r2 :=
    if self.m_bn_enable then batch_norm.Forward self.m_batch_norm x_buf train
    else (self.m_batch_norm, x_buf)
  let self := { self with m_batch_norm := r2.1 }
  let x_buf := r2.2
  let self :=
    if self.m_memory_saving || !train then
      { self with m_batch_norm := batch_norm.SetFrameBufferX self.m_batch_norm empty }
    else self
  let r3 := activation.Forward self.m_activation x_buf train
  let self := { self with m_activation := r3.1 }
  let x_buf := r3.2
  let self :=
    if self.m_memory_saving || !train then
      { self with m_activation := activation.SetFrameBufferX self.m_activation empty }
    else self
  (self, x_buf)

/-- The embedding of `SparseLutDiscreteN::Backward(dy_buf)`. -/
def Backward (lut : SubLayer L) (batch_norm : SubLayer B) (activation : SubLayer A)
    (self : SparseLutDiscreteN L B A) (dy_buf : FrameBuffer) :
    SparseLutDiscreteN L B A × FrameBuffer :=
  let self :=
    if self.m_memory_saving then
      let r1 := lut.ReForward self.m_lut (lut.GetFrameBufferX self.m_lut)
      let self := { self with m_lut := r1.1 }
      let x_buf := r1.2
      let r2 :=
        if self.m_bn_enable then batch_norm.ReForward self.m_batch_norm x_buf
        else (self.m_batch_norm, x_buf)
      let self := { self with m_batch_norm := r2.1 }
      let x_buf := r2.2
      { self with m_activation := activation.SetFrameBufferX self.m_activation x_buf }
    else self
  let r3 := activation.Backward self.m_activation dy_buf
  let self := { self with m_activation := r3.1 }
  let dy_buf := r3.2
  let r4 := batch_norm.Backward self.m_batch_norm dy_buf
  let self := { self with m_batch_norm := r4.1 }
  let dy_buf := r4.2
  let r5 := lut.Backward self.m_lut dy_buf
  let self := { self with m_lut := r5.1 }
  let dy_buf := r5.2
  (self, dy_buf)

end SparseLutDiscreteN

/-- A stateless sub-layer whose passes return their argument. -/
def exampleIdentityLayer : SubLayer Unit where
  Forward := fun s x _ => (s, x)
  ReForward := fun s x => (s, x)
  Backward := fun s dy => (s, dy)
  SetFrameBufferX := fun s _ => s
  GetFrameBufferX := fun _ => exampleDefault

/-- A stateless sub-layer whose passes clear their argument. -/
def exampleClearingLayer : SubLayer Unit where
  Forward := fun s x _ => (s, x.FillZero)
  ReForward := fun s x => (s, x.FillZero)
  Backward := fun s dy => (s, dy.FillZero)
  SetFrameBufferX := fun s _ => s
  GetFrameBufferX := fun _ => exampleDefault

/-- A `SparseLutDiscreteN` created with `batch_norm = false`. -/
def exampleSparseLut : SparseLutDiscreteN Unit Unit Unit :=
  { m_memory_saving := false, m_bn_enable := false, m_lut := (), m_batch_norm := (),
    m_activation := () }

/-! ## The sample `samples/cifar10/Cifar10SparseLutCnn.cpp` -/

/-- The layer variables of `SparseLutCnn`: the eighteen `SparseLutN` layers
of the training network and the `BinaryLutN` layers of the evaluation
network. -/
inductive LayerVar
  | layer_cnv0_sl0 | layer_cnv0_sl1
  | layer_cnv1_sl0 | layer_cnv1_sl1 | layer_cnv1_sl2
  | layer_cnv2_sl0 | layer_cnv2_sl1 | layer_cnv2_sl2
  | layer_cnv3_sl0 | layer_cnv3_sl1 | layer_cnv3_sl2
  | layer_sl4 | layer_sl5 | layer_sl6 | layer_sl7 | layer_sl8 | layer_sl9 | layer_sl10
  | layer_cnv0_bl0 | layer_cnv0_bl1
  | layer_cnv1_bl0 | layer_cnv1_bl1 | layer_cnv1_bl2
  | layer_cnv2_bl0 | layer_cnv2_bl1 | layer_cnv2_bl2
  | layer_cnv3_bl0 | layer_cnv3_bl1 | layer_cnv3_bl2
  | layer_bl4 | layer_bl5 | layer_bl6 | layer_bl7 | layer_bl8 | layer_bl9 | layer_bl10
  deriving DecidableEq, Repr

namespace SparseLutCnn

open LayerVar

/-- The `BinaryLutN` layers that `SparseLutCnn` creates for the evaluation
network, each paired with the `SparseLutN` layer whose output shape it is
created from, in the order of the statements. -/
def created : List (LayerVar × LayerVar) :=
  [ (layer_cnv0_bl0, layer_cnv0_sl0), (layer_cnv0_bl1, layer_cnv0_sl1),
    (layer_cnv1_bl0, layer_cnv1_sl0), (layer_cnv1_bl1, layer_cnv1_sl1),
    (layer_cnv1_bl2, layer_cnv1_sl2),
    (layer_cnv2_bl0, layer_cnv2_sl0), (layer_cnv2_bl1, layer_cnv2_sl1),
    (layer_cnv2_bl2, layer_cnv2_sl2),
    (layer_cnv3_bl0, layer_cnv3_sl0), (layer_cnv3_bl1, layer_cnv3_sl1),
    (layer_cnv3_bl2, layer_cnv3_sl2),
    (layer_bl4, layer_sl4), (layer_bl5, layer_sl5), (layer_bl6, layer_sl6),
    (layer_bl7, layer_sl7), (layer_bl8, layer_sl8), (layer_bl9, layer_sl9),
    (layer_bl10, layer_sl10) ]

/-- The calls `target->ImportLayer(source)` of the parameter-copy step of
`SparseLutCnn`, as pairs `(target, source)` in the order of the statements. -/
def imports : List (LayerVar × LayerVar) :=
  [ (layer_cnv0_bl0, layer_cnv0_sl0),
    (layer_cnv0_bl1, layer_cnv0_sl1),
    (layer_cnv1_bl2, layer_cnv1_sl2),
    (layer_cnv1_bl1, layer_cnv1_sl1),
    (layer_cnv1_bl2, layer_cnv1_sl2),
    (layer_cnv2_bl0, layer_cnv2_sl0),
    (layer_cnv2_bl1, layer_cnv2_sl1),
    (layer_cnv2_bl2, layer_cnv2_sl2),
    (layer_cnv3_bl0, layer_cnv3_sl0),
    (layer_cnv3_bl1, layer_cnv3_sl1),
    (layer_cnv3_bl2, layer_cnv3_sl2),
    (layer_bl4, layer_sl4),
    (layer_bl5, layer_sl5),
    (layer_bl6, layer_sl6),
    (layer_bl7, layer_sl7),
    (layer_bl8, layer_sl8),
    (layer_bl9, layer_sl9),
    (layer_bl10, layer_sl10) ]

end SparseLutCnn

/-! ## NeuralNetConvolution (`bb/NeuralNetConvolution.h`) -/

/-- The conversion `(int)v` of a `size_t` value. -/
def int_cast (v : Nat) : Int := toSigned 32 (v % 2 ^ 32)

/-- The conversion of an `int` to `size_t`, which the usual arithmetic
conversions apply to an `int` operand next to a `size_t` one. -/
def size_t_cast (x : Int) : Int := x % 2 ^ 64

/-- The data members of `class NeuralNetConvolution` with `INDEX = size_t`.
The vectors are kept as lists; the `int` members are unbounded integers, so
the embedding describes the runs in which no `int` expression overflows. -/
structure NeuralNetConvolution where
  m_mux_size : Nat
  m_frame_size : Nat
  m_input_h_size : Int
  m_input_w_size : Int
  m_input_c_size : Int
  m_filter_h_size : Int
  m_filter_w_size : Int
  m_output_h_size : Int
  m_output_w_size : Int
  m_output_c_size : Int
  m_W : List Nat
  m_b : List Nat
  m_dW : List Nat
  m_db : List Nat
  deriving DecidableEq, Repr

/-- One access of `Forward` to a buffer or to a parameter vector: the node
given to `GetPtr` of the output or the input buffer, or the result of the
accessor `W` or `b` (`none` when one of its assertions fails). -/
inductive Access
  | output (node : Int)
  | input (node : Int)
  | W (index : Option Int)
  | b (index : Option Int)
  deriving DecidableEq, Repr

/-- The accesses of the loop `for (int i = 0; i < n; ++i)`, in order. -/
def loopAccesses (n : Int) (body : Int → List Access) : List Access :=
  (List.range n.toNat).flatMap (fun i => body (i : Int))

namespace NeuralNetConvolution

/-- The embedding of `NeuralNetConvolution::Resize`.  The random initial
values of `m_W` and `m_b` are not modelled: the vectors are filled with `0`. -/
def Resize (self : NeuralNetConvolution)
    (input_c_size input_h_size input_w_size output_c_size filter_h_size filter_w_size : Nat) :
    NeuralNetConvolution :=
  let m_input_c_size := int_cast input_c_size
  let m_input_h_size := int_cast input_h_size
  let m_input_w_size := int_cast input_w_size
  let m_filter_h_size := int_cast filter_h_size
  let m_filter_w_size := int_cast filter_w_size
  let m_output_c_size := int_cast output_c_size
  let m_output_h_size := m_input_h_size - m_filter_h_size + 1
  let m_output_w_size := m_input_w_size - m_filter_w_size + 1
  { self with
    m_input_c_size := m_input_c_size
    m_input_h_size := m_input_h_size
    m_input_w_size := m_input_w_size
    m_filter_h_size := m_filter_h_size
    m_filter_w_size := m_filter_w_size
    m_output_c_size := m_output_c_size
    m_output_h_size := m_output_h_size
    m_output_w_size := m_output_w_size
    m_W := List.replicate
      (size_t_cast (m_output_c_size * m_input_c_size * m_filter_h_size * m_filter_w_size)).toNat 0
    m_b := List.replicate (size_t_cast m_output_c_size).toNat 0
    m_dW := List.replicate
      (size_t_cast (m_output_c_size * m_input_c_size * m_filter_h_size * m_filter_w_size)).toNat 0
    m_db := List.replicate (size_t_cast m_output_c_size).toNat 0 }

/-- The index expression and the four assertions shared by the accessors
`W` and `dW`, on `size_t` arguments: `none` is a failed `BB_ASSERT`, and the
result is the index into the vector.  The comparisons and the arithmetic are
those of `size_t`. -/
def W_index (self : NeuralNetConvolution) (n c y x : Nat) : Option Int :=
  if ¬ ((n : Int) ≥ 0 ∧ (n : Int) < size_t_cast self.m_output_c_size) then none
  else if ¬ ((c : Int) ≥ 0 ∧ (c : Int) < size_t_cast self.m_input_c_size) then none
  else if ¬ ((y : Int) ≥ 0 ∧ (y : Int) < size_t_cast self.m_input_h_size) then none
  else if ¬ ((x : Int) ≥ 0 ∧ (x : Int) < size_t_cast self.m_input_w_size) then none
  else
    some
      ((((n * size_t_cast self.m_input_c_size + c) * size_t_cast self.m_filter_h_size + y)
          * size_t_cast self.m_filter_w_size + x) % 2 ^ 64)

/-- The embedding of `NeuralNetConvolution::W(n, c, y, x)`, as the index of
the element of `m_W` it refers to. -/
def W (self : NeuralNetConvolution) (n c y x : Nat) : Option Int := self.W_index n c y x

/-- The embedding of `NeuralNetConvolution::dW(n, c, y, x)`, as the index
of the element of `m_dW` it refers to. -/
def dW (self : NeuralNetConvolution) (n c y x : Nat) : Option Int := self.W_index n c y x

/-- The embedding of `NeuralNetConvolution::b(n)`, as an index into `m_b`. -/
def b (self : NeuralNetConvolution) (n : Nat) : Option Int :=
  if ¬ ((n : Int) ≥ 0 ∧ (n : Int) < size_t_cast self.m_output_c_size) then none
  else some n

def GetInputNodeSize (self : NeuralNetConvolution) : Int :=
  size_t_cast (self.m_input_c_size * self.m_input_h_size * self.m_input_w_size)

def GetOutputNodeSize (self : NeuralNetConvolution) : Int :=
  size_t_cast (self.m_output_c_size * self.m_output_h_size * self.m_output_w_size)

/-- The node that `GetInputPtr(buf, c, y, x)` passes to `buf.GetPtr`. -/
def GetInputPtr (self : NeuralNetConvolution) (c y x : Int) : Int :=
  (c * self.m_input_h_size + y) * self.m_input_w_size + x

/-- The node that `GetOutputPtr(buf, c, y, x)` passes to `buf.GetPtr`. -/
def GetOutputPtr (self : NeuralNetConvolution) (c y x : Int) : Int :=
  (c * self.m_output_h_size + y) * self.m_output_w_size + x

/-- The embedding of the `float` branch of `NeuralNetConvolution::Forward`,
reduced to the accesses it makes, in order.  The loop over `frame` steps by
`8` up to `m256_frame_size`, that is `(m_frame_size + 7) / 8` rounds. -/
def Forward (self : NeuralNetConvolution) : List Access :=
  loopAccesses self.m_output_c_size fun n =>
    loopAccesses self.m_output_h_size fun y =>
      loopAccesses self.m_output_w_size fun x =>
        Access.output (self.GetOutputPtr n y x) ::
          loopAccesses (((self.m_frame_size + 7) / 8 : Nat) : Int) fun _frame =>
            Access.b (self.b n.toNat) ::
              loopAccesses self.m_input_c_size fun c =>
                loopAccesses self.m_filter_h_size fun fy =>
                  loopAccesses self.m_filter_w_size fun fx =>
                    let ix := x + fx
                    let iy := y + fy
                    [Access.input (self.GetInputPtr c iy ix),
                      Access.W (self.W n.toNat c.toNat fy.toNat fx.toNat)]

end NeuralNetConvolution

/-- A default-constructed `NeuralNetConvolution` before `Resize`. -/
def exampleConvolutionInit : NeuralNetConvolution :=
  { m_mux_size := 1, m_frame_size := 1, m_input_h_size := 0, m_input_w_size := 0,
    m_input_c_size := 0, m_filter_h_size := 0, m_filter_w_size := 0, m_output_h_size := 0,
    m_output_w_size := 0, m_output_c_size := 0, m_W := [], m_b := [], m_dW := [], m_db := [] }

/-- The layer after `Resize(1, 3, 3, 1, 2, 2)`: one input channel of `3 x 3`,
one output channel, a `2 x 2` filter. -/
def exampleConvolution : NeuralNetConvolution :=
  exampleConvolutionInit.Resize 1 3 3 1 2 2

/-- The access `a` of the layer `self` is in range: a node below the node
size of its buffer, or an accessor call that passes its assertions with an
index below the length of its vector. -/
def NeuralNetConvolution.InRange (self : NeuralNetConvolution) : Access → Prop
  | Access.output node => 0 ≤ node ∧ node < self.GetOutputNodeSize
  | Access.input node => 0 ≤ node ∧ node < self.GetInputNodeSize
  | Access.W index => ∃ k : Nat, index = some (k : Int) ∧ k < self.m_W.length
  | Access.b index => ∃ k : Nat, index = some (k : Int) ∧ k < self.m_b.length

/-! ## SparseLayer (`bb/SparseLayer.h`) -/

namespace SparseLayer

/-- The embedding of the branch `"serial"` of
`SparseLayer::InitializeNodeInput` on a layer state `σ`.  The pure virtual
members `GetNodeInputSize` and `SetNodeInput` are parameters, and
`input_node_size` and `output_node_size` are the shape sizes computed at the
head of the function; the result pairs the layer with the final value of the
local counter `input_node`. -/
def InitializeNodeInput_serial {σ : Type} (GetNodeInputSize : σ → Int → Int)
    (SetNodeInput : σ → Int → Int → Int → σ) (input_node_size output_node_size : Int)
    (self : σ) : σ × Int :=
  forLoop output_node_size.toNat
    (fun output_node st =>
      let m := GetNodeInputSize st.1 output_node
      forLoop m.toNat
        (fun i st =>
          (SetNodeInput st.1 output_node i (st.2.tmod input_node_size), st.2 + 1))
        st)
    (self, 0)

/-- The calls `SetNodeInput(node, input_index, input_node)` that the
`"serial"` branch makes, in order, on a layer whose node `o` has `k o`
inputs: the layer state is the list of the calls made so far. -/
def serialCalls (k : Int → Int) (input_node_size output_node_size : Int) :
    List (Int × Int × Int) :=
  (InitializeNodeInput_serial (fun _ o => k o) (fun log o i n => log ++ [(o, i, n)])
    input_node_size output_node_size []).1

/-- The number of inputs of the output nodes before node `o`:
`k 0 + ... + k (o - 1)`. -/
def inputsBefore (k : Int → Int) (o : Int) : Int :=
  ((List.range o.toNat).map (fun j : Nat => k (j : Int))).sum

end SparseLayer

/-- A layer with three output nodes of `2`, `3` and `1` inputs (and no
input for any other node). -/
def exampleInputCounts (o : Int) : Int :=
  if o = 0 then 2 else if o = 1 then 3 else if o = 2 then 1 else 0

/-! ## ConvolutionCol2Im (`bb/ConvolutionCol2Im.h`) -/

namespace FrameBuffer

/-- Modelled from the spec: `FrameBuffer::Resize(data_type, frame_size,
shape)`, the argument order that `ConvolutionCol2Im.h` calls; `FrameBuffer.h`
declares `Resize(frame_size, shape, data_type)`, which is taken to be the
same function. -/
def Resize_typed (self : FrameBuffer) (data_type : DType) (frame_size : Int)
    (shape : List Int) : FrameBuffer :=
  self.Resize frame_size shape data_type

/-- Modelled from the spec: `FrameBuffer::GetConstPtr<Tp>()`, which
`FrameBuffer.h` does not declare; it is taken to be the typed read view that
`LockConst<Tp>()` returns, represented by the buffer it points to. -/
def GetConstPtr (_Tp : DType) (self : FrameBuffer) : FrameBuffer := self

/-- Modelled from the spec: `FrameBuffer::GetPtr<Tp>(new_buf)`, which
`FrameBuffer.h` does not declare; it is taken to be the typed write view
that `Lock<Tp>(new_buf)` returns, represented by the buffer it points to. -/
def GetPtr (_Tp : DType) (self : FrameBuffer) (_new_buf : Bool) : FrameBuffer := self

end FrameBuffer

/-- The data members of `class ConvolutionCol2Im`. -/
structure ConvolutionCol2Im where
  m_c_size : Int
  m_h_size : Int
  m_w_size : Int
  m_y : FrameBuffer
  m_dx : FrameBuffer
  deriving DecidableEq, Repr

namespace ConvolutionCol2Im

/-- The embedding of `ConvolutionCol2Im::Forward(x, train)`; `none` is a
failed `BB_ASSERT`.  The loop state pairs the buffer behind `y_ptr` with the
local counter `input_frame`; the result pairs the layer, whose member `m_y`
was written, with the returned buffer. -/
def Forward (FT : DType) (self : ConvolutionCol2Im) (x : FrameBuffer) (_train : Bool) :
    Option (ConvolutionCol2Im × FrameBuffer) :=
  if ¬ (x.GetType = FT) then none
  else
    let input_frame_size := x.GetFrameSize
    if ¬ (input_frame_size.tmod (self.m_h_size * self.m_w_size) = 0) then none
    else
      let output_frame_size := input_frame_size.tdiv (self.m_h_size * self.m_w_size)
      let m_y := self.m_y.Resize_typed FT output_frame_size
        [self.m_w_size, self.m_h_size, self.m_c_size]
      let x_ptr := x.GetConstPtr FT
      let st :=
        forLoop output_frame_size.toNat
          (fun output_frame st =>
            forLoop self.m_h_size.toNat
              (fun y st =>
                forLoop self.m_w_size.toNat
                  (fun x st =>
                    (forLoop self.m_c_size.toNat
                      (fun c y_ptr =>
                        let input_node := c
                        let output_node := (c * self.m_h_size + y) * self.m_w_size + x
                        FrameBufferPtr_.Set FT y_ptr output_frame output_node
                          (FrameBufferConstPtr_.Get FT x_ptr st.2 input_node))
                      st.1,
                     st.2 + 1))
                  st)
              st)
          (m_y.GetPtr FT true, 0)
      some ({ self with m_y := st.1 }, st.1)

/-- The embedding of `ConvolutionCol2Im::Backward(dy)`, as `Forward`; the
call `m_dx.Resize(type, input_frame_size, m_c_size)` gives the node shape
`{m_c_size}`. -/
def Backward (BT : DType) (self : ConvolutionCol2Im) (dy : FrameBuffer) :
    Option (ConvolutionCol2Im × FrameBuffer) :=
  if ¬ (dy.GetType = BT) then none
  else
    let output_frame_size := dy.GetFrameSize
    let input_frame_size := output_frame_size * (self.m_h_size * self.m_w_size)
    let m_dx := self.m_dx.Resize_typed BT input_frame_size [self.m_c_size]
    let dy_ptr := dy.GetConstPtr BT
    let st :=
      forLoop output_frame_size.toNat
        (fun output_frame st =>
          forLoop self.m_h_size.toNat
            (fun y st =>
              forLoop self.m_w_size.toNat
                (fun x st =>
                  (forLoop self.m_c_size.toNat
                    (fun c dx_ptr =>
                      let output_node := (c * self.m_h_size + y) * self.m_w_size + x
                      let input_node := c
                      FrameBufferPtr_.Set BT dx_ptr st.2 input_node
                        (FrameBufferConstPtr_.Get BT dy_ptr output_frame output_node))
                    st.1,
                   st.2 + 1))
                st)
            st)
        (m_dx.GetPtr BT true, 0)
    some ({ self with m_dx := st.1 }, st.1)

end ConvolutionCol2Im

/-- A `ConvolutionCol2Im` layer created with `c_size = 2`, `h_size = 1` and
`w_size = 3`. -/
def exampleCol2Im : ConvolutionCol2Im :=
  { m_c_size := 2, m_h_size := 1, m_w_size := 3, m_y := exampleDefault, m_dx := exampleDefault }

/-- A `UINT8` gradient buffer with `frame_size = 1` and node shape `[3, 1, 2]`
holding `9` at node `4`. -/
def exampleGradient : FrameBuffer :=
  (FrameBuffer.ctor_sized ⟨[], DType.UINT8, []⟩ DType.UINT8 1 [3, 1, 2] DType.UINT8).FillZero.Set
    DType.UINT8 0 4 9

/-! ## Lemmas -/

theorem DataType_GetBitSize_pos (t : DType) : 0 < DataType_GetBitSize t := by
  cases t <;> decide

theorem Resize_frame_stride (self : FrameBuffer) (frame_size : Int) (shape : List Int)
    (t : DType) :
    (self.Resize frame_size shape t).GetFrameStride
      = ((frame_size * DataType_GetBitSize t + 255).tdiv 256) * 32 := by
  rfl

theorem ceil_div_256 (x : Int) (hx : 0 ≤ x) : ⌈(x : ℚ) / 256⌉ = (x + 255).tdiv 256 := by
  rw [Int.tdiv_eq_ediv (by omega) (by norm_num)]
  rw [Int.ceil_eq_iff]
  have h1 : (x + 255) / 256 * 256 ≤ x + 255 := Int.ediv_mul_le _ (by norm_num)
  have h2 : x + 255 < ((x + 255) / 256 + 1) * 256 := Int.lt_ediv_add_one_mul_self _ (by norm_num)
  have h3 : 256 * ((x + 255) / 256) ≤ x + 255 := by omega
  have h4 : x < 256 * ((x + 255) / 256) + 1 := by omega
  constructor
  · rw [lt_div_iff₀ (by norm_num)]
    have : (((x + 255) / 256 : Int) : ℚ) * 256 < (x : ℚ) + 256 := by
      have : ((x + 255) / 256) * 256 < x + 256 := by omega
      exact_mod_cast this
    linarith
  · rw [div_le_iff₀ (by norm_num)]
    have : x ≤ ((x + 255) / 256) * 256 := by omega
    exact_mod_cast this

/-! ### Bytes and bits of the storage -/

theorem getD_set (m : List Nat) (i j v : Nat) :
    (m.set i v).getD j 0 = if i = j ∧ i < m.length then v else m.getD j 0 := by
  simp only [List.getD_eq_getElem?_getD, List.getElem?_set]
  by_cases hij : i = j
  · subst hij
    by_cases hl : i < m.length
    · simp [hl]
    · simp [hl, List.getElem?_eq_none (Nat.le_of_not_lt hl)]
  · simp [hij]

theorem length_writeBytes (m : List Nat) (a s v : Nat) :
    (writeBytes m a s v).length = m.length := by
  induction s generalizing m a v with
  | zero => rfl
  | succ s ih => simp [writeBytes, ih]

theorem getD_writeBytes_outside (m : List Nat) (a s v j : Nat) (h : j < a ∨ a + s ≤ j) :
    (writeBytes m a s v).getD j 0 = m.getD j 0 := by
  induction s generalizing m a v with
  | zero => rfl
  | succ s ih =>
    rw [writeBytes, ih _ _ _ (by omega), getD_set, if_neg (by omega)]

theorem readBytes_congr (m1 m2 : List Nat) (a s : Nat)
    (h : ∀ k, k < s → m1.getD (a + k) 0 = m2.getD (a + k) 0) :
    readBytes m1 a s = readBytes m2 a s := by
  induction s generalizing a with
  | zero => rfl
  | succ s ih =>
    rw [readBytes, readBytes, ih (a + 1) (fun k hk => by
      have := h (k + 1) (by omega)
      rwa [show a + (k + 1) = a + 1 + k by omega] at this)]
    have := h 0 (by omega)
    simp only [Nat.add_zero] at this
    rw [this]

theorem readBytes_writeBytes_same (m : List Nat) (a s v : Nat) (h : a + s ≤ m.length) :
    readBytes (writeBytes m a s v) a s = v % 256 ^ s := by
  induction s generalizing m a v with
  | zero => simp [readBytes, Nat.mod_one]
  | succ s ih =>
    rw [writeBytes, readBytes, ih _ _ _ (by simp; omega),
      getD_writeBytes_outside _ _ _ _ _ (by omega), getD_set, if_pos ⟨rfl, by omega⟩]
    rw [pow_succ, Nat.mul_comm (256 ^ s) 256, Nat.mod_mul, Nat.mod_mod]

theorem readBytes_writeBytes_disjoint (m : List Nat) (a s v b r : Nat)
    (h : b + r ≤ a ∨ a + s ≤ b) :
    readBytes (writeBytes m a s v) b r = readBytes m b r := by
  apply readBytes_congr
  intro k hk
  exact getD_writeBytes_outside _ _ _ _ _ (by omega)

theorem length_writeAt (m : List Nat) (a : Int) (s v : Nat) :
    (writeAt m a s v).length = m.length := by
  unfold writeAt
  split
  · rfl
  · exact length_writeBytes _ _ _ _

theorem readAt_writeAt_same (m : List Nat) (a : Int) (s v : Nat) (ha : 0 ≤ a)
    (h : a + s ≤ m.length) : readAt (writeAt m a s v) a s = v % 256 ^ s := by
  unfold readAt writeAt
  rw [if_neg (by omega), if_neg (by omega)]
  exact readBytes_writeBytes_same _ _ _ _ (by omega)

theorem readAt_writeAt_disjoint (m : List Nat) (a b : Int) (s r v : Nat)
    (h : b + r ≤ a ∨ a + s ≤ b) : readAt (writeAt m a s v) b r = readAt m b r := by
  unfold readAt writeAt
  by_cases hb : b < 0
  · simp [hb]
  · by_cases ha : a < 0
    · simp [ha]
    · rw [if_neg hb, if_neg ha, if_neg hb]
      exact readBytes_writeBytes_disjoint _ _ _ _ _ _ (by omega)

theorem testBit_setBit (b k j : Nat) (v : Bool) (hj : j < 8) :
    (setBit b k v).testBit j = if j = k then v else b.testBit j := by
  unfold setBit
  have h255 : Nat.testBit 255 j = true := by
    have := @Nat.testBit_two_pow_sub_one 8 j
    simpa [hj] using this
  cases v
  · simp only [Bool.false_eq_true, if_false, Nat.testBit_and, Nat.testBit_xor]
    rw [h255, Nat.one_shiftLeft, Nat.testBit_two_pow]
    by_cases h : j = k
    · subst h; simp
    · have h2 : ¬ k = j := fun e => h e.symm
      simp [h, h2]
  · simp only [if_true, Nat.testBit_or]
    rw [Nat.one_shiftLeft, Nat.testBit_two_pow]
    by_cases h : j = k
    · subst h; simp
    · have h2 : ¬ k = j := fun e => h e.symm
      simp [h, h2]

theorem testBit_setBit_same (b k : Nat) (v : Bool) (hk : k < 8) :
    (setBit b k v).testBit k = v := by
  rw [testBit_setBit _ _ _ _ hk, if_pos rfl]

theorem testBit_setBit_other (b k j : Nat) (v : Bool) (h : j ≠ k) (hj : j < 8) :
    (setBit b k v).testBit j = b.testBit j := by
  rw [testBit_setBit _ _ _ _ hj, if_neg h]

theorem length_writeBitAt (m : List Nat) (a : Int) (k : Nat) (v : Bool) :
    (writeBitAt m a k v).length = m.length := by
  unfold writeBitAt
  split
  · rfl
  · exact List.length_set _ _ _

theorem readBitAt_writeBitAt_same (m : List Nat) (a : Int) (k : Nat) (v : Bool) (ha : 0 ≤ a)
    (h : a < m.length) (hk : k < 8) : readBitAt (writeBitAt m a k v) a k = v := by
  unfold readBitAt writeBitAt
  rw [if_neg (by omega), if_neg (by omega), getD_set, if_pos ⟨rfl, by omega⟩,
    testBit_setBit_same _ _ _ hk]

theorem readBitAt_writeBitAt_other (m : List Nat) (a b : Int) (k j : Nat) (v : Bool)
    (hj : j < 8) (h : a ≠ b ∨ k ≠ j) :
    readBitAt (writeBitAt m a k v) b j = readBitAt m b j := by
  unfold readBitAt writeBitAt
  by_cases hb : b < 0
  · simp [hb]
  · by_cases ha : a < 0
    · simp [ha]
    · rw [if_neg hb, if_neg ha, if_neg hb, getD_set]
      by_cases hab : a = b
      · subst hab
        have hkj : j ≠ k := by
          rcases h with h | h
          · exact absurd rfl h
          · exact fun e => h e.symm
        split
        · exact testBit_setBit_other _ _ _ _ hkj hj
        · rfl
      · rw [if_neg]
        intro hc
        exact hab (by omega)

/-! ### Element reads and writes -/

theorem tdiv_tmod_nonneg (x : Int) (hx : 0 ≤ x) :
    x.tdiv 8 = x / 8 ∧ ((x.tmod 8).toNat : Int) = x % 8 := by
  rw [Int.tdiv_eq_ediv hx (by norm_num), Int.tmod_eq_emod hx (by norm_num)]
  exact ⟨rfl, Int.toNat_of_nonneg (Int.emod_nonneg _ (by norm_num))⟩

theorem DataType_GetByteSize_eq (t : DType) (ht : t ≠ DType.BIT) :
    DataType_GetBitSize t = 8 * DataType_GetByteSize t
      ∧ ((DataType_GetByteSize t).toNat : Int) = DataType_GetByteSize t
      ∧ 2 ^ (DataType_GetBitSize t).toNat = 256 ^ (DataType_GetByteSize t).toNat
      ∧ 0 < DataType_GetByteSize t := by
  cases t <;> first | exact absurd rfl ht | decide

theorem length_DataType_Write (t : DType) (m : List Nat) (base index : Int) (v : Nat) :
    (DataType_Write t m base index v).length = m.length := by
  cases t <;> first | exact length_writeBitAt _ _ _ _ | exact length_writeAt _ _ _ _

theorem DataType_Write_eq (t : DType) (ht : t ≠ DType.BIT) (m : List Nat) (base index : Int)
    (v : Nat) :
    DataType_Write t m base index v
      = writeAt m (base + index * DataType_GetByteSize t) (DataType_GetByteSize t).toNat v := by
  cases t <;> first | exact absurd rfl ht | rfl

theorem DataType_Read_eq (t : DType) (ht : t ≠ DType.BIT) (m : List Nat) (base index : Int) :
    DataType_Read t m base index
      = readAt m (base + index * DataType_GetByteSize t) (DataType_GetByteSize t).toNat := by
  cases t <;> first | exact absurd rfl ht | rfl

theorem DataType_Read_Write_same (t : DType) (m : List Nat) (base index : Int) (v : Nat)
    (hb : 0 ≤ base) (hi : 0 ≤ index)
    (hlen : 8 * base + (index + 1) * DataType_GetBitSize t ≤ 8 * m.length)
    (hv : v < 2 ^ (DataType_GetBitSize t).toNat) :
    DataType_Read t (DataType_Write t m base index v) base index = v := by
  by_cases ht : t = DType.BIT
  · subst ht
    obtain ⟨h1, h2⟩ := tdiv_tmod_nonneg index hi
    have hbits : DataType_GetBitSize DType.BIT = 1 := rfl
    rw [hbits] at hlen
    have hv2 : v < 2 := hv
    show (if readBitAt (writeBitAt m _ _ _) _ _ then 1 else 0) = v
    rw [readBitAt_writeBitAt_same _ _ _ _ (by omega) (by omega) (by omega)]
    rcases Nat.lt_succ_iff_lt_or_eq.mp hv2 with h | h
    · have : v = 0 := by omega
      subst this; rfl
    · subst h; rfl
  · obtain ⟨e1, e2, e3, e4⟩ := DataType_GetByteSize_eq t ht
    rw [DataType_Write_eq t ht, DataType_Read_eq t ht]
    rw [e1] at hlen
    rw [e3] at hv
    have hmul : 0 ≤ index * DataType_GetByteSize t := Int.mul_nonneg hi e4.le
    rw [readAt_writeAt_same _ _ _ _ (by omega) (by
      have : (index + 1) * (8 * DataType_GetByteSize t)
          = 8 * (index * DataType_GetByteSize t) + 8 * DataType_GetByteSize t := by ring
      omega)]
    exact Nat.mod_eq_of_lt hv

theorem DataType_Read_Write_other (t : DType) (m : List Nat) (base index base2 index2 : Int)
    (v : Nat) (hi : 0 ≤ index) (hi2 : 0 ≤ index2)
    (h : 8 * base + (index + 1) * DataType_GetBitSize t ≤ 8 * base2 + index2 * DataType_GetBitSize t
      ∨ 8 * base2 + (index2 + 1) * DataType_GetBitSize t
          ≤ 8 * base + index * DataType_GetBitSize t) :
    DataType_Read t (DataType_Write t m base index v) base2 index2
      = DataType_Read t m base2 index2 := by
  by_cases ht : t = DType.BIT
  · subst ht
    obtain ⟨h1, h2⟩ := tdiv_tmod_nonneg index hi
    obtain ⟨h3, h4⟩ := tdiv_tmod_nonneg index2 hi2
    have hbits : DataType_GetBitSize DType.BIT = 1 := rfl
    rw [hbits] at h
    show (if readBitAt (writeBitAt m _ _ _) _ _ then 1 else 0) = (if readBitAt m _ _ then 1 else 0)
    rw [readBitAt_writeBitAt_other _ _ _ _ _ _ (by omega) (by omega)]
  · obtain ⟨e1, e2, e3, e4⟩ := DataType_GetByteSize_eq t ht
    rw [DataType_Write_eq t ht, DataType_Read_eq t ht, DataType_Read_eq t ht]
    rw [e1] at h
    have r1 : (index + 1) * (8 * DataType_GetByteSize t)
        = 8 * (index * DataType_GetByteSize t) + 8 * DataType_GetByteSize t := by ring
    have r2 : (index2 + 1) * (8 * DataType_GetByteSize t)
        = 8 * (index2 * DataType_GetByteSize t) + 8 * DataType_GetByteSize t := by ring
    have r3 : index * (8 * DataType_GetByteSize t) = 8 * (index * DataType_GetByteSize t) := by
      ring
    have r4 : index2 * (8 * DataType_GetByteSize t) = 8 * (index2 * DataType_GetByteSize t) := by
      ring
    rw [r1, r2, r3, r4] at h
    exact readAt_writeAt_disjoint _ _ _ _ _ _ (by omega)

theorem readBytes_lt (m : List Nat) (a s : Nat) : readBytes m a s < 256 ^ s := by
  induction s generalizing a with
  | zero => simp [readBytes]
  | succ s ih =>
    have h1 := ih (a + 1)
    have h2 : m.getD a 0 % 256 < 256 := Nat.mod_lt _ (by norm_num)
    rw [readBytes, pow_succ]
    omega

theorem DataType_Read_lt (t : DType) (m : List Nat) (base index : Int) :
    DataType_Read t m base index < 2 ^ (DataType_GetBitSize t).toNat := by
  by_cases ht : t = DType.BIT
  · subst ht
    show (if readBitAt m _ _ then 1 else 0) < 2
    split <;> omega
  · obtain ⟨e1, e2, e3, e4⟩ := DataType_GetByteSize_eq t ht
    rw [DataType_Read_eq t ht, e3]
    unfold readAt
    split
    · exact Nat.pos_pow_of_pos _ (by norm_num)
    · exact readBytes_lt _ _ _

/-! ### Elements of a well-formed buffer -/

theorem foldl_mul_eq_prod (l : List Int) (a : Int) :
    l.foldl (fun acc size => acc * size) a = a * l.prod := by
  induction l generalizing a with
  | nil => simp
  | cons x l ih => rw [List.foldl_cons, ih, List.prod_cons, Int.mul_assoc]

theorem WF_stride (fb : FrameBuffer) (h : fb.WF) :
    0 ≤ fb.m_frame_stride
      ∧ fb.m_frame_size * DataType_GetBitSize fb.m_data_type ≤ 8 * fb.m_frame_stride := by
  obtain ⟨h1, h2, _⟩ := h
  have hb := DataType_GetBitSize_pos fb.m_data_type
  have hx : 0 ≤ fb.m_frame_size * DataType_GetBitSize fb.m_data_type := Int.mul_nonneg h1 hb.le
  rw [h2]
  generalize fb.m_frame_size * DataType_GetBitSize fb.m_data_type = x at hx
  rw [Int.tdiv_eq_ediv (by omega) (by norm_num)]
  omega

theorem WF_addr (fb : FrameBuffer) (h : fb.WF) (f n : Int) (hv : fb.ValidIndex f n) :
    0 ≤ 0 + fb.m_frame_stride * n
      ∧ 8 * (0 + fb.m_frame_stride * n) + (f + 1) * DataType_GetBitSize fb.m_data_type
          ≤ 8 * (fb.m_tensor.m_mem.length : Int) := by
  obtain ⟨hS, hcap⟩ := WF_stride fb h
  obtain ⟨_, _, hlen⟩ := h
  obtain ⟨hf0, hf1, hn0, hn1⟩ := hv
  simp only [FrameBuffer.GetFrameSize, FrameBuffer.GetNodeSize] at hf1 hn1
  have hb := DataType_GetBitSize_pos fb.m_data_type
  have a1 : 0 ≤ fb.m_frame_stride * n := Int.mul_nonneg hS hn0
  have a2 : (f + 1) * DataType_GetBitSize fb.m_data_type
      ≤ fb.m_frame_size * DataType_GetBitSize fb.m_data_type :=
    Int.mul_le_mul_of_nonneg_right (by omega) hb.le
  have a3 : fb.m_frame_stride * (n + 1) ≤ fb.m_frame_stride * fb.m_node_size :=
    Int.mul_le_mul_of_nonneg_left (by omega) hS
  rw [Int.mul_add, Int.mul_one] at a3
  have a4 : ((fb.m_tensor.m_mem.length : Nat) : Int) = fb.m_frame_stride * fb.m_node_size := by
    rw [hlen]
    exact Int.toNat_of_nonneg (by omega)
  omega

theorem WF_disjoint (fb : FrameBuffer) (h : fb.WF) (f n f2 n2 : Int)
    (hv : fb.ValidIndex f n) (hv2 : fb.ValidIndex f2 n2) (hne : ¬ (f = f2 ∧ n = n2)) :
    8 * (0 + fb.m_frame_stride * n) + (f + 1) * DataType_GetBitSize fb.m_data_type
        ≤ 8 * (0 + fb.m_frame_stride * n2) + f2 * DataType_GetBitSize fb.m_data_type
      ∨ 8 * (0 + fb.m_frame_stride * n2) + (f2 + 1) * DataType_GetBitSize fb.m_data_type
        ≤ 8 * (0 + fb.m_frame_stride * n) + f * DataType_GetBitSize fb.m_data_type := by
  obtain ⟨hS, hcap⟩ := WF_stride fb h
  obtain ⟨hf0, hf1, hn0, hn1⟩ := hv
  obtain ⟨hg0, hg1, hm0, hm1⟩ := hv2
  simp only [FrameBuffer.GetFrameSize, FrameBuffer.GetNodeSize] at hf1 hn1 hg1 hm1
  have hb := DataType_GetBitSize_pos fb.m_data_type
  have b1 : (f + 1) * DataType_GetBitSize fb.m_data_type
      ≤ fb.m_frame_size * DataType_GetBitSize fb.m_data_type :=
    Int.mul_le_mul_of_nonneg_right (by omega) hb.le
  have b2 : (f2 + 1) * DataType_GetBitSize fb.m_data_type
      ≤ fb.m_frame_size * DataType_GetBitSize fb.m_data_type :=
    Int.mul_le_mul_of_nonneg_right (by omega) hb.le
  have b3 : 0 ≤ f * DataType_GetBitSize fb.m_data_type := Int.mul_nonneg hf0 hb.le
  have b4 : 0 ≤ f2 * DataType_GetBitSize fb.m_data_type := Int.mul_nonneg hg0 hb.le
  rcases Int.lt_trichotomy n n2 with hlt | heq | hgt
  · left
    have a3 : fb.m_frame_stride * (n + 1) ≤ fb.m_frame_stride * n2 :=
      Int.mul_le_mul_of_nonneg_left (by omega) hS
    rw [Int.mul_add, Int.mul_one] at a3
    omega
  · subst heq
    rcases Int.lt_trichotomy f f2 with hlt | heq | hgt
    · left
      have : (f + 1) * DataType_GetBitSize fb.m_data_type
          ≤ f2 * DataType_GetBitSize fb.m_data_type :=
        Int.mul_le_mul_of_nonneg_right (by omega) hb.le
      omega
    · exact absurd ⟨heq, rfl⟩ hne
    · right
      have : (f2 + 1) * DataType_GetBitSize fb.m_data_type
          ≤ f * DataType_GetBitSize fb.m_data_type :=
        Int.mul_le_mul_of_nonneg_right (by omega) hb.le
      omega
  · right
    have a3 : fb.m_frame_stride * (n2 + 1) ≤ fb.m_frame_stride * n :=
      Int.mul_le_mul_of_nonneg_left (by omega) hS
    rw [Int.mul_add, Int.mul_one] at a3
    omega

theorem Set_WF (t : DType) (fb : FrameBuffer) (f n : Int) (v : Nat) (h : fb.WF) :
    (fb.Set t f n v).WF := by
  obtain ⟨h1, h2, h3⟩ := h
  refine ⟨h1, h2, ?_⟩
  show (DataType_Write t _ _ _ _).length = _
  rw [length_DataType_Write]
  exact h3

theorem Get_Set_same (fb : FrameBuffer) (h : fb.WF) (f n : Int) (v : Nat)
    (hv : fb.ValidIndex f n) (hval : FrameBuffer.ValidValue fb.m_data_type v) :
    (fb.Set fb.m_data_type f n v).Get fb.m_data_type f n = v := by
  obtain ⟨a1, a2⟩ := WF_addr fb h f n hv
  exact DataType_Read_Write_same _ _ _ _ _ a1 hv.1 a2 hval

theorem Get_Set_other (fb : FrameBuffer) (h : fb.WF) (f n f2 n2 : Int) (v : Nat)
    (hv : fb.ValidIndex f n) (hv2 : fb.ValidIndex f2 n2) (hne : ¬ (f = f2 ∧ n = n2)) :
    (fb.Set fb.m_data_type f n v).Get fb.m_data_type f2 n2 = fb.Get fb.m_data_type f2 n2 := by
  exact DataType_Read_Write_other _ _ _ _ _ _ _ hv.1 hv2.1 (WF_disjoint fb h f n f2 n2 hv hv2 hne)

theorem tdiv8_toNat (y : Int) : (((y * 8 + 7).tdiv 8).toNat : Int) = (y.toNat : Int) := by
  rcases Int.lt_or_le y 0 with hy | hy
  · have e : y * 8 + 7 = -(-y * 8 - 7) := by ring
    rw [e, Int.neg_tdiv, Int.tdiv_eq_ediv (by omega) (by norm_num)]
    omega
  · rw [Int.tdiv_eq_ediv (by omega) (by norm_num)]
    omega

theorem mul32_tdiv (q b k : Int) (hb : b * k = 32) (hb0 : 0 < b) :
    (q * Int.tdiv 256 8).tdiv b = q * k := by
  have e : Int.tdiv 256 8 = 32 := rfl
  have e2 : q * 32 = q * k * b := by rw [← hb]; ring
  rw [e, e2]
  exact Int.mul_tdiv_cancel _ (by omega)

theorem Resize_mem_length (self : FrameBuffer) (frame_size : Int) (shape : List Int)
    (t : DType) :
    (self.Resize frame_size shape t).m_tensor.m_mem.length
      = ((self.Resize frame_size shape t).m_frame_stride
          * (self.Resize frame_size shape t).m_node_size).toNat := by
  have key : ∀ y : Int, ((y * 8 + 7).tdiv 8).toNat = y.toNat :=
    fun y => Int.ofNat_inj.mp (tdiv8_toNat y)
  simp only [FrameBuffer.Resize, Tensor.Resize, List.length_replicate, List.prod_cons,
    foldl_mul_eq_prod, Int.one_mul]
  generalize (frame_size * DataType_GetBitSize t + 255).tdiv 256 = Q
  generalize shape.prod = P
  have e32 : Int.tdiv 256 8 = 32 := rfl
  have fin : ∀ (tt : DType) (k : Int), DataType_GetByteSize tt * k = 32 →
      0 < DataType_GetByteSize tt → k * DataType_GetBitSize tt = 256 →
      (((Q * Int.tdiv 256 8).tdiv (DataType_GetByteSize tt) * P * DataType_GetBitSize tt
          + 7).tdiv 8).toNat = (Q * Int.tdiv 256 8 * P).toNat := by
    intro tt k h1 h2 h3
    rw [mul32_tdiv Q _ k h1 h2]
    have : Q * k * P * DataType_GetBitSize tt + 7 = (Q * Int.tdiv 256 8 * P) * 8 + 7 := by
      rw [e32]
      have : Q * k * P * DataType_GetBitSize tt = Q * P * (k * DataType_GetBitSize tt) := by ring
      rw [this, h3]; ring
    rw [this]
    exact key _
  cases t
  · rw [if_pos rfl]; exact fin DType.UINT8 32 (by decide) (by decide) (by decide)
  all_goals rw [if_neg (by decide)]
  all_goals first
    | exact fin _ 32 (by decide) (by decide) (by decide)
    | exact fin _ 16 (by decide) (by decide) (by decide)
    | exact fin _ 8 (by decide) (by decide) (by decide)
    | exact fin _ 4 (by decide) (by decide) (by decide)

theorem Resize_WF (self : FrameBuffer) (frame_size : Int) (shape : List Int) (t : DType)
    (h : 0 ≤ frame_size) : (self.Resize frame_size shape t).WF :=
  ⟨h, rfl, Resize_mem_length self frame_size shape t⟩

theorem FillZero_WF (fb : FrameBuffer) (h : fb.WF) : fb.FillZero.WF := by
  obtain ⟨h1, h2, h3⟩ := h
  refine ⟨h1, h2, ?_⟩
  show (List.replicate _ 0).length = _
  rw [List.length_replicate]
  exact h3

theorem view_Set_eq (Tp : DType) (fb : FrameBuffer) (f n : Int) (v : Nat) :
    FrameBufferPtr_.Set Tp fb f n v = fb.Set Tp f n v := rfl

theorem view_Get_eq (Tp : DType) (fb : FrameBuffer) (f n : Int) :
    FrameBufferConstPtr_.Get Tp fb f n = fb.Get Tp f n := rfl

/-! ### Streams -/

theorem decodeInt_encodeInt (x : Int) : decodeInt (encodeInt x) = x := by
  unfold decodeInt encodeInt
  split <;> split <;> omega

theorem map_decodeInt_encodeInt (l : List Int) : (l.map encodeInt).map decodeInt = l := by
  induction l with
  | nil => rfl
  | cons x l ih => simp [decodeInt_encodeInt, ih]

theorem intOfBytes_intBytes (x : Int) (h : -2 ^ 31 ≤ x ∧ x < 2 ^ 31) (rest : List Nat) :
    ∃ b0 b1 b2 b3, intBytes x ++ rest = b0 :: b1 :: b2 :: b3 :: rest
      ∧ intOfBytes b0 b1 b2 b3 = x := by
  refine ⟨_, _, _, _, rfl, ?_⟩
  unfold intOfBytes toSigned
  have hp : ((x % 2 ^ 32).toNat : Int) = x % 2 ^ 32 :=
    Int.toNat_of_nonneg (Int.emod_nonneg _ (by norm_num))
  generalize (x % 2 ^ 32).toNat = p at hp
  have hlt : x % 2 ^ 32 < 2 ^ 32 := Int.emod_lt_of_pos _ (by norm_num)
  norm_num at *
  split <;> omega

theorem find_BB_TYPE (code : DType → Int) (hinj : Function.Injective code) (t : DType) :
    DType.all.find? (fun u => decide (code u = code t)) = some t := by
  have h : ∀ u, decide (code u = code t) = decide (u = t) := by
    intro u
    by_cases hu : u = t
    · subst hu; simp
    · have : code u ≠ code t := fun e => hu (hinj e)
      simp [hu, this]
  simp only [h]
  cases t <;> rfl

theorem exampleBB_TYPE_injective : Function.Injective exampleBB_TYPE := by
  intro a b h
  cases a <;> cases b <;> first | rfl | exact absurd h (by decide)

theorem exampleCodec_LoadIndices (l : List Int) (rest : List Nat) :
    exampleCodec.LoadIndices (exampleCodec.SaveIndices l ++ rest) = some (l, rest) := by
  show some (((l.map encodeInt ++ rest).take l.length).map decodeInt,
      (l.map encodeInt ++ rest).drop l.length) = some (l, rest)
  have hlen : (l.map encodeInt).length = l.length := List.length_map _ _
  rw [← hlen, List.take_left, List.drop_left, map_decodeInt_encodeInt]

theorem exampleCodec_TensorLoad (t self : Tensor) (rest : List Nat) :
    exampleCodec.TensorLoad self (exampleCodec.TensorSave t ++ rest) = some (t, rest) := by
  show (match DType.all.find?
        (fun u => decide (exampleBB_TYPE u = decodeInt (encodeInt (exampleBB_TYPE t.m_type)))) with
      | none => none
      | some m_type =>
        some ({ m_shape := (((t.m_shape.map encodeInt ++ t.m_mem) ++ rest).take
                  t.m_shape.length).map decodeInt
                m_type := m_type
                m_mem := (((t.m_shape.map encodeInt ++ t.m_mem) ++ rest).drop
                  t.m_shape.length).take t.m_mem.length },
              (((t.m_shape.map encodeInt ++ t.m_mem) ++ rest).drop t.m_shape.length).drop
                t.m_mem.length)) = some (t, rest)
  rw [decodeInt_encodeInt, find_BB_TYPE _ exampleBB_TYPE_injective]
  have hlen : (t.m_shape.map encodeInt).length = t.m_shape.length := List.length_map _ _
  rw [List.append_assoc, ← hlen, List.take_left, List.drop_left, List.take_left,
    List.drop_left, map_decodeInt_encodeInt]

/-! ### Shapes and node indices -/

theorem Reshape_some (fb fb2 : FrameBuffer) (shape : List Int) (h : fb.Reshape shape = some fb2) :
    fb2.m_node_size = fb.m_node_size ∧ fb2.m_node_size = fb2.m_node_shape.prod := by
  have key : ∀ (shape2 : List Int) (tensor : Tensor),
      (if shape2.foldl (fun acc size => acc * size) 1 = fb.m_node_size then
          some { fb with m_node_shape := shape2, m_tensor := tensor }
        else none) = some fb2 →
      fb2.m_node_size = fb.m_node_size ∧ fb2.m_node_size = fb2.m_node_shape.prod := by
    intro shape2 tensor h2
    by_cases htot : shape2.foldl (fun acc size => acc * size) 1 = fb.m_node_size
    · rw [if_pos htot] at h2
      rw [foldl_mul_eq_prod, Int.one_mul] at htot
      have := Option.some.inj h2
      subst this
      exact ⟨rfl, htot.symm⟩
    · rw [if_neg htot] at h2
      exact absurd h2 (by simp)
  unfold FrameBuffer.Reshape at h
  simp only at h
  split at h
  · exact absurd h (by simp)
  · exact key _ _ h

theorem GetNodeIndex_loop (shape indices : List Int) (k : Nat) (hk : k ≤ shape.length) :
    forLoop k
        (fun i (st : Int × Int) =>
          (st.1 * shape.getD i.toNat 0, st.2 + st.1 * indices.getD i.toNat 0))
        (1, 0)
      = ((shape.take k).prod,
          ((List.range k).map (fun j => indices.getD j 0 * (shape.take j).prod)).sum) := by
  induction k with
  | zero => simp [forLoop]
  | succ k ih =>
    have hlt : k < shape.length := by omega
    rw [forLoop, ih (by omega)]
    simp only [Int.toNat_ofNat, List.range_succ, List.map_append, List.sum_append,
      List.map_cons, List.map_nil, List.sum_cons, List.sum_nil, Int.add_zero]
    rw [List.prod_take_succ _ _ hlt, List.getD_eq_getElem _ _ hlt,
      Int.mul_comm (indices.getD k 0)]

theorem GetNodeIndex_eq (fb : FrameBuffer) (indices : List Int) :
    fb.GetNodeIndex indices = firstFastestIndex fb.m_node_shape indices := by
  unfold FrameBuffer.GetNodeIndex firstFastestIndex
  rw [GetNodeIndex_loop _ _ _ (Nat.le_refl _)]

/-! ### Loops of stores -/

theorem ValidIndex_of_SameLayout (d d0 : FrameBuffer) (hl : d.SameLayout d0) (f n : Int)
    (hv : d0.ValidIndex f n) : d.ValidIndex f n := by
  obtain ⟨_, h2, _, h4⟩ := hl
  obtain ⟨a, b, c, e⟩ := hv
  simp only [FrameBuffer.GetFrameSize, FrameBuffer.GetNodeSize] at b e
  exact ⟨a, by simp only [FrameBuffer.GetFrameSize]; omega, c,
    by simp only [FrameBuffer.GetNodeSize]; omega⟩

theorem Set_step (d0 d : FrameBuffer) (hwf : d.WF) (hl : d.SameLayout d0) (f n : Int) (v : Nat)
    (hv : d0.ValidIndex f n) (hval : v < 2 ^ (DataType_GetBitSize d0.m_data_type).toNat) :
    (d.Set d0.m_data_type f n v).WF ∧ (d.Set d0.m_data_type f n v).SameLayout d0
      ∧ ∀ f2 n2, d0.ValidIndex f2 n2 →
          ((f2 = f ∧ n2 = n) → (d.Set d0.m_data_type f n v).Get d0.m_data_type f2 n2 = v)
          ∧ (¬ (f2 = f ∧ n2 = n) →
              (d.Set d0.m_data_type f n v).Get d0.m_data_type f2 n2
                = d.Get d0.m_data_type f2 n2) := by
  have hT : d.m_data_type = d0.m_data_type := hl.1
  refine ⟨Set_WF _ _ _ _ _ hwf, hl, ?_⟩
  intro f2 n2 hv2
  have hvd := ValidIndex_of_SameLayout d d0 hl f n hv
  have hvd2 := ValidIndex_of_SameLayout d d0 hl f2 n2 hv2
  rw [← hT]
  constructor
  · rintro ⟨rfl, rfl⟩
    exact Get_Set_same d hwf f2 n2 v hvd (by unfold FrameBuffer.ValidValue; rw [hT]; exact hval)
  · intro hne
    exact Get_Set_other d hwf f n f2 n2 v hvd hvd2 (fun h => hne ⟨h.1.symm, h.2.symm⟩)

theorem forLoop_region (d0 : FrameBuffer) (T : DType) (body : Int → FrameBuffer → FrameBuffer)
    (R : Nat → Int → Int → Prop) (V : Nat → Int → Int → Nat) (k : Nat)
    (H : ∀ i, i < k → ∀ d : FrameBuffer, d.WF → d.SameLayout d0 →
      (body (i : Int) d).WF ∧ (body (i : Int) d).SameLayout d0
        ∧ ∀ f n, d0.ValidIndex f n →
            (R i f n → (body (i : Int) d).Get T f n = V i f n)
            ∧ (¬ R i f n → (body (i : Int) d).Get T f n = d.Get T f n))
    (d : FrameBuffer) (hwf : d.WF) (hl : d.SameLayout d0) :
    (forLoop k body d).WF ∧ (forLoop k body d).SameLayout d0
      ∧ ∀ f n, d0.ValidIndex f n →
          ((∀ i, i < k → ¬ R i f n) → (forLoop k body d).Get T f n = d.Get T f n)
          ∧ (∀ i, i < k → R i f n → (∀ j, i < j → j < k → ¬ R j f n) →
              (forLoop k body d).Get T f n = V i f n) := by
  induction k with
  | zero =>
    refine ⟨hwf, hl, fun f n _ => ⟨fun _ => rfl, fun i hi => absurd hi (Nat.not_lt_zero _)⟩⟩
  | succ k ih =>
    obtain ⟨ihwf, ihl, ihg⟩ := ih (fun i hi => H i (Nat.lt_succ_of_lt hi))
    obtain ⟨swf, sl, sg⟩ := H k (Nat.lt_succ_self k) (forLoop k body d) ihwf ihl
    refine ⟨swf, sl, ?_⟩
    intro f n hv
    obtain ⟨s1, s2⟩ := sg f n hv
    obtain ⟨g1, g2⟩ := ihg f n hv
    constructor
    · intro hnot
      show (body (k : Int) (forLoop k body d)).Get T f n = _
      rw [s2 (hnot k (Nat.lt_succ_self k))]
      exact g1 (fun i hi => hnot i (Nat.lt_succ_of_lt hi))
    · intro i hi hR hlater
      show (body (k : Int) (forLoop k body d)).Get T f n = _
      rcases Nat.lt_succ_iff_lt_or_eq.mp hi with hlt | heq
      · rw [s2 (hlater k hlt (Nat.lt_succ_self k))]
        exact g2 i hlt hR (fun j hij hjk => hlater j hij (Nat.lt_succ_of_lt hjk))
      · subst heq
        exact s1 hR

theorem CopyTo__inner (src dst d : FrameBuffer) (fs sfo dfo sno dno : Int) (i : Nat)
    (hwf : d.WF) (hl : d.SameLayout dst) (hdfo : 0 ≤ dfo) (hdno : 0 ≤ dno)
    (hf : fs + dfo ≤ dst.m_frame_size) (hi : (i : Int) + dno < dst.m_node_size) :
    (forLoop fs.toNat
        (fun frame d =>
          FrameBufferPtr_.Set dst.m_data_type d (frame + dfo) ((i : Int) + dno)
            (FrameBufferConstPtr_.Get dst.m_data_type src (frame + sfo) ((i : Int) + sno)))
        d).WF
      ∧ (forLoop fs.toNat
          (fun frame d =>
            FrameBufferPtr_.Set dst.m_data_type d (frame + dfo) ((i : Int) + dno)
              (FrameBufferConstPtr_.Get dst.m_data_type src (frame + sfo) ((i : Int) + sno)))
          d).SameLayout dst
      ∧ ∀ f n, dst.ValidIndex f n →
          ((n = (i : Int) + dno ∧ dfo ≤ f ∧ f < dfo + fs) →
            (forLoop fs.toNat
              (fun frame d =>
                FrameBufferPtr_.Set dst.m_data_type d (frame + dfo) ((i : Int) + dno)
                  (FrameBufferConstPtr_.Get dst.m_data_type src (frame + sfo) ((i : Int) + sno)))
              d).Get dst.m_data_type f n
              = src.Get dst.m_data_type (f - dfo + sfo) ((i : Int) + sno))
          ∧ (¬ (n = (i : Int) + dno ∧ dfo ≤ f ∧ f < dfo + fs) →
            (forLoop fs.toNat
              (fun frame d =>
                FrameBufferPtr_.Set dst.m_data_type d (frame + dfo) ((i : Int) + dno)
                  (FrameBufferConstPtr_.Get dst.m_data_type src (frame + sfo) ((i : Int) + sno)))
              d).Get dst.m_data_type f n = d.Get dst.m_data_type f n) := by
  obtain ⟨rwf, rl, rg⟩ := forLoop_region dst dst.m_data_type
    (fun frame d =>
      FrameBufferPtr_.Set dst.m_data_type d (frame + dfo) ((i : Int) + dno)
        (FrameBufferConstPtr_.Get dst.m_data_type src (frame + sfo) ((i : Int) + sno)))
    (fun j f n => f = (j : Int) + dfo ∧ n = (i : Int) + dno)
    (fun j _ _ => src.Get dst.m_data_type ((j : Int) + sfo) ((i : Int) + sno))
    fs.toNat
    (fun j hj d hdwf hdl => by
      have hjf : (j : Int) < fs := by omega
      have hvalid : dst.ValidIndex ((j : Int) + dfo) ((i : Int) + dno) :=
        ⟨by omega, by simp only [FrameBuffer.GetFrameSize]; omega, by omega,
          by simp only [FrameBuffer.GetNodeSize]; omega⟩
      exact Set_step dst d hdwf hdl _ _ _ hvalid (DataType_Read_lt _ _ _ _))
    d hwf hl
  refine ⟨rwf, rl, ?_⟩
  intro f n hv
  obtain ⟨g1, g2⟩ := rg f n hv
  constructor
  · rintro ⟨hn, h1, h2⟩
    have e : (((f - dfo).toNat : Nat) : Int) = f - dfo := Int.toNat_of_nonneg (by omega)
    have := g2 (f - dfo).toNat (by omega) ⟨by omega, hn⟩ (fun j hij _ hR => by omega)
    rw [this]
    show src.Get dst.m_data_type ((((f - dfo).toNat : Nat) : Int) + sfo) _ = _
    rw [e]
  · intro hnot
    exact g1 (fun j hj hR => hnot ⟨hR.2, by omega, by omega⟩)

theorem CopyTo__spec (src dst : FrameBuffer) (fs sfo dfo ns sno dno : Int) (hwf : dst.WF)
    (hdfo : 0 ≤ dfo) (hdno : 0 ≤ dno) (hf : fs + dfo ≤ dst.m_frame_size)
    (hn : ns + dno ≤ dst.m_node_size) :
    (src.CopyTo_ dst.m_data_type dst fs sfo dfo ns sno dno).WF
      ∧ (src.CopyTo_ dst.m_data_type dst fs sfo dfo ns sno dno).SameLayout dst
      ∧ ∀ f n, dst.ValidIndex f n →
          ((dfo ≤ f ∧ f < dfo + fs ∧ dno ≤ n ∧ n < dno + ns) →
            (src.CopyTo_ dst.m_data_type dst fs sfo dfo ns sno dno).Get dst.m_data_type f n
              = src.Get dst.m_data_type (f - dfo + sfo) (n - dno + sno))
          ∧ (¬ (dfo ≤ f ∧ f < dfo + fs ∧ dno ≤ n ∧ n < dno + ns) →
            (src.CopyTo_ dst.m_data_type dst fs sfo dfo ns sno dno).Get dst.m_data_type f n
              = dst.Get dst.m_data_type f n) := by
  obtain ⟨rwf, rl, rg⟩ := forLoop_region dst dst.m_data_type
    (fun node d =>
      forLoop fs.toNat
        (fun frame d =>
          FrameBufferPtr_.Set dst.m_data_type d (frame + dfo) (node + dno)
            (FrameBufferConstPtr_.Get dst.m_data_type src (frame + sfo) (node + sno)))
        d)
    (fun i f n => n = (i : Int) + dno ∧ dfo ≤ f ∧ f < dfo + fs)
    (fun i f _ => src.Get dst.m_data_type (f - dfo + sfo) ((i : Int) + sno))
    ns.toNat
    (fun i hi d hdwf hdl =>
      CopyTo__inner src dst d fs sfo dfo sno dno i hdwf hdl hdfo hdno hf (by omega))
    dst hwf ⟨rfl, rfl, rfl, rfl⟩
  refine ⟨rwf, rl, ?_⟩
  intro f n hv
  obtain ⟨g1, g2⟩ := rg f n hv
  constructor
  · rintro ⟨h1, h2, h3, h4⟩
    have e : (((n - dno).toNat : Nat) : Int) = n - dno := Int.toNat_of_nonneg (by omega)
    have := g2 (n - dno).toNat (by omega) ⟨by omega, h1, h2⟩ (fun j hij _ hR => by omega)
    rw [show src.CopyTo_ dst.m_data_type dst fs sfo dfo ns sno dno = forLoop ns.toNat _ dst
      from rfl, this]
    show src.Get dst.m_data_type _ ((((n - dno).toNat : Nat) : Int) + sno) = _
    rw [e]
  · intro hnot
    exact g1 (fun j hj hR => hnot ⟨hR.2.1, hR.2.2, by omega, by omega⟩)

theorem CopyTo_eq_some (src dst : FrameBuffer) (fs sfo dfo ns sno dno : Int)
    (htype : dst.GetType = src.GetType) (hfs : 0 < fs) (hns : 0 < ns)
    (h1 : fs + sfo ≤ src.GetFrameSize) (h2 : fs + dfo ≤ dst.GetFrameSize)
    (h3 : ns + sno ≤ src.GetNodeSize) (h4 : ns + dno ≤ dst.GetNodeSize) :
    src.CopyTo dst fs sfo dfo ns sno dno
      = some (src.CopyTo_ dst.m_data_type dst fs sfo dfo ns sno dno) := by
  have htype2 : dst.m_data_type = src.GetType := htype
  unfold FrameBuffer.CopyTo
  simp only [htype, ne_eq, not_true_eq_false, if_false, if_neg (not_le.mpr hfs),
    if_neg (not_le.mpr hns), h1, h2, h3, h4, htype2]

/-! ### Layout -/

theorem Resize_node_size (self : FrameBuffer) (frame_size : Int) (shape : List Int)
    (t : DType) : (self.Resize frame_size shape t).m_node_size = shape.prod := by
  show shape.foldl (fun acc size => acc * size) 1 = shape.prod
  rw [foldl_mul_eq_prod, Int.one_mul]

theorem Resize_stride_dvd (self : FrameBuffer) (frame_size : Int) (shape : List Int)
    (t u : DType) (hu : u ≠ DType.BIT) :
    (self.Resize frame_size shape t).GetFrameStride.tdiv (DataType_GetByteSize u)
        * DataType_GetByteSize u = (self.Resize frame_size shape t).GetFrameStride := by
  rw [Resize_frame_stride]
  generalize (frame_size * DataType_GetBitSize t + 255).tdiv 256 = Q
  have key : ∀ b k : Int, b * k = 32 → 0 < b → (Q * 32).tdiv b * b = Q * 32 := by
    intro b k hb hb0
    have e2 : Q * 32 = Q * k * b := by rw [← hb]; ring
    rw [e2, Int.mul_tdiv_cancel _ (by omega)]
  cases u
  · exact absurd rfl hu
  all_goals first
    | exact key _ 32 (by decide) (by decide)
    | exact key _ 16 (by decide) (by decide)
    | exact key _ 8 (by decide) (by decide)
    | exact key _ 4 (by decide) (by decide)

theorem writeBitAt_getD (m : List Nat) (a : Int) (k : Nat) (v : Bool) (j : Nat)
    (hj : j ≠ a.toNat) : (writeBitAt m a k v).getD j 0 = m.getD j 0 := by
  unfold writeBitAt
  split
  · rfl
  · rw [getD_set, if_neg (fun h => hj h.1.symm)]

theorem writeAt_getD (m : List Nat) (a : Int) (s v : Nat) (j : Nat)
    (hj : j < a.toNat ∨ a.toNat + s ≤ j) : (writeAt m a s v).getD j 0 = m.getD j 0 := by
  unfold writeAt
  split
  · rfl
  · exact getD_writeBytes_outside _ _ _ _ _ hj

theorem Reachable_node_size (fb : FrameBuffer) (h : Reachable fb) :
    fb.m_node_size = fb.m_node_shape.prod ∨ (fb.m_node_size = 0 ∧ fb.m_node_shape = []) := by
  induction h with
  | ctor m_tensor t0 => exact Or.inr ⟨rfl, rfl⟩
  | ctor_sized m_tensor t0 frame_size shape data_type => exact Or.inl (Resize_node_size _ _ _ _)
  | Resize self frame_size shape data_type _ _ => exact Or.inl (Resize_node_size _ _ _ _)
  | ResizeLike self buf _ _ _ _ => exact Or.inl (Resize_node_size _ _ _ _)
  | Reshape self shape r _ hr _ => exact Or.inl (Reshape_some self r shape hr).2
  | Clone self _ ih => exact ih
  | operator_assign self buf _ _ _ ihb => exact ihb

/-! ### Assertions and generic access -/

theorem GetNodeIndex_debug_loop (shape indices : List Int) (k : Nat) :
    (forLoop k
        (fun i (st : Option (Int × Int)) =>
          match st with
          | none => none
          | some st =>
            if indices.getD i.toNat 0 ≥ 0 ∧ indices.getD i.toNat 0 < shape.getD i.toNat 0 then
              some (st.1 * shape.getD i.toNat 0, st.2 + st.1 * indices.getD i.toNat 0)
            else none)
        (some (1, 0))).isSome = true
      ↔ ∀ i, i < k → 0 ≤ indices.getD i 0 ∧ indices.getD i 0 < shape.getD i 0 := by
  induction k with
  | zero => simp [forLoop]
  | succ k ih =>
    rw [forLoop]
    simp only [Int.toNat_ofNat]
    constructor
    · intro h i hi
      cases hloop : forLoop k
          (fun i (st : Option (Int × Int)) =>
            match st with
            | none => none
            | some st =>
              if indices.getD i.toNat 0 ≥ 0 ∧ indices.getD i.toNat 0 < shape.getD i.toNat 0 then
                some (st.1 * shape.getD i.toNat 0, st.2 + st.1 * indices.getD i.toNat 0)
              else none)
          (some (1, 0)) with
      | none => rw [hloop] at h; exact absurd h (by simp)
      | some st =>
        rw [hloop] at h ih
        rcases Nat.lt_succ_iff_lt_or_eq.mp hi with hlt | heq
        · exact ih.mp rfl i hlt
        · subst heq
          by_cases hc : indices.getD i 0 ≥ 0 ∧ indices.getD i 0 < shape.getD i 0
          · exact hc
          · simp only [hc, if_false] at h
            exact absurd h (by simp)
    · intro h
      have hk := ih.mpr (fun i hi => h i (Nat.lt_succ_of_lt hi))
      cases hloop : forLoop k
          (fun i (st : Option (Int × Int)) =>
            match st with
            | none => none
            | some st =>
              if indices.getD i.toNat 0 ≥ 0 ∧ indices.getD i.toNat 0 < shape.getD i.toNat 0 then
                some (st.1 * shape.getD i.toNat 0, st.2 + st.1 * indices.getD i.toNat 0)
              else none)
          (some (1, 0)) with
      | none => rw [hloop] at hk; exact absurd hk (by simp)
      | some st =>
        have hc := h k (Nat.lt_succ_self k)
        simp only [ge_iff_le, hc.1, hc.2, and_self, if_true, Option.isSome_some]

theorem SetValue_UINT8 (conv : FloatConv) (fb : FrameBuffer) (frame node x : Int)
    (h : fb.m_data_type = DType.UINT8) :
    fb.SetValue conv frame node x
      = fb.Set DType.INT8 frame node (static_cast DType.UINT8 x % 2 ^ 8).toNat := by
  obtain ⟨m_tensor, m_data_type, m_frame_size, m_frame_stride, m_node_size, m_node_shape⟩ := fb
  simp only at h
  subst h
  rfl

theorem GetValue_UINT8 (conv : FloatConv) (Tp : DType) (fb : FrameBuffer) (frame node : Int)
    (h : fb.m_data_type = DType.UINT8) :
    fb.GetValue conv Tp frame node = static_cast Tp (toSigned 8 (fb.Get DType.INT8 frame node)) := by
  obtain ⟨m_tensor, m_data_type, m_frame_size, m_frame_stride, m_node_size, m_node_shape⟩ := fb
  simp only at h
  subst h
  rfl

theorem Reshape_keeps (fb fb2 : FrameBuffer) (shape : List Int)
    (h : fb.Reshape shape = some fb2) :
    fb2.m_data_type = fb.m_data_type ∧ fb2.m_frame_size = fb.m_frame_size
      ∧ fb2.m_frame_stride = fb.m_frame_stride ∧ fb2.m_node_size = fb.m_node_size
      ∧ fb2.m_tensor.m_mem = fb.m_tensor.m_mem := by
  have key : ∀ (shape2 : List Int) (tensor : Tensor), tensor.m_mem = fb.m_tensor.m_mem →
      (if shape2.foldl (fun acc size => acc * size) 1 = fb.m_node_size then
          some { fb with m_node_shape := shape2, m_tensor := tensor }
        else none) = some fb2 →
      fb2.m_data_type = fb.m_data_type ∧ fb2.m_frame_size = fb.m_frame_size
        ∧ fb2.m_frame_stride = fb.m_frame_stride ∧ fb2.m_node_size = fb.m_node_size
        ∧ fb2.m_tensor.m_mem = fb.m_tensor.m_mem := by
    intro shape2 tensor hmem h2
    by_cases htot : shape2.foldl (fun acc size => acc * size) 1 = fb.m_node_size
    · rw [if_pos htot] at h2
      have := Option.some.inj h2
      subst this
      exact ⟨rfl, rfl, rfl, rfl, hmem⟩
    · rw [if_neg htot] at h2
      exact absurd h2 (by simp)
  unfold FrameBuffer.Reshape at h
  simp only at h
  split at h
  · exact absurd h (by simp)
  · refine key _ _ ?_ h
    rfl

/-! ### Nodes of a well-formed buffer -/

theorem WF_node_range (fb : FrameBuffer) (h : fb.WF) (f n : Int) (hv : fb.ValidIndex f n) :
    0 ≤ fb.m_frame_stride * n
      ∧ fb.m_frame_stride * (n + 1) ≤ (fb.m_tensor.m_mem.length : Int)
      ∧ 8 * (fb.m_frame_stride * n) ≤ 8 * (fb.m_frame_stride * n)
          + f * DataType_GetBitSize fb.m_data_type
      ∧ 8 * (fb.m_frame_stride * n) + (f + 1) * DataType_GetBitSize fb.m_data_type
          ≤ 8 * (fb.m_frame_stride * (n + 1)) := by
  obtain ⟨hS, hcap⟩ := WF_stride fb h
  obtain ⟨_, _, hlen⟩ := h
  obtain ⟨hf0, hf1, hn0, hn1⟩ := hv
  simp only [FrameBuffer.GetFrameSize, FrameBuffer.GetNodeSize] at hf1 hn1
  have hb := DataType_GetBitSize_pos fb.m_data_type
  have a1 : 0 ≤ fb.m_frame_stride * n := Int.mul_nonneg hS hn0
  have a2 : (f + 1) * DataType_GetBitSize fb.m_data_type
      ≤ fb.m_frame_size * DataType_GetBitSize fb.m_data_type :=
    Int.mul_le_mul_of_nonneg_right (by omega) hb.le
  have a3 : fb.m_frame_stride * (n + 1) ≤ fb.m_frame_stride * fb.m_node_size :=
    Int.mul_le_mul_of_nonneg_left (by omega) hS
  have a4 : ((fb.m_tensor.m_mem.length : Nat) : Int) = fb.m_frame_stride * fb.m_node_size := by
    rw [hlen]
    exact Int.toNat_of_nonneg (by
      have := Int.mul_add fb.m_frame_stride n 1
      omega)
  have a5 : 0 ≤ f * DataType_GetBitSize fb.m_data_type := Int.mul_nonneg hf0 hb.le
  have a6 : fb.m_frame_stride * (n + 1) = fb.m_frame_stride * n + fb.m_frame_stride := by ring
  refine ⟨a1, by omega, by omega, by omega⟩

theorem WF_nodes_disjoint (fb : FrameBuffer) (h : fb.WF) (n n2 : Int) (hne : n ≠ n2) :
    fb.m_frame_stride * (n + 1) ≤ fb.m_frame_stride * n2
      ∨ fb.m_frame_stride * (n2 + 1) ≤ fb.m_frame_stride * n := by
  obtain ⟨hS, _⟩ := WF_stride fb h
  rcases Int.lt_or_gt_of_ne hne with hlt | hgt
  · exact Or.inl (Int.mul_le_mul_of_nonneg_left (by omega) hS)
  · exact Or.inr (Int.mul_le_mul_of_nonneg_left (by omega) hS)

theorem Set_outside_node (fb : FrameBuffer) (h : fb.WF) (f n : Int) (v : Nat)
    (hv : fb.ValidIndex f n) (j : Nat)
    (hj : j < (fb.m_frame_stride * n).toNat ∨ (fb.m_frame_stride * (n + 1)).toNat ≤ j) :
    (fb.Set fb.m_data_type f n v).m_tensor.m_mem.getD j 0 = fb.m_tensor.m_mem.getD j 0 := by
  obtain ⟨a1, a2, a3, a4⟩ := WF_node_range fb h f n hv
  have hf0 := hv.1
  show (DataType_Write fb.m_data_type _ (0 + fb.m_frame_stride * n) f v).getD j 0 = _
  by_cases ht : fb.m_data_type = DType.BIT
  · rw [ht] at a3 a4 ⊢
    obtain ⟨h1, h2⟩ := tdiv_tmod_nonneg f hf0
    have hbits : DataType_GetBitSize DType.BIT = 1 := rfl
    rw [hbits] at a3 a4
    apply writeBitAt_getD
    omega
  · obtain ⟨e1, e2, e3, e4⟩ := DataType_GetByteSize_eq fb.m_data_type ht
    rw [DataType_Write_eq _ ht]
    rw [e1] at a3 a4
    have hmul : 0 ≤ f * DataType_GetByteSize fb.m_data_type := Int.mul_nonneg hf0 e4.le
    have r1 : (f + 1) * (8 * DataType_GetByteSize fb.m_data_type)
        = 8 * (f * DataType_GetByteSize fb.m_data_type)
          + 8 * DataType_GetByteSize fb.m_data_type := by ring
    rw [r1] at a4
    apply writeAt_getD
    omega

theorem Get_outside_node (fb : FrameBuffer) (h : fb.WF) (f n : Int) (hv : fb.ValidIndex f n)
    (j x : Nat)
    (hj : j < (fb.m_frame_stride * n).toNat ∨ (fb.m_frame_stride * (n + 1)).toNat ≤ j) :
    DataType_Read fb.m_data_type (fb.m_tensor.m_mem.set j x) (0 + fb.m_frame_stride * n) f
      = fb.Get fb.m_data_type f n := by
  obtain ⟨a1, a2, a3, a4⟩ := WF_node_range fb h f n hv
  have hf0 := hv.1
  show _ = DataType_Read fb.m_data_type _ (0 + fb.m_frame_stride * n) f
  by_cases ht : fb.m_data_type = DType.BIT
  · rw [ht] at a3 a4 ⊢
    obtain ⟨h1, h2⟩ := tdiv_tmod_nonneg f hf0
    have hbits : DataType_GetBitSize DType.BIT = 1 := rfl
    rw [hbits] at a3 a4
    show (if readBitAt _ _ _ then 1 else 0) = (if readBitAt _ _ _ then 1 else 0)
    have hna : ¬ (0 + fb.m_frame_stride * n + f.tdiv 8 < 0) := by omega
    have hnj : ¬ (j = (0 + fb.m_frame_stride * n + f.tdiv 8).toNat
        ∧ j < fb.m_tensor.m_mem.length) := by omega
    unfold readBitAt
    rw [if_neg hna, if_neg hna, getD_set, if_neg hnj]
  · obtain ⟨e1, e2, e3, e4⟩ := DataType_GetByteSize_eq fb.m_data_type ht
    rw [DataType_Read_eq _ ht, DataType_Read_eq _ ht]
    rw [e1] at a3 a4
    have hmul : 0 ≤ f * DataType_GetByteSize fb.m_data_type := Int.mul_nonneg hf0 e4.le
    have r1 : (f + 1) * (8 * DataType_GetByteSize fb.m_data_type)
        = 8 * (f * DataType_GetByteSize fb.m_data_type)
          + 8 * DataType_GetByteSize fb.m_data_type := by ring
    rw [r1] at a4
    have hna : ¬ (0 + fb.m_frame_stride * n + f * DataType_GetByteSize fb.m_data_type < 0) := by
      omega
    unfold readAt
    rw [if_neg hna, if_neg hna]
    apply readBytes_congr
    intro k hk
    have hnj : ¬ (j = (0 + fb.m_frame_stride * n
        + f * DataType_GetByteSize fb.m_data_type).toNat + k
        ∧ j < fb.m_tensor.m_mem.length) := by omega
    rw [getD_set, if_neg hnj]

theorem Load_fields (c : StreamCodec) (self : FrameBuffer) (t : DType) (a b n : Int)
    (l : List Int) (ten : Tensor) (rest : List Nat)
    (hinj : Function.Injective c.BB_TYPE)
    (hrange : ∀ t, -2 ^ 31 ≤ c.BB_TYPE t ∧ c.BB_TYPE t < 2 ^ 31)
    (hIndex : ∀ i is, c.LoadIndex (c.SaveIndex i ++ is) = some (i, is))
    (hIndices : ∀ l is, c.LoadIndices (c.SaveIndices l ++ is) = some (l, is))
    (hTensor : ∀ t old is, c.TensorLoad old (c.TensorSave t ++ is) = some (t, is)) :
    FrameBuffer.Load c self
        (intBytes (c.BB_TYPE t) ++ (c.SaveIndex a ++ (c.SaveIndex b ++ (c.SaveIndex n
          ++ (c.SaveIndices l ++ (c.TensorSave ten ++ rest))))))
      = some ({ m_tensor := ten, m_data_type := t, m_frame_size := a, m_frame_stride := b,
                m_node_size := n, m_node_shape := l }, rest) := by
  obtain ⟨b0, b1, b2, b3, hb, hval⟩ := intOfBytes_intBytes (c.BB_TYPE t) (hrange t)
    (c.SaveIndex a ++ (c.SaveIndex b ++ (c.SaveIndex n
      ++ (c.SaveIndices l ++ (c.TensorSave ten ++ rest)))))
  rw [hb]
  simp only [FrameBuffer.Load, hval, find_BB_TYPE _ hinj, hIndex, hIndices, hTensor]

/-! ### Node flattening -/

theorem firstFastestIndex_cons (s : Int) (shape : List Int) (i : Int) (indices : List Int) :
    firstFastestIndex (s :: shape) (i :: indices) = i + s * firstFastestIndex shape indices := by
  unfold firstFastestIndex
  rw [List.length_cons, List.range_succ_eq_map, List.map_cons, List.sum_cons, List.map_map]
  simp only [List.getD_cons_zero, List.take_zero, List.prod_nil, mul_one]
  congr 1
  rw [← List.sum_map_mul_left]
  congr 1
  apply List.map_congr_left
  intro j _
  show (i :: indices).getD (j + 1) 0 * (List.take (j + 1) (s :: shape)).prod = _
  rw [List.getD_cons_succ, List.take_succ_cons, List.prod_cons]
  ring

theorem firstFastestIndex_range (shape indices : List Int) (hpos : ∀ s ∈ shape, 0 < s)
    (h : InBounds shape indices) :
    0 ≤ firstFastestIndex shape indices ∧ firstFastestIndex shape indices < shape.prod := by
  induction shape generalizing indices with
  | nil =>
    cases indices with
    | nil => simp [firstFastestIndex]
    | cons i is => exact absurd h (by simp [InBounds])
  | cons s shape ih =>
    cases indices with
    | nil => exact absurd h (by simp [InBounds])
    | cons i is =>
      obtain ⟨h0, h1, h2⟩ := h
      obtain ⟨a, b⟩ := ih is (fun x hx => hpos x (List.mem_cons_of_mem _ hx)) h2
      have hs : 0 < s := hpos s (List.mem_cons_self _ _)
      rw [firstFastestIndex_cons, List.prod_cons]
      constructor
      · have := Int.mul_nonneg hs.le a
        omega
      · have : s * (firstFastestIndex shape is + 1) ≤ s * shape.prod :=
          Int.mul_le_mul_of_nonneg_left (by omega) hs.le
        rw [Int.mul_add, Int.mul_one] at this
        omega

theorem toIndices_firstFastestIndex (shape indices : List Int)
    (h : InBounds shape indices) :
    toIndices shape (firstFastestIndex shape indices) = indices := by
  induction shape generalizing indices with
  | nil =>
    cases indices with
    | nil => rfl
    | cons i is => exact absurd h (by simp [InBounds])
  | cons s shape ih =>
    cases indices with
    | nil => exact absurd h (by simp [InBounds])
    | cons i is =>
      obtain ⟨h0, h1, h2⟩ := h
      rw [firstFastestIndex_cons, toIndices]
      have e1 : (i + s * firstFastestIndex shape is) % s = i := by
        rw [Int.add_mul_emod_self_left]
        exact Int.emod_eq_of_lt h0 h1
      have e2 : (i + s * firstFastestIndex shape is) / s = firstFastestIndex shape is := by
        rw [Int.add_mul_ediv_left _ _ (by omega : s ≠ 0), Int.ediv_eq_zero_of_lt h0 h1]
        omega
      rw [e1, e2, ih is h2]

theorem firstFastestIndex_toIndices (shape : List Int) (n : Int)
    (hpos : ∀ s ∈ shape, 0 < s) (h0 : 0 ≤ n) (h1 : n < shape.prod) :
    InBounds shape (toIndices shape n) ∧ firstFastestIndex shape (toIndices shape n) = n := by
  induction shape generalizing n with
  | nil =>
    simp only [List.prod_nil] at h1
    have : n = 0 := by omega
    subst this
    exact ⟨trivial, by simp [toIndices, firstFastestIndex]⟩
  | cons s shape ih =>
    have hs : 0 < s := hpos s (List.mem_cons_self _ _)
    rw [List.prod_cons] at h1
    have hq0 : 0 ≤ n / s := Int.ediv_nonneg h0 hs.le
    have hq1 : n / s < shape.prod := Int.ediv_lt_of_lt_mul hs (by rw [Int.mul_comm]; exact h1)
    obtain ⟨a, b⟩ := ih (n / s) (fun x hx => hpos x (List.mem_cons_of_mem _ hx)) hq0 hq1
    rw [toIndices]
    refine ⟨⟨Int.emod_nonneg _ (by omega), Int.emod_lt_of_pos _ hs, a⟩, ?_⟩
    rw [firstFastestIndex_cons, b]
    exact Int.emod_add_ediv n s

/-! ### Acceptance of `Reshape` -/

theorem Reshape_loop_nonneg (shape : List Int) (k : Nat) (hk : k ≤ shape.length)
    (h : ∀ j, j < k → 0 ≤ shape.getD j 0) :
    forLoop k
        (fun i (st : Int × Int) =>
          if shape.getD i.toNat 0 < 0 then (i, st.2) else (st.1, st.2 * shape.getD i.toNat 0))
        (-1, 1)
      = (-1, (shape.take k).prod) := by
  induction k with
  | zero => simp [forLoop]
  | succ k ih =>
    have hlt : k < shape.length := by omega
    rw [forLoop, ih (by omega) (fun j hj => h j (by omega))]
    simp only [Int.toNat_ofNat]
    have hx : ¬ shape.getD k 0 < 0 := not_lt.mpr (h k (by omega))
    rw [if_neg hx, List.prod_take_succ _ _ hlt, List.getD_eq_getElem _ _ hlt]

theorem getD_append_cons (pre post : List Int) (x : Int) (j : Nat) :
    (pre ++ x :: post).getD j 0
      = if j < pre.length then pre.getD j 0
        else if j = pre.length then x else post.getD (j - pre.length - 1) 0 := by
  simp only [List.getD_eq_getElem?_getD]
  by_cases h1 : j < pre.length
  · rw [if_pos h1, List.getElem?_append_left h1]
  · rw [if_neg h1, List.getElem?_append_right (by omega)]
    by_cases h2 : j = pre.length
    · rw [if_pos h2, h2]; simp
    · rw [if_neg h2]
      obtain ⟨d, hd⟩ : ∃ d, j - pre.length = d + 1 := ⟨j - pre.length - 1, by omega⟩
      have hd2 : j - pre.length - 1 = d := by omega
      rw [hd2, hd, List.getElem?_cons_succ]

theorem nonneg_getD (l : List Int) (h : ∀ y ∈ l, 0 ≤ y) (j : Nat) : 0 ≤ l.getD j 0 := by
  rw [List.getD_eq_getElem?_getD]
  by_cases hj : j < l.length
  · rw [List.getElem?_eq_getElem hj]
    exact h _ (List.getElem_mem _)
  · rw [List.getElem?_eq_none (by omega)]
    exact le_refl _

theorem Reshape_loop_one_negative (pre post : List Int) (x : Int) (hx : x < 0)
    (hpre : ∀ y ∈ pre, 0 ≤ y) (hpost : ∀ y ∈ post, 0 ≤ y) (m : Nat) (hm : m ≤ post.length) :
    forLoop (pre.length + 1 + m)
        (fun i (st : Int × Int) =>
          if (pre ++ x :: post).getD i.toNat 0 < 0 then (i, st.2)
          else (st.1, st.2 * (pre ++ x :: post).getD i.toNat 0))
        (-1, 1)
      = ((pre.length : Int), pre.prod * (post.take m).prod) := by
  induction m with
  | zero =>
    rw [Nat.add_zero, forLoop, Reshape_loop_nonneg _ _ (by simp) (fun j hj => by
      rw [getD_append_cons, if_pos hj]
      exact nonneg_getD pre hpre j)]
    simp only [Int.toNat_ofNat]
    have e : (pre ++ x :: post).getD pre.length 0 = x := by
      rw [getD_append_cons, if_neg (by omega), if_pos rfl]
    rw [e, if_pos hx, List.take_left]
    simp
  | succ m ih =>
    have hlt : m < post.length := by omega
    rw [← Nat.add_assoc, forLoop, ih (by omega)]
    simp only [Int.toNat_ofNat]
    have e : (pre ++ x :: post).getD (pre.length + 1 + m) 0 = post.getD m 0 := by
      rw [getD_append_cons, if_neg (by omega), if_neg (by omega)]
      congr 1
      omega
    have hn : ¬ post.getD m 0 < 0 := not_lt.mpr (nonneg_getD post hpost m)
    rw [e, if_neg hn, List.prod_take_succ _ _ hlt, List.getD_eq_getElem _ _ hlt, Int.mul_assoc]


theorem Reshape_nonneg (fb : FrameBuffer) (shape : List Int) (h : ∀ x ∈ shape, 0 ≤ x) :
    fb.Reshape shape
      = if shape.prod = fb.m_node_size then
          some { fb with
            m_node_shape := shape
            m_tensor := fb.m_tensor.Reshape (-1 :: shape) }
        else none := by
  have hloop := Reshape_loop_nonneg shape shape.length (le_refl _)
    (fun j _ => nonneg_getD shape h j)
  rw [List.take_length] at hloop
  unfold FrameBuffer.Reshape
  simp only [hloop]
  have hneg : ¬ ((-1 : Int) ≥ 0) := by decide
  rw [if_neg (fun hc => hneg hc.1)]
  simp only [hneg, if_false, foldl_mul_eq_prod, Int.one_mul]

theorem set_append_cons (pre post : List Int) (x q : Int) :
    (pre ++ x :: post).set pre.length q = pre ++ q :: post := by
  induction pre with
  | nil => rfl
  | cons a pre ih => simp [ih]

theorem Reshape_one_negative (fb : FrameBuffer) (pre post : List Int) (x : Int) (hx : x < 0)
    (hpre : ∀ y ∈ pre, 0 ≤ y) (hpost : ∀ y ∈ post, 0 ≤ y) :
    fb.Reshape (pre ++ x :: post)
      = if pre.prod * post.prod = 0 then none
        else if (pre ++ fb.m_node_size.tdiv (pre.prod * post.prod) :: post).prod
            = fb.m_node_size then
          some { fb with
            m_node_shape := pre ++ fb.m_node_size.tdiv (pre.prod * post.prod) :: post
            m_tensor := fb.m_tensor.Reshape
              (-1 :: (pre ++ fb.m_node_size.tdiv (pre.prod * post.prod) :: post)) }
        else none := by
  have hloop := Reshape_loop_one_negative pre post x hx hpre hpost post.length (le_refl _)
  rw [List.take_length] at hloop
  have hl : (pre ++ x :: post).length = pre.length + 1 + post.length := by
    simp only [List.length_append, List.length_cons]
    omega
  unfold FrameBuffer.Reshape
  simp only [hl, hloop]
  have hpos : ((pre.length : Nat) : Int) ≥ 0 := Int.ofNat_nonneg _
  simp only [hpos, true_and, if_true, Int.toNat_ofNat, set_append_cons, foldl_mul_eq_prod,
    Int.one_mul]

/-! ### Heaps -/

theorem heap_getD_set (heap : List (List Nat)) (i j : Nat) (m : List Nat) :
    (heap.set i m).getD j [] = if i = j ∧ i < heap.length then m else heap.getD j [] := by
  simp only [List.getD_eq_getElem?_getD, List.getElem?_set]
  by_cases hij : i = j
  · subst hij
    by_cases hl : i < heap.length
    · simp [hl]
    · simp [hl, List.getElem?_eq_none (Nat.le_of_not_lt hl)]
  · simp [hij]

theorem heap_getD_append (heap : List (List Nat)) (m : List Nat) (j : Nat) :
    (heap ++ [m]).getD j []
      = if j < heap.length then heap.getD j [] else if j = heap.length then m else [] := by
  simp only [List.getD_eq_getElem?_getD]
  by_cases h1 : j < heap.length
  · rw [if_pos h1, List.getElem?_append_left h1]
  · rw [if_neg h1, List.getElem?_append_right (by omega)]
    by_cases h2 : j = heap.length
    · rw [if_pos h2, h2]; simp
    · rw [if_neg h2]
      obtain ⟨d, hd⟩ : ∃ d, j - heap.length = d + 1 := ⟨j - heap.length - 1, by omega⟩
      rw [hd]
      rfl

theorem deref_Set (heap : List (List Nat)) (MemTp : DType) (a : BufferHandle) (f n : Int)
    (v : Nat) (ha : a.m_memory < heap.length) :
    a.deref (a.Set heap MemTp f n v) = (a.deref heap).Set MemTp f n v := by
  unfold BufferHandle.deref BufferHandle.Set
  rw [heap_getD_set, if_pos ⟨rfl, ha⟩]
  rfl

theorem deref_Set_other (heap : List (List Nat)) (MemTp : DType) (a b : BufferHandle)
    (f n : Int) (v : Nat) (hne : a.m_memory ≠ b.m_memory) :
    b.deref (a.Set heap MemTp f n v) = b.deref heap := by
  unfold BufferHandle.deref BufferHandle.Set
  rw [heap_getD_set, if_neg (fun h => hne h.1)]

theorem deref_Clone (heap : List (List Nat)) (a : BufferHandle) (ha : a.m_memory < heap.length) :
    (a.Clone heap).2.deref (a.Clone heap).1 = a.deref heap
      ∧ a.deref (a.Clone heap).1 = a.deref heap
      ∧ (a.Clone heap).2.m_memory ≠ a.m_memory
      ∧ a.m_memory < (a.Clone heap).1.length
      ∧ (a.Clone heap).2.m_memory < (a.Clone heap).1.length := by
  refine ⟨?_, ?_, ?_, ?_, ?_⟩
  · unfold BufferHandle.deref BufferHandle.Clone
    simp only
    rw [heap_getD_append, if_neg (Nat.lt_irrefl _), if_pos rfl]
    rfl
  · unfold BufferHandle.deref BufferHandle.Clone
    simp only
    rw [heap_getD_append, if_pos ha]
  · show heap.length ≠ a.m_memory
    omega
  · show a.m_memory < (heap ++ [_]).length
    rw [List.length_append]
    omega
  · show heap.length < (heap ++ [_]).length
    rw [List.length_append, List.length_singleton]
    omega

/-! ### Sums -/

theorem sum_range_const (g : Nat → ℚ) (c : ℚ) (F K : Nat) (h1 : ∀ f, f < F → g f = c)
    (h2 : ∀ f, F ≤ f → f < K → g f = 0) (k : Nat) (hk : k ≤ K) :
    ((List.range k).map g).sum = ((min k F : Nat) : ℚ) * c := by
  induction k with
  | zero => simp
  | succ k ih =>
    rw [List.range_succ, List.map_append, List.sum_append, ih (by omega)]
    simp only [List.map_cons, List.map_nil, List.sum_cons, List.sum_nil, add_zero]
    by_cases hlt : k < F
    · rw [h1 k hlt, Nat.min_eq_left (by omega), Nat.min_eq_left (by omega)]
      push_cast
      ring
    · rw [h2 k (by omega) (by omega), Nat.min_eq_right (by omega),
        Nat.min_eq_right (by omega)]
      ring

theorem WF_tensorFrames (fb : FrameBuffer) (h : fb.WF) (ht : fb.m_data_type ≠ DType.BIT) :
    fb.m_frame_size ≤ fb.tensorFrames := by
  obtain ⟨hS, hcap⟩ := WF_stride fb h
  obtain ⟨e1, e2, e3, e4⟩ := DataType_GetByteSize_eq fb.m_data_type ht
  unfold FrameBuffer.tensorFrames
  rw [if_neg ht, Int.tdiv_eq_ediv hS e4.le]
  apply Int.le_ediv_of_mul_le e4
  rw [e1] at hcap
  have : fb.m_frame_size * (8 * DataType_GetByteSize fb.m_data_type)
      = 8 * (fb.m_frame_size * DataType_GetByteSize fb.m_data_type) := by ring
  omega

theorem NormSq_eq (val : Nat → ℚ) (fb : FrameBuffer) (c : ℚ) (hwf : fb.WF)
    (ht : fb.m_data_type ≠ DType.BIT) (hns : 0 ≤ fb.m_node_size)
    (hvalid : ∀ f n, fb.ValidIndex f n → val (fb.Get fb.m_data_type f n) = c)
    (hpad : ∀ f n, fb.m_frame_size ≤ f → f < fb.tensorFrames → 0 ≤ n → n < fb.m_node_size →
      val (fb.Get fb.m_data_type f n) = 0) :
    fb.NormSq val = c ^ 2 * (fb.m_frame_size : ℚ) * (fb.m_node_size : ℚ) := by
  have hfs : 0 ≤ fb.m_frame_size := hwf.1
  have hK := WF_tensorFrames fb hwf ht
  unfold FrameBuffer.NormSq
  rw [if_neg ht]
  have inner : ∀ n, n < fb.m_node_size.toNat →
      ((List.range fb.tensorFrames.toNat).map
        (fun f => val (DataType_Read fb.m_data_type fb.m_tensor.m_mem
          (0 + fb.m_frame_stride * Int.ofNat n) (Int.ofNat f)) ^ 2)).sum
        = ((fb.m_frame_size.toNat : Nat) : ℚ) * c ^ 2 := by
    intro n hn
    have hn2 : (Int.ofNat n) < fb.m_node_size := by
      have : ((n : Nat) : Int) < fb.m_node_size := by omega
      exact this
    have := sum_range_const
      (fun f => val (DataType_Read fb.m_data_type fb.m_tensor.m_mem
        (0 + fb.m_frame_stride * Int.ofNat n) (Int.ofNat f)) ^ 2)
      (c ^ 2) fb.m_frame_size.toNat fb.tensorFrames.toNat
      (fun f hf => by
        have hv : fb.ValidIndex (Int.ofNat f) (Int.ofNat n) :=
          ⟨Int.ofNat_nonneg _, by
            show ((f : Nat) : Int) < fb.m_frame_size
            omega, Int.ofNat_nonneg _, hn2⟩
        show val (fb.Get fb.m_data_type (Int.ofNat f) (Int.ofNat n)) ^ 2 = c ^ 2
        rw [hvalid _ _ hv])
      (fun f hf1 hf2 => by
        show val (fb.Get fb.m_data_type (Int.ofNat f) (Int.ofNat n)) ^ 2 = 0
        rw [hpad (Int.ofNat f) (Int.ofNat n) (by
            show fb.m_frame_size ≤ ((f : Nat) : Int)
            omega) (by
            show ((f : Nat) : Int) < fb.tensorFrames
            omega) (Int.ofNat_nonneg _) hn2]
        ring)
      fb.tensorFrames.toNat (le_refl _)
    rw [this, Nat.min_eq_right (by omega)]
  rw [sum_range_const _ (((fb.m_frame_size.toNat : Nat) : ℚ) * c ^ 2) fb.m_node_size.toNat
    fb.m_node_size.toNat inner (fun n h1 h2 => absurd h2 (by omega)) fb.m_node_size.toNat
    (le_refl _), Nat.min_self]
  have c1 : ((fb.m_frame_size.toNat : Nat) : ℚ) = (fb.m_frame_size : ℚ) := by
    rw [← Int.cast_natCast, Int.toNat_of_nonneg hfs]
  have c2 : ((fb.m_node_size.toNat : Nat) : ℚ) = (fb.m_node_size : ℚ) := by
    rw [← Int.cast_natCast, Int.toNat_of_nonneg hns]
  rw [c1, c2]
  ring

theorem exampleNorm_valid (f n : Int) (hv : exampleNorm.ValidIndex f n) :
    fp32Value (exampleNorm.Get exampleNorm.m_data_type f n) = 3 := by
  obtain ⟨h0, h1, h2, h3⟩ := hv
  have e1 : exampleNorm.GetFrameSize = 4 := by decide!
  have e2 : exampleNorm.GetNodeSize = 1 := by decide!
  rw [e1] at h1
  rw [e2] at h3
  have hn : n = 0 := by omega
  subst hn
  interval_cases f <;> decide!

theorem exampleNorm_padding (f n : Int) (hf0 : exampleNorm.m_frame_size ≤ f)
    (hf1 : f < exampleNorm.tensorFrames) (hn0 : 0 ≤ n) (hn1 : n < exampleNorm.m_node_size) :
    fp32Value (exampleNorm.Get exampleNorm.m_data_type f n) = 0 := by
  have e1 : exampleNorm.m_frame_size = 4 := by decide!
  have e2 : exampleNorm.m_node_size = 1 := by decide!
  have e3 : exampleNorm.tensorFrames = 8 := by decide!
  rw [e1] at hf0
  rw [e3] at hf1
  rw [e2] at hn1
  have hn : n = 0 := by omega
  subst hn
  interval_cases f <;> decide!

/-! ### Index ranges of the convolution -/

theorem int_cast_eq (v : Nat) (h : v < 2 ^ 31) : int_cast v = (v : Int) := by
  have e : v % 2 ^ 32 = v := Nat.mod_eq_of_lt (by omega)
  unfold int_cast toSigned
  rw [e, e, if_pos (by simpa using h)]

theorem size_t_cast_eq (x : Int) (h0 : 0 ≤ x) (h1 : x < 2 ^ 64) : size_t_cast x = x :=
  Int.emod_eq_of_lt h0 h1

theorem index_lt (a A b B : Int) (ha : 0 ≤ a) (haA : a < A) (hb : 0 ≤ b) (hbB : b < B) :
    0 ≤ a * B + b ∧ a * B + b < A * B := by
  have hB : 0 < B := by omega
  constructor
  · have := Int.mul_nonneg ha hB.le
    omega
  · have h1 : (a + 1) * B ≤ A * B := Int.mul_le_mul_of_nonneg_right (by omega) hB.le
    have h2 : (a + 1) * B = a * B + B := by ring
    omega

theorem mem_loopAccesses (n : Int) (body : Int → List Access) (a : Access) :
    a ∈ loopAccesses n body ↔ ∃ i : Nat, (i : Int) < n ∧ a ∈ body (i : Int) := by
  unfold loopAccesses
  rw [List.mem_flatMap]
  constructor
  · rintro ⟨i, hi, ha⟩
    exact ⟨i, by have := List.mem_range.mp hi; omega, ha⟩
  · rintro ⟨i, hi, ha⟩
    exact ⟨i, List.mem_range.mpr (by omega), ha⟩

theorem Convolution_Resize_fields (self : NeuralNetConvolution) (ic ih iw oc fh fw : Nat)
    (hic : ic < 2 ^ 31) (hih : ih < 2 ^ 31) (hiw : iw < 2 ^ 31) (hoc : oc < 2 ^ 31)
    (hfh : fh < 2 ^ 31) (hfw : fw < 2 ^ 31) (hW : oc * ic * fh * fw < 2 ^ 31) :
    (self.Resize ic ih iw oc fh fw).m_input_c_size = (ic : Int)
      ∧ (self.Resize ic ih iw oc fh fw).m_input_h_size = (ih : Int)
      ∧ (self.Resize ic ih iw oc fh fw).m_input_w_size = (iw : Int)
      ∧ (self.Resize ic ih iw oc fh fw).m_output_c_size = (oc : Int)
      ∧ (self.Resize ic ih iw oc fh fw).m_filter_h_size = (fh : Int)
      ∧ (self.Resize ic ih iw oc fh fw).m_filter_w_size = (fw : Int)
      ∧ (self.Resize ic ih iw oc fh fw).m_output_h_size = (ih : Int) - (fh : Int) + 1
      ∧ (self.Resize ic ih iw oc fh fw).m_output_w_size = (iw : Int) - (fw : Int) + 1
      ∧ (self.Resize ic ih iw oc fh fw).m_frame_size = self.m_frame_size
      ∧ (self.Resize ic ih iw oc fh fw).m_W.length = oc * ic * fh * fw
      ∧ (self.Resize ic ih iw oc fh fw).m_dW.length = oc * ic * fh * fw
      ∧ (self.Resize ic ih iw oc fh fw).m_b.length = oc := by
  have e1 := int_cast_eq ic hic
  have e2 := int_cast_eq ih hih
  have e3 := int_cast_eq iw hiw
  have e4 := int_cast_eq oc hoc
  have e5 := int_cast_eq fh hfh
  have e6 := int_cast_eq fw hfw
  have eW : size_t_cast ((oc : Int) * ic * fh * fw) = ((oc * ic * fh * fw : Nat) : Int) := by
    rw [size_t_cast_eq]
    · push_cast; rfl
    · positivity
    · have : ((oc * ic * fh * fw : Nat) : Int) < 2 ^ 31 := by exact_mod_cast hW
      push_cast at this
      omega
  have eb : size_t_cast (oc : Int) = ((oc : Nat) : Int) :=
    size_t_cast_eq _ (by omega) (by omega)
  simp only [NeuralNetConvolution.Resize, e1, e2, e3, e4, e5, e6, eW, eb, List.length_replicate,
    Int.toNat_ofNat, and_self]

theorem Convolution_indices (self : NeuralNetConvolution) (ic ih iw oc fh fw : Nat)
    (hfh1 : 1 ≤ fh) (hfh2 : fh ≤ ih) (hfw1 : 1 ≤ fw) (hfw2 : fw ≤ iw)
    (hic : ic < 2 ^ 31) (hih : ih < 2 ^ 31) (hiw : iw < 2 ^ 31) (hoc : oc < 2 ^ 31)
    (hW : oc * ic * fh * fw < 2 ^ 31) (hin : ic * ih * iw < 2 ^ 31)
    (hout : oc * (ih - fh + 1) * (iw - fw + 1) < 2 ^ 31)
    (n y x c fy fx : Nat) (hn : n < oc) (hy : y < ih - fh + 1) (hx : x < iw - fw + 1)
    (hc : c < ic) (hfy : fy < fh) (hfx : fx < fw) :
    (0 ≤ (self.Resize ic ih iw oc fh fw).GetInputPtr c ((y : Int) + fy) ((x : Int) + fx)
        ∧ (self.Resize ic ih iw oc fh fw).GetInputPtr c ((y : Int) + fy) ((x : Int) + fx)
          < (self.Resize ic ih iw oc fh fw).GetInputNodeSize)
      ∧ (0 ≤ (self.Resize ic ih iw oc fh fw).GetOutputPtr n y x
        ∧ (self.Resize ic ih iw oc fh fw).GetOutputPtr n y x
          < (self.Resize ic ih iw oc fh fw).GetOutputNodeSize)
      ∧ (∃ k : Nat, (self.Resize ic ih iw oc fh fw).W n c fy fx = some (k : Int)
          ∧ k = ((n * ic + c) * fh + fy) * fw + fx
          ∧ k < (self.Resize ic ih iw oc fh fw).m_W.length)
      ∧ (∃ k : Nat, (self.Resize ic ih iw oc fh fw).b n = some (k : Int)
          ∧ k < (self.Resize ic ih iw oc fh fw).m_b.length) := by
  obtain ⟨f1, f2, f3, f4, f5, f6, f7, f8, _, f10, _, f12⟩ :=
    Convolution_Resize_fields self ic ih iw oc fh fw hic hih hiw hoc (by omega) (by omega) hW
  have hinZ : (ic : Int) * ih * iw < 2 ^ 31 := by exact_mod_cast hin
  have houtZ : (oc : Int) * ((ih : Int) - fh + 1) * ((iw : Int) - fw + 1) < 2 ^ 31 := by
    have e1 : (((ih - fh + 1 : Nat)) : Int) = (ih : Int) - fh + 1 := by omega
    have e2 : (((iw - fw + 1 : Nat)) : Int) = (iw : Int) - fw + 1 := by omega
    have : ((oc * (ih - fh + 1) * (iw - fw + 1) : Nat) : Int) < 2 ^ 31 := by exact_mod_cast hout
    rw [Nat.cast_mul, Nat.cast_mul, e1, e2] at this
    exact this
  have hWZ : (oc : Int) * ic * fh * fw < 2 ^ 31 := by exact_mod_cast hW
  -- input node
  have i1 := index_lt (c : Int) ic ((y : Int) + fy) ih (by omega) (by omega) (by omega) (by omega)
  have i2 := index_lt ((c : Int) * ih + ((y : Int) + fy)) ((ic : Int) * ih) ((x : Int) + fx) iw
    i1.1 i1.2 (by omega) (by omega)
  -- output node
  have o1 := index_lt (n : Int) oc (y : Int) ((ih : Int) - fh + 1) (by omega) (by omega)
    (by omega) (by omega)
  have o2 := index_lt ((n : Int) * ((ih : Int) - fh + 1) + y) ((oc : Int) * ((ih : Int) - fh + 1))
    (x : Int) ((iw : Int) - fw + 1) o1.1 o1.2 (by omega) (by omega)
  -- weight
  have w1 := index_lt (n : Int) oc (c : Int) ic (by omega) (by omega) (by omega) (by omega)
  have w2 := index_lt ((n : Int) * ic + c) ((oc : Int) * ic) (fy : Int) fh w1.1 w1.2 (by omega)
    (by omega)
  have w3 := index_lt (((n : Int) * ic + c) * fh + fy) ((oc : Int) * ic * fh) (fx : Int) fw
    w2.1 w2.2 (by omega) (by omega)
  refine ⟨?_, ?_, ?_, ?_⟩
  · unfold NeuralNetConvolution.GetInputPtr NeuralNetConvolution.GetInputNodeSize
    rw [f1, f2, f3, size_t_cast_eq _ (by omega) (by omega)]
    exact i2
  · unfold NeuralNetConvolution.GetOutputPtr NeuralNetConvolution.GetOutputNodeSize
    rw [f4, f7, f8, size_t_cast_eq _ (by omega) (by omega)]
    exact o2
  · refine ⟨((n * ic + c) * fh + fy) * fw + fx, ?_, rfl, ?_⟩
    · unfold NeuralNetConvolution.W NeuralNetConvolution.W_index
      rw [f1, f2, f3, f4, f5, f6, size_t_cast_eq (oc : Int) (by omega) (by omega),
        size_t_cast_eq (ic : Int) (by omega) (by omega),
        size_t_cast_eq (ih : Int) (by omega) (by omega),
        size_t_cast_eq (iw : Int) (by omega) (by omega),
        size_t_cast_eq (fh : Int) (by omega) (by omega),
        size_t_cast_eq (fw : Int) (by omega) (by omega)]
      rw [if_neg (by omega), if_neg (by omega), if_neg (by omega), if_neg (by omega)]
      rw [Int.emod_eq_of_lt w3.1 (by omega)]
      push_cast
      rfl
    · rw [f10]
      have : ((((n * ic + c) * fh + fy) * fw + fx : Nat) : Int) < ((oc * ic * fh * fw : Nat) : Int) := by
        push_cast
        exact w3.2
      exact_mod_cast this
  · refine ⟨n, ?_, by rw [f12]; exact hn⟩
    unfold NeuralNetConvolution.b
    rw [f4, size_t_cast_eq (oc : Int) (by omega) (by omega), if_neg (by omega)]

theorem Convolution_output_index (self : NeuralNetConvolution) (ic ih iw oc fh fw : Nat)
    (hfh2 : fh ≤ ih) (hfw2 : fw ≤ iw)
    (hic : ic < 2 ^ 31) (hih : ih < 2 ^ 31) (hiw : iw < 2 ^ 31) (hoc : oc < 2 ^ 31)
    (hW : oc * ic * fh * fw < 2 ^ 31)
    (hout : oc * (ih - fh + 1) * (iw - fw + 1) < 2 ^ 31)
    (n y x : Nat) (hn : n < oc) (hy : y < ih - fh + 1) (hx : x < iw - fw + 1) :
    (0 ≤ (self.Resize ic ih iw oc fh fw).GetOutputPtr n y x
        ∧ (self.Resize ic ih iw oc fh fw).GetOutputPtr n y x
          < (self.Resize ic ih iw oc fh fw).GetOutputNodeSize)
      ∧ (∃ k : Nat, (self.Resize ic ih iw oc fh fw).b n = some (k : Int)
          ∧ k < (self.Resize ic ih iw oc fh fw).m_b.length) := by
  obtain ⟨_, _, _, f4, _, _, f7, f8, _, _, _, f12⟩ :=
    Convolution_Resize_fields self ic ih iw oc fh fw hic hih hiw hoc (by omega) (by omega) hW
  have houtZ : (oc : Int) * ((ih : Int) - fh + 1) * ((iw : Int) - fw + 1) < 2 ^ 31 := by
    have e1 : (((ih - fh + 1 : Nat)) : Int) = (ih : Int) - fh + 1 := by omega
    have e2 : (((iw - fw + 1 : Nat)) : Int) = (iw : Int) - fw + 1 := by omega
    have : ((oc * (ih - fh + 1) * (iw - fw + 1) : Nat) : Int) < 2 ^ 31 := by exact_mod_cast hout
    rw [Nat.cast_mul, Nat.cast_mul, e1, e2] at this
    exact this
  have o1 := index_lt (n : Int) oc (y : Int) ((ih : Int) - fh + 1) (by omega) (by omega)
    (by omega) (by omega)
  have o2 := index_lt ((n : Int) * ((ih : Int) - fh + 1) + y) ((oc : Int) * ((ih : Int) - fh + 1))
    (x : Int) ((iw : Int) - fw + 1) o1.1 o1.2 (by omega) (by omega)
  refine ⟨?_, ?_⟩
  · unfold NeuralNetConvolution.GetOutputPtr NeuralNetConvolution.GetOutputNodeSize
    rw [f4, f7, f8, size_t_cast_eq _ (by omega) (by omega)]
    exact o2
  · refine ⟨n, ?_, by rw [f12]; exact hn⟩
    unfold NeuralNetConvolution.b
    rw [f4, size_t_cast_eq (oc : Int) (by omega) (by omega), if_neg (by omega)]

/-! ### Serial wiring -/

theorem serial_inner (N o : Int) (m : Nat) (log : List (Int × Int × Int)) (c : Int) :
    forLoop m
        (fun i (st : List (Int × Int × Int) × Int) =>
          (st.1 ++ [(o, i, st.2.tmod N)], st.2 + 1))
        (log, c)
      = (log ++ (List.range m).map (fun i : Nat => (o, (i : Int), (c + (i : Int)).tmod N)),
          c + (m : Int)) := by
  induction m with
  | zero => simp [forLoop]
  | succ m ih =>
    show (fun i (st : List (Int × Int × Int) × Int) =>
          (st.1 ++ [(o, i, st.2.tmod N)], st.2 + 1)) (m : Int) (forLoop m _ (log, c)) = _
    rw [ih, List.range_succ, List.map_append]
    simp only [List.map_cons, List.map_nil, List.append_assoc, Nat.cast_succ]
    congr 1
    ring

theorem serial_outer (k : Int → Int) (N : Int) (M : Nat)
    (hk : ∀ o : Nat, o < M → 0 ≤ k (o : Int)) :
    forLoop M
        (fun output_node (st : List (Int × Int × Int) × Int) =>
          forLoop (k output_node).toNat
            (fun i (st : List (Int × Int × Int) × Int) =>
              (st.1 ++ [(output_node, i, st.2.tmod N)], st.2 + 1))
            st)
        ([], 0)
      = ((List.range M).flatMap
          (fun o : Nat =>
            (List.range (k (o : Int)).toNat).map
              (fun i : Nat =>
                ((o : Int), (i : Int),
                  (SparseLayer.inputsBefore k (o : Int) + (i : Int)).tmod N))),
          SparseLayer.inputsBefore k (M : Int)) := by
  induction M with
  | zero => simp [forLoop, SparseLayer.inputsBefore]
  | succ M ih =>
    show forLoop (k (M : Int)).toNat _ (forLoop M _ ([], 0)) = _
    rw [ih (fun o ho => hk o (Nat.lt_succ_of_lt ho)), serial_inner, List.range_succ,
      List.flatMap_append, List.flatMap_singleton]
    congr 1
    have h := hk M (Nat.lt_succ_self M)
    unfold SparseLayer.inputsBefore
    rw [Int.toNat_ofNat, Int.toNat_ofNat, List.sum_range_succ, Int.toNat_of_nonneg h]

theorem serialCalls_eq (k : Int → Int) (N M : Int)
    (hk : ∀ o : Int, 0 ≤ o → o < M → 0 ≤ k o) :
    SparseLayer.serialCalls k N M
      = (List.range M.toNat).flatMap
          (fun o : Nat =>
            (List.range (k (o : Int)).toNat).map
              (fun i : Nat =>
                ((o : Int), (i : Int),
                  (SparseLayer.inputsBefore k (o : Int) + (i : Int)).tmod N))) := by
  unfold SparseLayer.serialCalls SparseLayer.InitializeNodeInput_serial
  rw [serial_outer k N M.toNat (fun o ho => hk o (by omega) (by omega))]

theorem inputsBefore_nonneg (k : Int → Int) (M : Int)
    (hk : ∀ o : Int, 0 ≤ o → o < M → 0 ≤ k o) (o : Int) (ho : o ≤ M) :
    0 ≤ SparseLayer.inputsBefore k o := by
  unfold SparseLayer.inputsBefore
  apply List.sum_nonneg
  intro x hx
  obtain ⟨j, hj, rfl⟩ := List.mem_map.mp hx
  have := List.mem_range.mp hj
  exact hk j (by omega) (by omega)

/-! ### Loops with a counter -/

theorem forLoop_invariant {σ : Type} (I : σ → Prop) (n : Nat) (body : Int → σ → σ)
    (h : ∀ i s, I s → I (body i s)) (s : σ) (hs : I s) : I (forLoop n body s) := by
  induction n with
  | zero => exact hs
  | succ n ih => exact h _ _ ih

theorem forLoop4_shape (K0 K1 K2 K3 : Nat) (T : DType) (fd nd : Int → Int → Int → Int → Int)
    (val : Int → Int → Int → Int → Nat) (d0 : FrameBuffer) :
    (forLoop K0
      (fun i s =>
        forLoop K1
          (fun j s =>
            forLoop K2
              (fun k s =>
                forLoop K3
                  (fun l s => FrameBufferPtr_.Set T s (fd i j k l) (nd i j k l) (val i j k l))
                  s)
              s)
          s)
      d0).m_node_shape = d0.m_node_shape := by
  apply forLoop_invariant (fun s : FrameBuffer => s.m_node_shape = d0.m_node_shape) _ _ _ _ rfl
  intro i s hs
  apply forLoop_invariant (fun s : FrameBuffer => s.m_node_shape = d0.m_node_shape) _ _ _ _ hs
  intro j s hs
  apply forLoop_invariant (fun s : FrameBuffer => s.m_node_shape = d0.m_node_shape) _ _ _ _ hs
  intro k s hs
  apply forLoop_invariant (fun s : FrameBuffer => s.m_node_shape = d0.m_node_shape) _ _ _ _ hs
  intro l s hs
  exact hs

theorem forLoop_counter1 {σ : Type} (g : Int → Int → σ → σ) (n : Nat) (s : σ) (c : Int) :
    forLoop n (fun j (st : σ × Int) => (g j st.2 st.1, st.2 + 1)) (s, c)
      = (forLoop n (fun j s => g j (c + j) s) s, c + (n : Int)) := by
  induction n with
  | zero => simp [forLoop]
  | succ n ih =>
    show (fun j (st : σ × Int) => (g j st.2 st.1, st.2 + 1)) (n : Int) (forLoop n _ (s, c)) = _
    rw [ih]
    show (g n (c + n) (forLoop n (fun j s => g j (c + j) s) s), c + (n : Int) + 1) = _
    congr 1
    push_cast
    ring

theorem forLoop_counter2 {σ : Type} (g : Int → Int → Int → σ → σ) (n m : Nat) (s : σ)
    (c : Int) :
    forLoop n
        (fun i (st : σ × Int) =>
          forLoop m (fun j (st : σ × Int) => (g i j st.2 st.1, st.2 + 1)) st)
        (s, c)
      = (forLoop n (fun i s => forLoop m (fun j s => g i j (c + i * m + j) s) s) s,
          c + (n : Int) * m) := by
  induction n with
  | zero => simp [forLoop]
  | succ n ih =>
    show forLoop m (fun j (st : σ × Int) => (g n j st.2 st.1, st.2 + 1)) (forLoop n _ (s, c)) = _
    rw [ih, forLoop_counter1 (g n) m]
    show (forLoop m (fun j s => g n j (c + n * m + j) s)
        (forLoop n (fun i s => forLoop m (fun j s => g i j (c + i * m + j) s) s) s), _) = _
    congr 1
    push_cast
    ring

theorem forLoop_counter3 {σ : Type} (g : Int → Int → Int → Int → σ → σ) (n m l : Nat) (s : σ) :
    forLoop n
        (fun i (st : σ × Int) =>
          forLoop m
            (fun j (st : σ × Int) =>
              forLoop l (fun k (st : σ × Int) => (g i j k st.2 st.1, st.2 + 1)) st)
            st)
        (s, 0)
      = (forLoop n
          (fun i s =>
            forLoop m (fun j s => forLoop l (fun k s => g i j k ((i * m + j) * l + k) s) s) s)
          s,
          (n : Int) * m * l) := by
  have key : ∀ n : Nat,
      forLoop n
        (fun i (st : σ × Int) =>
          forLoop m
            (fun j (st : σ × Int) =>
              forLoop l (fun k (st : σ × Int) => (g i j k st.2 st.1, st.2 + 1)) st)
            st)
        (s, 0)
      = (forLoop n
          (fun i s =>
            forLoop m (fun j s => forLoop l (fun k s => g i j k ((i * m + j) * l + k) s) s) s)
          s,
          (n : Int) * (m * l)) := by
    intro n
    induction n with
    | zero => simp [forLoop]
    | succ n ih =>
      show forLoop m
        (fun j (st : σ × Int) =>
          forLoop l (fun k (st : σ × Int) => (g n j k st.2 st.1, st.2 + 1)) st)
        (forLoop n _ (s, 0)) = _
      rw [ih, forLoop_counter2 (g n) m l]
      have e : ∀ j k : Int, (n : Int) * (m * l) + j * l + k = ((n : Int) * m + j) * l + k := by
        intro j k
        ring
      simp only [e]
      show (forLoop m (fun j s => forLoop l (fun k s => g n j k ((n * m + j) * l + k) s) s)
        (forLoop n
          (fun i s =>
            forLoop m (fun j s => forLoop l (fun k s => g i j k ((i * m + j) * l + k) s) s) s)
          s), _) = _
      congr 1
      push_cast
      ring
  rw [key n, mul_assoc]

/-! ### Loops of stores by digits of the destination -/

theorem forLoop_region_comp (d0 : FrameBuffer) (T : DType)
    (body : Int → FrameBuffer → FrameBuffer) (P : Int → Int → Prop) (comp : Int → Int → Int)
    (V : Int → Int → Nat) (k : Nat)
    (hcomp : ∀ f n, d0.ValidIndex f n → P f n → 0 ≤ comp f n ∧ comp f n < (k : Int))
    (H : ∀ i, i < k → ∀ d : FrameBuffer, d.WF → d.SameLayout d0 →
      (body (i : Int) d).WF ∧ (body (i : Int) d).SameLayout d0
        ∧ ∀ f n, d0.ValidIndex f n →
            ((P f n ∧ comp f n = (i : Int)) → (body (i : Int) d).Get T f n = V f n)
            ∧ (¬ (P f n ∧ comp f n = (i : Int)) → (body (i : Int) d).Get T f n = d.Get T f n))
    (d : FrameBuffer) (hwf : d.WF) (hl : d.SameLayout d0) :
    (forLoop k body d).WF ∧ (forLoop k body d).SameLayout d0
      ∧ ∀ f n, d0.ValidIndex f n →
          (P f n → (forLoop k body d).Get T f n = V f n)
          ∧ (¬ P f n → (forLoop k body d).Get T f n = d.Get T f n) := by
  obtain ⟨rwf, rl, rg⟩ := forLoop_region d0 T body
    (fun i f n => P f n ∧ comp f n = (i : Int)) (fun _ f n => V f n) k H d hwf hl
  refine ⟨rwf, rl, ?_⟩
  intro f n hv
  obtain ⟨g1, g2⟩ := rg f n hv
  constructor
  · intro hP
    obtain ⟨c0, c1⟩ := hcomp f n hv hP
    have e : (((comp f n).toNat : Nat) : Int) = comp f n := Int.toNat_of_nonneg c0
    exact g2 (comp f n).toNat (by omega) ⟨hP, e.symm⟩ (fun j hij _ hR => by
      have := hR.2
      omega)
  · intro hnP
    exact g1 (fun i _ hR => hnP hR.1)

theorem forLoop4_stores (d0 : FrameBuffer) (T : DType) (hT : d0.m_data_type = T)
    (hwf : d0.WF) (K0 K1 K2 K3 : Nat)
    (comp0 comp1 comp2 comp3 : Int → Int → Int) (fd nd : Int → Int → Int → Int → Int)
    (val : Int → Int → Int → Int → Nat)
    (hval : ∀ i j k l, val i j k l < 2 ^ (DataType_GetBitSize T).toNat)
    (hrange : ∀ f n, d0.ValidIndex f n →
      (0 ≤ comp0 f n ∧ comp0 f n < (K0 : Int)) ∧ (0 ≤ comp1 f n ∧ comp1 f n < (K1 : Int))
        ∧ (0 ≤ comp2 f n ∧ comp2 f n < (K2 : Int)) ∧ (0 ≤ comp3 f n ∧ comp3 f n < (K3 : Int)))
    (hdst : ∀ i j k l : Nat, i < K0 → j < K1 → k < K2 → l < K3 →
      d0.ValidIndex (fd i j k l) (nd i j k l)
        ∧ ∀ f n, d0.ValidIndex f n →
            ((f = fd i j k l ∧ n = nd i j k l)
              ↔ (((comp0 f n = (i : Int) ∧ comp1 f n = (j : Int)) ∧ comp2 f n = (k : Int))
                  ∧ comp3 f n = (l : Int))))
    (r : FrameBuffer)
    (hr : r = forLoop K0
      (fun i s =>
        forLoop K1
          (fun j s =>
            forLoop K2
              (fun k s =>
                forLoop K3
                  (fun l s =>
                    FrameBufferPtr_.Set T s (fd i j k l) (nd i j k l) (val i j k l))
                  s)
              s)
          s)
      d0) :
    r.WF ∧ r.SameLayout d0
      ∧ ∀ f n, d0.ValidIndex f n →
          r.Get T f n = val (comp0 f n) (comp1 f n) (comp2 f n) (comp3 f n) := by
  subst hT
  have H3 : ∀ i j k : Nat, i < K0 → j < K1 → k < K2 → ∀ l, l < K3 →
      ∀ d : FrameBuffer, d.WF → d.SameLayout d0 →
      (FrameBufferPtr_.Set d0.m_data_type d (fd i j k l) (nd i j k l) (val i j k l)).WF
        ∧ (FrameBufferPtr_.Set d0.m_data_type d (fd i j k l) (nd i j k l)
            (val i j k l)).SameLayout d0
        ∧ ∀ f n, d0.ValidIndex f n →
            (((((True ∧ comp0 f n = (i : Int)) ∧ comp1 f n = (j : Int)) ∧ comp2 f n = (k : Int))
                ∧ comp3 f n = (l : Int)) →
              (FrameBufferPtr_.Set d0.m_data_type d (fd i j k l) (nd i j k l)
                (val i j k l)).Get d0.m_data_type f n
                = val (comp0 f n) (comp1 f n) (comp2 f n) (comp3 f n))
            ∧ (¬ ((((True ∧ comp0 f n = (i : Int)) ∧ comp1 f n = (j : Int))
                  ∧ comp2 f n = (k : Int)) ∧ comp3 f n = (l : Int)) →
              (FrameBufferPtr_.Set d0.m_data_type d (fd i j k l) (nd i j k l)
                (val i j k l)).Get d0.m_data_type f n = d.Get d0.m_data_type f n) := by
    intro i j k hi hj hk l hl d hdwf hdl
    obtain ⟨hvalid, hiff⟩ := hdst i j k l hi hj hk hl
    obtain ⟨swf, sl, sg⟩ := Set_step d0 d hdwf hdl (fd i j k l) (nd i j k l) (val i j k l)
      hvalid (hval _ _ _ _)
    refine ⟨swf, sl, ?_⟩
    intro f n hv
    obtain ⟨s1, s2⟩ := sg f n hv
    constructor
    · rintro ⟨⟨⟨⟨_, c0⟩, c1⟩, c2⟩, c3⟩
      have := s1 ((hiff f n hv).mpr ⟨⟨⟨c0, c1⟩, c2⟩, c3⟩)
      rw [c0, c1, c2, c3]
      exact this
    · intro hne
      exact s2 (fun h => hne (by
        obtain ⟨⟨⟨c0, c1⟩, c2⟩, c3⟩ := (hiff f n hv).mp h
        exact ⟨⟨⟨⟨trivial, c0⟩, c1⟩, c2⟩, c3⟩))
  have H2 := fun (i j : Nat) (hi : i < K0) (hj : j < K1) (k : Nat) (hk : k < K2)
      (d : FrameBuffer) (hdwf : d.WF) (hdl : d.SameLayout d0) =>
    forLoop_region_comp d0 d0.m_data_type
      (fun l s =>
        FrameBufferPtr_.Set d0.m_data_type s (fd i j k l) (nd i j k l) (val i j k l))
      (fun f n => ((True ∧ comp0 f n = (i : Int)) ∧ comp1 f n = (j : Int))
        ∧ comp2 f n = (k : Int))
      comp3 (fun f n => val (comp0 f n) (comp1 f n) (comp2 f n) (comp3 f n)) K3
      (fun f n hv _ => (hrange f n hv).2.2.2) (H3 i j k hi hj hk) d hdwf hdl
  have H1 := fun (i : Nat) (hi : i < K0) (j : Nat) (hj : j < K1)
      (d : FrameBuffer) (hdwf : d.WF) (hdl : d.SameLayout d0) =>
    forLoop_region_comp d0 d0.m_data_type
      (fun k s =>
        forLoop K3
          (fun l s =>
            FrameBufferPtr_.Set d0.m_data_type s (fd i j k l) (nd i j k l) (val i j k l))
          s)
      (fun f n => (True ∧ comp0 f n = (i : Int)) ∧ comp1 f n = (j : Int))
      comp2 (fun f n => val (comp0 f n) (comp1 f n) (comp2 f n) (comp3 f n)) K2
      (fun f n hv _ => (hrange f n hv).2.2.1) (H2 i j hi hj) d hdwf hdl
  have H0 := fun (i : Nat) (hi : i < K0)
      (d : FrameBuffer) (hdwf : d.WF) (hdl : d.SameLayout d0) =>
    forLoop_region_comp d0 d0.m_data_type
      (fun j s =>
        forLoop K2
          (fun k s =>
            forLoop K3
              (fun l s =>
                FrameBufferPtr_.Set d0.m_data_type s (fd i j k l) (nd i j k l) (val i j k l))
              s)
          s)
      (fun f n => True ∧ comp0 f n = (i : Int))
      comp1 (fun f n => val (comp0 f n) (comp1 f n) (comp2 f n) (comp3 f n)) K1
      (fun f n hv _ => (hrange f n hv).2.1) (H1 i hi) d hdwf hdl
  obtain ⟨rwf, rl, rg⟩ := forLoop_region_comp d0 d0.m_data_type
    (fun i s =>
      forLoop K1
        (fun j s =>
          forLoop K2
            (fun k s =>
              forLoop K3
                (fun l s =>
                  FrameBufferPtr_.Set d0.m_data_type s (fd i j k l) (nd i j k l)
                    (val i j k l))
                s)
            s)
        s)
    (fun _ _ => True)
    comp0 (fun f n => val (comp0 f n) (comp1 f n) (comp2 f n) (comp3 f n)) K0
    (fun f n hv _ => (hrange f n hv).1) H0 d0 hwf ⟨rfl, rfl, rfl, rfl⟩
  rw [hr]
  exact ⟨rwf, rl, fun f n hv => (rg f n hv).1 trivial⟩

/-! ### Digits of a column index -/

theorem digits_of_index (w h x y c : Int) (hx0 : 0 ≤ x) (hx : x < w) (hy0 : 0 ≤ y)
    (hy : y < h) :
    ((c * h + y) * w + x) % w = x ∧ ((c * h + y) * w + x) / w % h = y
      ∧ ((c * h + y) * w + x) / w / h = c := by
  have hw : 0 < w := by omega
  have hh : 0 < h := by omega
  have e1 : ((c * h + y) * w + x) % w = x := by
    rw [Int.add_comm, Int.add_mul_emod_self]
    exact Int.emod_eq_of_lt hx0 hx
  have e2 : ((c * h + y) * w + x) / w = c * h + y := by
    rw [Int.add_comm, Int.add_mul_ediv_right _ _ (by omega), Int.ediv_eq_zero_of_lt hx0 hx]
    omega
  have e3 : (c * h + y) % h = y := by
    rw [Int.add_comm, Int.add_mul_emod_self]
    exact Int.emod_eq_of_lt hy0 hy
  have e4 : (c * h + y) / h = c := by
    rw [Int.add_comm, Int.add_mul_ediv_right _ _ (by omega), Int.ediv_eq_zero_of_lt hy0 hy]
    omega
  rw [e2]
  exact ⟨e1, e3, e4⟩

theorem index_of_digits (w h n : Int) : (n / w / h * h + n / w % h) * w + n % w = n := by
  have e1 : n / w / h * h + n / w % h = n / w := by
    have := Int.ediv_add_emod (n / w) h
    rw [Int.mul_comm] at this
    exact this
  rw [e1]
  have := Int.ediv_add_emod n w
  rw [Int.mul_comm] at this
  exact this

theorem digits_range (w h K n : Int) (hw : 0 < w) (hh : 0 < h) (h0 : 0 ≤ n)
    (h1 : n < K * h * w) :
    (0 ≤ n % w ∧ n % w < w) ∧ (0 ≤ n / w % h ∧ n / w % h < h)
      ∧ (0 ≤ n / w / h ∧ n / w / h < K) := by
  have q0 : 0 ≤ n / w := Int.ediv_nonneg h0 hw.le
  have q1 : n / w < K * h := Int.ediv_lt_of_lt_mul hw h1
  exact ⟨⟨Int.emod_nonneg _ (by omega), Int.emod_lt_of_pos _ hw⟩,
    ⟨Int.emod_nonneg _ (by omega), Int.emod_lt_of_pos _ hh⟩,
    ⟨Int.ediv_nonneg q0 hh.le, Int.ediv_lt_of_lt_mul hh q1⟩⟩

theorem index_range (w h K x y c : Int) (hx0 : 0 ≤ x) (hx : x < w) (hy0 : 0 ≤ y) (hy : y < h)
    (hc0 : 0 ≤ c) (hc : c < K) :
    0 ≤ (c * h + y) * w + x ∧ (c * h + y) * w + x < K * h * w := by
  have i1 := index_lt c K y h hc0 hc hy0 hy
  exact index_lt (c * h + y) (K * h) x w i1.1 i1.2 hx0 hx

theorem index_iff_digits (w h x y c n : Int) (hx0 : 0 ≤ x) (hx : x < w) (hy0 : 0 ≤ y)
    (hy : y < h) :
    n = (c * h + y) * w + x ↔ (n / w % h = y ∧ n % w = x) ∧ n / w / h = c := by
  constructor
  · rintro rfl
    obtain ⟨e1, e2, e3⟩ := digits_of_index w h x y c hx0 hx hy0 hy
    exact ⟨⟨e2, e1⟩, e3⟩
  · rintro ⟨⟨e2, e1⟩, e3⟩
    rw [← e1, ← e2, ← e3]
    exact (index_of_digits w h n).symm

/-! ### ConvolutionCol2Im -/

theorem Col2Im_Forward_spec (FT : DType) (self : ConvolutionCol2Im) (x : FrameBuffer)
    (train : Bool) (hx : x.GetType = FT) (hh : 0 < self.m_h_size) (hw : 0 < self.m_w_size)
    (hC : 0 ≤ self.m_c_size) (hF : 0 ≤ x.GetFrameSize)
    (hdiv : x.GetFrameSize.tmod (self.m_h_size * self.m_w_size) = 0) :
    ∃ r, self.Forward FT x train = some r
      ∧ r.1 = { self with m_y := r.2 }
      ∧ r.2.WF ∧ r.2.m_data_type = FT
      ∧ r.2.m_frame_size = x.GetFrameSize / (self.m_h_size * self.m_w_size)
      ∧ r.2.m_node_shape = [self.m_w_size, self.m_h_size, self.m_c_size]
      ∧ r.2.m_node_size = self.m_c_size * self.m_h_size * self.m_w_size
      ∧ ∀ f n, 0 ≤ f → f < x.GetFrameSize / (self.m_h_size * self.m_w_size) → 0 ≤ n →
          n < self.m_c_size * self.m_h_size * self.m_w_size →
          r.2.Get FT f n
            = x.Get FT
                ((f * self.m_h_size + n / self.m_w_size % self.m_h_size) * self.m_w_size
                  + n % self.m_w_size)
                (n / self.m_w_size / self.m_h_size) := by
  obtain ⟨C, h, w, m_y, m_dx⟩ := self
  simp only at hh hw hC hdiv ⊢
  have hhw : 0 < h * w := Int.mul_pos hh hw
  have eF : x.GetFrameSize.tdiv (h * w) = x.GetFrameSize / (h * w) :=
    Int.tdiv_eq_ediv hF hhw.le
  have hF' : 0 ≤ x.GetFrameSize / (h * w) := Int.ediv_nonneg hF hhw.le
  have eh : ((h.toNat : Nat) : Int) = h := Int.toNat_of_nonneg hh.le
  have ew : ((w.toNat : Nat) : Int) = w := Int.toNat_of_nonneg hw.le
  have eC : ((C.toNat : Nat) : Int) = C := Int.toNat_of_nonneg hC
  have eFn : (((x.GetFrameSize / (h * w)).toNat : Nat) : Int) = x.GetFrameSize / (h * w) :=
    Int.toNat_of_nonneg hF'
  have hc3 := forLoop_counter3
    (fun i j k cnt (s : FrameBuffer) =>
      forLoop C.toNat
        (fun c y_ptr =>
          FrameBufferPtr_.Set FT y_ptr i ((c * h + j) * w + k)
            (FrameBufferConstPtr_.Get FT (x.GetConstPtr FT) cnt c))
        s)
    (x.GetFrameSize / (h * w)).toNat h.toNat w.toNat
    ((m_y.Resize_typed FT (x.GetFrameSize / (h * w)) [w, h, C]).GetPtr FT true)
  have hwf0 : ((m_y.Resize_typed FT (x.GetFrameSize / (h * w)) [w, h, C]).GetPtr FT true).WF :=
    Resize_WF m_y _ _ _ hF'
  have hns0 : ((m_y.Resize_typed FT (x.GetFrameSize / (h * w)) [w, h, C]).GetPtr FT
      true).m_node_size = C * h * w := by
    show (m_y.Resize (x.GetFrameSize / (h * w)) [w, h, C] FT).m_node_size = _
    rw [Resize_node_size]
    simp only [List.prod_cons, List.prod_nil]
    ring
  obtain ⟨rwf, rl, rg⟩ := forLoop4_stores
    ((m_y.Resize_typed FT (x.GetFrameSize / (h * w)) [w, h, C]).GetPtr FT true) FT rfl hwf0
    (x.GetFrameSize / (h * w)).toNat h.toNat w.toNat C.toNat
    (fun f _ => f) (fun _ n => n / w % h) (fun _ n => n % w) (fun _ n => n / w / h)
    (fun i _ _ _ => i) (fun _ j k l => (l * h + j) * w + k)
    (fun i j k l =>
      FrameBufferConstPtr_.Get FT (x.GetConstPtr FT)
        ((i * ((h.toNat : Nat) : Int) + j) * ((w.toNat : Nat) : Int) + k) l)
    (fun i j k l => DataType_Read_lt _ _ _ _)
    (fun f n hv => by
      obtain ⟨v1, v2, v3, v4⟩ := hv
      have v2' : f < x.GetFrameSize / (h * w) := v2
      have v4' : n < C * h * w := by
        rw [← hns0]
        exact v4
      obtain ⟨d1, d2, d3⟩ := digits_range w h C n hw hh v3 v4'
      dsimp only
      rw [eh, ew, eC, eFn]
      exact ⟨⟨v1, v2'⟩, d2, d1, d3⟩)
    (fun i j k l hi hj hk hl => by
      have hi' : (i : Int) < x.GetFrameSize / (h * w) := by omega
      have hj' : (j : Int) < h := by omega
      have hk' : (k : Int) < w := by omega
      have hl' : (l : Int) < C := by omega
      have ir := index_range w h C k j l (by omega) hk' (by omega) hj' (by omega) hl'
      refine ⟨⟨Int.ofNat_nonneg i, hi', ir.1, ?_⟩, ?_⟩
      · show _ < FrameBuffer.m_node_size _
        rw [hns0]
        exact ir.2
      · intro f n _
        dsimp only
        rw [index_iff_digits w h k j l n (by omega) hk' (by omega) hj']
        tauto)
    _ rfl
  have e : ∃ R, ConvolutionCol2Im.Forward FT ⟨C, h, w, m_y, m_dx⟩ x train
        = some (⟨C, h, w, R, m_dx⟩, R)
      ∧ R = forLoop (x.GetFrameSize / (h * w)).toNat
          (fun i s =>
            forLoop h.toNat
              (fun j s =>
                forLoop w.toNat
                  (fun k s =>
                    forLoop C.toNat
                      (fun l s =>
                        FrameBufferPtr_.Set FT s i ((l * h + j) * w + k)
                          (FrameBufferConstPtr_.Get FT (x.GetConstPtr FT)
                            ((i * ((h.toNat : Nat) : Int) + j) * ((w.toNat : Nat) : Int) + k) l))
                      s)
                  s)
              s)
          ((m_y.Resize_typed FT (x.GetFrameSize / (h * w)) [w, h, C]).GetPtr FT true) := by
    refine ⟨_, ?_, congrArg Prod.fst hc3⟩
    unfold ConvolutionCol2Im.Forward
    simp only [hx, not_true_eq_false, if_false, hdiv, eF]
  obtain ⟨R, hR1, hR2⟩ := e
  subst hR2
  refine ⟨_, hR1, rfl, ?_⟩
  · dsimp only
    refine ⟨rwf, rl.1, rl.2.1, ?_, ?_, ?_⟩
    · exact forLoop4_shape _ _ _ _ FT (fun i _ _ _ => i) (fun _ j k l => (l * h + j) * w + k)
        (fun i j k l =>
          FrameBufferConstPtr_.Get FT (x.GetConstPtr FT)
            ((i * ((h.toNat : Nat) : Int) + j) * ((w.toNat : Nat) : Int) + k) l) _
    · exact (rl.2.2.2).trans hns0
    · intro f n hf0 hf1 hn0 hn1
      have := rg f n ⟨hf0, hf1, hn0, by
        show n < FrameBuffer.m_node_size _
        rw [hns0]
        exact hn1⟩
      dsimp only at this
      rw [this, eh, ew]
      rfl

theorem Col2Im_Backward_spec (BT : DType) (self : ConvolutionCol2Im) (dy : FrameBuffer)
    (hdy : dy.GetType = BT) (hh : 0 < self.m_h_size) (hw : 0 < self.m_w_size)
    (hC : 0 ≤ self.m_c_size) (hG : 0 ≤ dy.GetFrameSize) :
    ∃ r, self.Backward BT dy = some r
      ∧ r.1 = { self with m_dx := r.2 }
      ∧ r.2.WF ∧ r.2.m_data_type = BT
      ∧ r.2.m_frame_size = dy.GetFrameSize * (self.m_h_size * self.m_w_size)
      ∧ r.2.m_node_shape = [self.m_c_size]
      ∧ r.2.m_node_size = self.m_c_size
      ∧ ∀ f n, 0 ≤ f → f < dy.GetFrameSize * (self.m_h_size * self.m_w_size) → 0 ≤ n →
          n < self.m_c_size →
          r.2.Get BT f n
            = dy.Get BT (f / self.m_w_size / self.m_h_size)
                ((n * self.m_h_size + f / self.m_w_size % self.m_h_size) * self.m_w_size
                  + f % self.m_w_size) := by
  obtain ⟨C, h, w, m_y, m_dx⟩ := self
  simp only at hh hw hC ⊢
  have hhw : 0 < h * w := Int.mul_pos hh hw
  have hF' : 0 ≤ dy.GetFrameSize * (h * w) := Int.mul_nonneg hG hhw.le
  have eh : ((h.toNat : Nat) : Int) = h := Int.toNat_of_nonneg hh.le
  have ew : ((w.toNat : Nat) : Int) = w := Int.toNat_of_nonneg hw.le
  have eC : ((C.toNat : Nat) : Int) = C := Int.toNat_of_nonneg hC
  have eG : ((dy.GetFrameSize.toNat : Nat) : Int) = dy.GetFrameSize := Int.toNat_of_nonneg hG
  have eGhw : dy.GetFrameSize * (h * w) = dy.GetFrameSize * h * w := by ring
  have hc3 := forLoop_counter3
    (fun i j k cnt (s : FrameBuffer) =>
      forLoop C.toNat
        (fun c dx_ptr =>
          FrameBufferPtr_.Set BT dx_ptr cnt c
            (FrameBufferConstPtr_.Get BT (dy.GetConstPtr BT) i ((c * h + j) * w + k)))
        s)
    dy.GetFrameSize.toNat h.toNat w.toNat
    ((m_dx.Resize_typed BT (dy.GetFrameSize * (h * w)) [C]).GetPtr BT true)
  have hwf0 : ((m_dx.Resize_typed BT (dy.GetFrameSize * (h * w)) [C]).GetPtr BT true).WF :=
    Resize_WF m_dx _ _ _ hF'
  have hns0 : ((m_dx.Resize_typed BT (dy.GetFrameSize * (h * w)) [C]).GetPtr BT
      true).m_node_size = C := by
    show (m_dx.Resize (dy.GetFrameSize * (h * w)) [C] BT).m_node_size = _
    rw [Resize_node_size]
    simp only [List.prod_cons, List.prod_nil, mul_one]
  obtain ⟨rwf, rl, rg⟩ := forLoop4_stores
    ((m_dx.Resize_typed BT (dy.GetFrameSize * (h * w)) [C]).GetPtr BT true) BT rfl hwf0
    dy.GetFrameSize.toNat h.toNat w.toNat C.toNat
    (fun f _ => f / w / h) (fun f _ => f / w % h) (fun f _ => f % w) (fun _ n => n)
    (fun i j k _ => (i * ((h.toNat : Nat) : Int) + j) * ((w.toNat : Nat) : Int) + k)
    (fun _ _ _ l => l)
    (fun i j k l => FrameBufferConstPtr_.Get BT (dy.GetConstPtr BT) i ((l * h + j) * w + k))
    (fun i j k l => DataType_Read_lt _ _ _ _)
    (fun f n hv => by
      obtain ⟨v1, v2, v3, v4⟩ := hv
      have v2' : f < dy.GetFrameSize * h * w := by
        rw [← eGhw]
        exact v2
      have v4' : n < C := by
        rw [← hns0]
        exact v4
      obtain ⟨d1, d2, d3⟩ := digits_range w h dy.GetFrameSize f hw hh v1 v2'
      dsimp only
      rw [eh, ew, eC, eG]
      exact ⟨d3, d2, d1, v3, v4'⟩)
    (fun i j k l hi hj hk hl => by
      have hi' : (i : Int) < dy.GetFrameSize := by omega
      have hj' : (j : Int) < h := by omega
      have hk' : (k : Int) < w := by omega
      have hl' : (l : Int) < C := by omega
      have ir := index_range w h dy.GetFrameSize k j i (by omega) hk' (by omega) hj' (by omega)
        hi'
      dsimp only
      rw [eh, ew]
      refine ⟨⟨ir.1, ?_, Int.ofNat_nonneg l, ?_⟩, ?_⟩
      · show _ < dy.GetFrameSize * (h * w)
        rw [eGhw]
        exact ir.2
      · show _ < FrameBuffer.m_node_size _
        rw [hns0]
        exact hl'
      · intro f n _
        rw [index_iff_digits w h k j i f (by omega) hk' (by omega) hj']
        tauto)
    _ rfl
  have e : ∃ R, ConvolutionCol2Im.Backward BT ⟨C, h, w, m_y, m_dx⟩ dy
        = some (⟨C, h, w, m_y, R⟩, R)
      ∧ R = forLoop dy.GetFrameSize.toNat
          (fun i s =>
            forLoop h.toNat
              (fun j s =>
                forLoop w.toNat
                  (fun k s =>
                    forLoop C.toNat
                      (fun l s =>
                        FrameBufferPtr_.Set BT s
                          ((i * ((h.toNat : Nat) : Int) + j) * ((w.toNat : Nat) : Int) + k) l
                          (FrameBufferConstPtr_.Get BT (dy.GetConstPtr BT) i
                            ((l * h + j) * w + k)))
                      s)
                  s)
              s)
          ((m_dx.Resize_typed BT (dy.GetFrameSize * (h * w)) [C]).GetPtr BT true) := by
    refine ⟨_, ?_, congrArg Prod.fst hc3⟩
    unfold ConvolutionCol2Im.Backward
    simp only [hdy, not_true_eq_false, if_false]
  obtain ⟨R, hR1, hR2⟩ := e
  subst hR2
  refine ⟨_, hR1, rfl, ?_⟩
  · dsimp only
    refine ⟨rwf, rl.1, rl.2.1, ?_, ?_, ?_⟩
    · exact forLoop4_shape _ _ _ _ BT
        (fun i j k _ => (i * ((h.toNat : Nat) : Int) + j) * ((w.toNat : Nat) : Int) + k)
        (fun _ _ _ l => l)
        (fun i j k l =>
          FrameBufferConstPtr_.Get BT (dy.GetConstPtr BT) i ((l * h + j) * w + k)) _
    · exact (rl.2.2.2).trans hns0
    · intro f n hf0 hf1 hn0 hn1
      have := rg f n ⟨hf0, hf1, hn0, by
        show n < FrameBuffer.m_node_size _
        rw [hns0]
        exact hn1⟩
      dsimp only at this
      rw [this]
      rfl

/-! ### The `memcpy` branch of `GetRange` -/

theorem memcpy_getD (dst src : List Nat) (doff soff n : Int) (hd : 0 ≤ doff) :
    (memcpy dst doff src soff n).length = dst.length
      ∧ ∀ i : Nat, (memcpy dst doff src soff n).getD i 0
          = if doff ≤ (i : Int) ∧ (i : Int) < doff + n ∧ i < dst.length then
              (if soff + ((i : Int) - doff) < 0 then 0
                else src.getD (soff + ((i : Int) - doff)).toNat 0)
            else dst.getD i 0 := by
  have key : ∀ k : Nat,
      (forLoop k
          (fun k d =>
            if doff + k < 0 then d
            else d.set (doff + k).toNat
              (if soff + k < 0 then 0 else src.getD (soff + k).toNat 0))
          dst).length = dst.length
        ∧ ∀ i : Nat,
          (forLoop k
            (fun k d =>
              if doff + k < 0 then d
              else d.set (doff + k).toNat
                (if soff + k < 0 then 0 else src.getD (soff + k).toNat 0))
            dst).getD i 0
            = if doff ≤ (i : Int) ∧ (i : Int) < doff + k ∧ i < dst.length then
                (if soff + ((i : Int) - doff) < 0 then 0
                  else src.getD (soff + ((i : Int) - doff)).toNat 0)
              else dst.getD i 0 := by
    intro k
    induction k with
    | zero =>
      refine ⟨rfl, fun i => ?_⟩
      rw [if_neg (by
        rintro ⟨a, b, _⟩
        simp only [Nat.cast_zero, Int.add_zero] at b
        omega)]
      rfl
    | succ k ih =>
      obtain ⟨ihl, ihg⟩ := ih
      have hstep : forLoop (k + 1)
          (fun k d =>
            if doff + k < 0 then d
            else d.set (doff + k).toNat
              (if soff + k < 0 then 0 else src.getD (soff + k).toNat 0))
          dst
          = (forLoop k
              (fun k d =>
                if doff + k < 0 then d
                else d.set (doff + k).toNat
                  (if soff + k < 0 then 0 else src.getD (soff + k).toNat 0))
              dst).set (doff + k).toNat
              (if soff + k < 0 then 0 else src.getD (soff + k).toNat 0) := by
        show (if doff + (k : Int) < 0 then _ else _) = _
        rw [if_neg (by omega)]
      rw [hstep]
      refine ⟨by rw [List.length_set]; exact ihl, fun i => ?_⟩
      rw [getD_set, ihl, ihg i]
      by_cases hi : (doff + (k : Int)).toNat = i ∧ (doff + (k : Int)).toNat < dst.length
      · have hR : doff ≤ (i : Int) ∧ (i : Int) < doff + ((k + 1 : Nat) : Int) ∧ i < dst.length :=
          ⟨by omega, by push_cast; omega, by omega⟩
        have e : (i : Int) - doff = k := by omega
        rw [if_pos hi, if_pos hR, e]
      · rw [if_neg hi]
        by_cases hr : doff ≤ (i : Int) ∧ (i : Int) < doff + k ∧ i < dst.length
        · have hR : doff ≤ (i : Int) ∧ (i : Int) < doff + ((k + 1 : Nat) : Int)
              ∧ i < dst.length := ⟨hr.1, by push_cast; omega, hr.2.2⟩
          rw [if_pos hr, if_pos hR]
        · have hR : ¬ (doff ≤ (i : Int) ∧ (i : Int) < doff + ((k + 1 : Nat) : Int)
              ∧ i < dst.length) := by
            rintro ⟨a, b, c⟩
            push_cast at b
            by_cases hik : (i : Int) = doff + k
            · exact hi ⟨by omega, by omega⟩
            · exact hr ⟨a, by omega, c⟩
          rw [if_neg hr, if_neg hR]
  obtain ⟨kl, kg⟩ := key n.toNat
  refine ⟨kl, fun i => ?_⟩
  show (forLoop n.toNat _ dst).getD i 0 = _
  rw [kg i]
  by_cases hr : doff ≤ (i : Int) ∧ (i : Int) < doff + n ∧ i < dst.length
  · have hR : doff ≤ (i : Int) ∧ (i : Int) < doff + ((n.toNat : Nat) : Int) ∧ i < dst.length :=
      ⟨hr.1, by omega, hr.2.2⟩
    rw [if_pos hr, if_pos hR]
  · have hR : ¬ (doff ≤ (i : Int) ∧ (i : Int) < doff + ((n.toNat : Nat) : Int)
        ∧ i < dst.length) := by
      rintro ⟨a, b, c⟩
      exact hr ⟨a, by omega, c⟩
    rw [if_neg hr, if_neg hR]

theorem memcpy_nodes (src dst : List Nat) (bs ss bo bsz : Int) (h0 : 0 ≤ bs) (hb : bsz ≤ bs)
    (N : Nat) :
    (forLoop N (fun node d => memcpy d (0 + bs * node) src (0 + ss * node + bo) bsz)
        dst).length = dst.length
      ∧ ∀ (n : Nat) (j : Int), n < N → 0 ≤ j → j < bsz → bs * n + j < dst.length →
          (forLoop N (fun node d => memcpy d (0 + bs * node) src (0 + ss * node + bo) bsz)
            dst).getD (bs * n + j).toNat 0
            = if ss * n + bo + j < 0 then 0 else src.getD (ss * n + bo + j).toNat 0 := by
  induction N with
  | zero => exact ⟨rfl, fun n j hn => absurd hn (Nat.not_lt_zero _)⟩
  | succ N ih =>
    obtain ⟨ihl, ihg⟩ := ih
    have hN : 0 ≤ bs * (N : Int) := Int.mul_nonneg h0 (Int.ofNat_nonneg N)
    obtain ⟨ml, mg⟩ := memcpy_getD
      (forLoop N (fun node d => memcpy d (0 + bs * node) src (0 + ss * node + bo) bsz) dst)
      src (0 + bs * (N : Int)) (0 + ss * (N : Int) + bo) bsz (by omega)
    refine ⟨ml.trans ihl, ?_⟩
    intro n j hn hj0 hj1 hlen
    have hn0 : 0 ≤ bs * (n : Int) := Int.mul_nonneg h0 (Int.ofNat_nonneg n)
    have ei : (((bs * (n : Int) + j).toNat : Nat) : Int) = bs * n + j :=
      Int.toNat_of_nonneg (by omega)
    show (memcpy _ (0 + bs * (N : Int)) src (0 + ss * (N : Int) + bo) bsz).getD _ 0 = _
    rw [mg, ei, ihl]
    rcases Nat.lt_succ_iff_lt_or_eq.mp hn with hlt | heq
    · have hle : bs * ((n : Int) + 1) ≤ bs * (N : Int) :=
        Int.mul_le_mul_of_nonneg_left (by omega) h0
      have hexp : bs * ((n : Int) + 1) = bs * n + bs := by ring
      rw [if_neg (by
        rintro ⟨a, _, _⟩
        omega)]
      exact ihg n j hlt hj0 hj1 hlen
    · subst heq
      rw [if_pos ⟨by omega, by omega, by omega⟩]
      have e : 0 + ss * (n : Int) + bo + (bs * (n : Int) + j - (0 + bs * (n : Int)))
          = ss * n + bo + j := by ring
      rw [e]

theorem GetRange_memcpy_BIT (self : FrameBuffer) (start size : Int)
    (ht : self.m_data_type = DType.BIT) (hns : self.m_node_size = self.m_node_shape.prod)
    (hs0 : 0 ≤ start) (hz0 : 0 ≤ size) (h8 : start % 8 = 0) (f n : Int) (hf0 : 0 ≤ f)
    (hf1 : f < size) (hn0 : 0 ≤ n) (hn1 : n < self.m_node_size) :
    (self.GetRange_memcpy
        (FrameBuffer.ctor_sized self.m_tensor self.m_data_type size self.m_node_shape
          self.m_data_type) start size).Get DType.BIT f n
      = self.Get DType.BIT (start + f) n := by
  have hwf : (FrameBuffer.ctor_sized self.m_tensor self.m_data_type size self.m_node_shape
      self.m_data_type).WF := Resize_WF _ _ _ _ hz0
  have hbn : (FrameBuffer.ctor_sized self.m_tensor self.m_data_type size self.m_node_shape
      self.m_data_type).m_node_size = self.m_node_size := by
    rw [hns]
    exact Resize_node_size _ _ _ _
  have hbt : (FrameBuffer.ctor_sized self.m_tensor self.m_data_type size self.m_node_shape
      self.m_data_type).m_data_type = DType.BIT := ht
  have hbf : (FrameBuffer.ctor_sized self.m_tensor self.m_data_type size self.m_node_shape
      self.m_data_type).m_frame_size = size := rfl
  obtain ⟨hS, hcap⟩ := WF_stride _ hwf
  obtain ⟨ha1, ha2⟩ := WF_addr _ hwf f n
    ⟨hf0, hf1, hn0, by show n < FrameBuffer.m_node_size _; rw [hbn]; exact hn1⟩
  rw [hbt] at hcap ha2
  rw [hbf] at hcap
  have hbit : DataType_GetBitSize DType.BIT = 1 := rfl
  rw [hbit] at hcap ha2
  generalize hbuf : FrameBuffer.ctor_sized self.m_tensor self.m_data_type size self.m_node_shape
      self.m_data_type = buf at hS hcap ha1 ha2
  obtain ⟨d1, d2⟩ := tdiv_tmod_nonneg f hf0
  obtain ⟨e1, e2⟩ := tdiv_tmod_nonneg (start + f) (by omega)
  have hbo : (start * 1 + 7).tdiv 8 = start / 8 := by
    rw [Int.tdiv_eq_ediv (by omega) (by norm_num)]
    omega
  have hbsz : (size * 1 + 7).tdiv 8 = (size + 7) / 8 := by
    rw [Int.tdiv_eq_ediv (by omega) (by norm_num), Int.mul_one]
  have en : ((n.toNat : Nat) : Int) = n := Int.toNat_of_nonneg hn0
  obtain ⟨_, mg⟩ := memcpy_nodes self.m_tensor.m_mem buf.m_tensor.m_mem buf.m_frame_stride
    self.m_frame_stride (start / 8) ((size + 7) / 8) hS (by omega) self.m_node_size.toNat
  have hcell := mg n.toNat (f / 8) (by omega) (by omega) (by omega) (by rw [en]; omega)
  rw [en] at hcell
  have hk : (f.tmod 8).toNat = ((start + f).tmod 8).toNat := by
    apply Int.ofNat_inj.mp
    rw [d2, e2]
    omega
  show (if readBitAt
        (forLoop self.m_node_size.toNat
          (fun node dst =>
            memcpy dst (0 + buf.m_frame_stride * node) self.m_tensor.m_mem
              (0 + self.m_frame_stride * node
                + (start * DataType_GetBitSize self.m_data_type + 7).tdiv 8)
              ((size * DataType_GetBitSize self.m_data_type + 7).tdiv 8))
          buf.m_tensor.m_mem)
        (0 + buf.m_frame_stride * n + f.tdiv 8) (f.tmod 8).toNat then 1 else 0)
    = (if readBitAt self.m_tensor.m_mem (0 + self.m_frame_stride * n + (start + f).tdiv 8)
        ((start + f).tmod 8).toNat then 1 else 0)
  rw [ht, hbit, hbo, hbsz, d1, e1, hk]
  have ea : 0 + buf.m_frame_stride * n + f / 8 = buf.m_frame_stride * n + f / 8 := by omega
  have eb : 0 + self.m_frame_stride * n + (start + f) / 8
      = self.m_frame_stride * n + start / 8 + f / 8 := by omega
  rw [ea, eb]
  unfold readBitAt
  have hna : ¬ (buf.m_frame_stride * n + f / 8 < 0) := by omega
  rw [if_neg hna, hcell]
  by_cases hneg : self.m_frame_stride * n + start / 8 + f / 8 < 0
  · rw [if_pos hneg, if_pos hneg, Nat.zero_testBit]
  · rw [if_neg hneg, if_neg hneg]

theorem GetRange_elementwise_spec (self : FrameBuffer) (start size : Int)
    (hns : self.m_node_size = self.m_node_shape.prod) (hz0 : 0 ≤ size) (f n : Int)
    (hf0 : 0 ≤ f) (hf1 : f < size) (hn0 : 0 ≤ n) (hn1 : n < self.m_node_size) :
    (self.GetRange_elementwise start size).Get self.m_data_type f n
      = self.Get self.m_data_type (start + f) n := by
  have hwf : (FrameBuffer.ctor_sized self.m_tensor self.m_data_type size self.m_node_shape
      self.m_data_type).WF := Resize_WF _ _ _ _ hz0
  have hbn : (FrameBuffer.ctor_sized self.m_tensor self.m_data_type size self.m_node_shape
      self.m_data_type).m_node_size = self.m_node_size := by
    rw [hns]
    exact Resize_node_size _ _ _ _
  have e : self.GetRange_elementwise start size
      = self.CopyTo_ self.m_data_type
          (FrameBuffer.ctor_sized self.m_tensor self.m_data_type size self.m_node_shape
            self.m_data_type) size start 0 self.m_node_size 0 0 := by
    unfold FrameBuffer.GetRange_elementwise FrameBuffer.CopyTo_
    simp only [Int.add_zero, Int.add_comm start]
    rfl
  obtain ⟨_, _, g⟩ := CopyTo__spec self
    (FrameBuffer.ctor_sized self.m_tensor self.m_data_type size self.m_node_shape
      self.m_data_type) size start 0 self.m_node_size 0 0 hwf (le_refl _) (le_refl _)
    (by show size + 0 ≤ size; omega) (by rw [hbn]; omega)
  have := (g f n ⟨hf0, hf1, hn0, by show n < FrameBuffer.m_node_size _; rw [hbn]; exact hn1⟩).1
    ⟨hf0, by omega, hn0, by omega⟩
  rw [e]
  have e2 : f - 0 + start = start + f := by omega
  have e3 : n - 0 + 0 = n := by omega
  rw [e2, e3] at this
  exact this

/-! ## Claims -/

/-- C1: for every `frame_size ≥ 0`, node shape and element type, after
`Resize` the frame stride is `ceil(frame_size * bits / 256) * 32` bytes, and
it is the least multiple of 32 bytes whose capacity in bits is at least
`frame_size * bits`. -/
theorem C1_frame_stride (self : FrameBuffer) (frame_size : Int) (shape : List Int) (t : DType)
    (h : 0 ≤ frame_size) :
    (self.Resize frame_size shape t).GetFrameStride
        = ⌈((frame_size * DataType_GetBitSize t : Int) : ℚ) / 256⌉ * 32
      ∧ (32 : Int) ∣ (self.Resize frame_size shape t).GetFrameStride
      ∧ frame_size * DataType_GetBitSize t ≤ (self.Resize frame_size shape t).GetFrameStride * 8
      ∧ ∀ m : Int, 32 ∣ m → frame_size * DataType_GetBitSize t ≤ m * 8 →
          (self.Resize frame_size shape t).GetFrameStride ≤ m := by
  have hb := DataType_GetBitSize_pos t
  have hx : 0 ≤ frame_size * DataType_GetBitSize t := Int.mul_nonneg h hb.le
  rw [Resize_frame_stride, ceil_div_256 _ hx]
  generalize frame_size * DataType_GetBitSize t = x at hx
  rw [Int.tdiv_eq_ediv (by omega) (by norm_num)]
  refine ⟨rfl, Dvd.intro_left _ rfl, by omega, ?_⟩
  rintro m ⟨k, rfl⟩ hm
  omega

/-- Witness of C1 on a 40-frame `BIT` buffer of node shape `[2, 3]`. -/
theorem C1_frame_stride_witness :
    (0 : Int) ≤ 40 ∧
    ((FrameBuffer.Resize ⟨⟨[], DType.BIT, []⟩, DType.BIT, 0, 0, 0, []⟩ 40 [2, 3]
        DType.BIT).GetFrameStride
        = ⌈(((40 : Int) * DataType_GetBitSize DType.BIT : Int) : ℚ) / 256⌉ * 32) :=
  ⟨by decide, (C1_frame_stride ⟨⟨[], DType.BIT, []⟩, DType.BIT, 0, 0, 0, []⟩ 40 [2, 3]
      DType.BIT (by decide)).1⟩

/-- C2: in a buffer of any of the eleven element types (`BIT` included), for
every valid `(frame, node)`, writing `v` with `Set(frame, node, v)` and then
reading with `Get(frame, node)` returns exactly `v`, through the typed views
and through `FrameBuffer::Set`/`Get` alike. -/
theorem C2_Set_then_Get (fb : FrameBuffer) (frame node : Int) (v : Nat)
    (hwf : fb.WF) (hidx : fb.ValidIndex frame node)
    (hv : FrameBuffer.ValidValue fb.GetType v) :
    FrameBufferConstPtr_.Get fb.GetType (FrameBufferPtr_.Set fb.GetType fb frame node v)
        frame node = v
      ∧ (fb.Set fb.GetType frame node v).Get fb.GetType frame node = v :=
  ⟨Get_Set_same fb hwf frame node v hidx hv, Get_Set_same fb hwf frame node v hidx hv⟩

/-- Witness of C2: bit `1` stored at frame 31 of node 5 of a 40-frame `BIT`
buffer is read back. -/
theorem C2_Set_then_Get_witness :
    exampleBIT.WF ∧ exampleBIT.ValidIndex 31 5 ∧ FrameBuffer.ValidValue exampleBIT.GetType 1
      ∧ FrameBufferConstPtr_.Get exampleBIT.GetType
          (FrameBufferPtr_.Set exampleBIT.GetType exampleBIT 31 5 1) 31 5 = 1 :=
  ⟨by decide!, by decide!, by decide!,
    (C2_Set_then_Get exampleBIT 31 5 1 (by decide!) (by decide!) (by decide!)).1⟩

/-- C3: in a buffer of any of the eleven element types (`BIT` included),
`Set(frame, node, v)` at a valid position leaves the value read by
`Get(frame2, node2)` unchanged at every other valid position. -/
theorem C3_Set_frame (fb : FrameBuffer) (frame node frame2 node2 : Int) (v : Nat)
    (hwf : fb.WF) (hidx : fb.ValidIndex frame node) (hidx2 : fb.ValidIndex frame2 node2)
    (hne : ¬ (frame = frame2 ∧ node = node2)) :
    FrameBufferConstPtr_.Get fb.GetType (FrameBufferPtr_.Set fb.GetType fb frame node v)
        frame2 node2 = FrameBufferConstPtr_.Get fb.GetType fb frame2 node2
      ∧ (fb.Set fb.GetType frame node v).Get fb.GetType frame2 node2
          = fb.Get fb.GetType frame2 node2 :=
  ⟨Get_Set_other fb hwf frame node frame2 node2 v hidx hidx2 hne,
    Get_Set_other fb hwf frame node frame2 node2 v hidx hidx2 hne⟩

/-- Witness of C3, the scenario of the specification: in the zero-filled
`FP32` buffer with `frame_size = 4` and node shape `[2, 3]`, after
`Set(frame = 2, indices = (1, 2), 3.5)` (the pattern `0x40600000`, at node
`5`) every other element reads `0.0` and the element itself reads `3.5`. -/
theorem C3_Set_frame_witness :
    exampleFP32.WF ∧ exampleFP32.ValidIndex 2 5 ∧ exampleFP32.ValidIndex 2 4
      ∧ exampleFP32.GetNodeIndex [1, 2] = 5
      ∧ (exampleFP32.Set exampleFP32.GetType 2 5 1080033280).Get exampleFP32.GetType 2 4
          = exampleFP32.Get exampleFP32.GetType 2 4
      ∧ (exampleFP32.Set_indices DType.FP32 2 [1, 2] 1080033280).Get_indices DType.FP32 2 [1, 2]
          = 1080033280
      ∧ (∀ f ∈ List.range 4, ∀ n ∈ List.range 6, ¬ (f = 2 ∧ n = 5) →
          (exampleFP32.Set_indices DType.FP32 2 [1, 2] 1080033280).Get DType.FP32 f n = 0) :=
  ⟨by decide!, by decide!, by decide!, by decide!,
    (C3_Set_frame exampleFP32 2 5 2 4 1080033280 (by decide!) (by decide!) (by decide!)
      (by decide!)).2,
    by decide!, by decide!⟩

/-- C4: for every buffer `x` (any element type, any node shape, the empty
one included), `Load` applied to the bytes written by `Save(x)` gives a
buffer with the same element type, `frame_size`, `frame_stride`,
`node_size`, `node_shape` and tensor bytes as `x`, and leaves the rest of
the stream, provided `LoadIndex`, `LoadIndices` and `Tensor::Load` invert
`SaveIndex`, `SaveIndices` and `Tensor::Save` and the tags `BB_TYPE_*` are
distinct values of an `int`. -/
theorem C4_Load_Save (c : StreamCodec) (x self : FrameBuffer) (rest : List Nat)
    (hinj : Function.Injective c.BB_TYPE)
    (hrange : ∀ t, -2 ^ 31 ≤ c.BB_TYPE t ∧ c.BB_TYPE t < 2 ^ 31)
    (hIndex : ∀ i is, c.LoadIndex (c.SaveIndex i ++ is) = some (i, is))
    (hIndices : ∀ l is, c.LoadIndices (c.SaveIndices l ++ is) = some (l, is))
    (hTensor : ∀ t old is, c.TensorLoad old (c.TensorSave t ++ is) = some (t, is)) :
    ∃ y, FrameBuffer.Load c self (x.Save c ++ rest) = some (y, rest)
      ∧ y.GetType = x.GetType ∧ y.GetFrameSize = x.GetFrameSize
      ∧ y.GetFrameStride = x.GetFrameStride ∧ y.GetNodeSize = x.GetNodeSize
      ∧ y.GetShape = x.GetShape ∧ y.m_tensor.m_mem = x.m_tensor.m_mem ∧ y = x := by
  refine ⟨x, ?_, rfl, rfl, rfl, rfl, rfl, rfl, rfl⟩
  obtain ⟨b0, b1, b2, b3, hb, hval⟩ := intOfBytes_intBytes (c.BB_TYPE x.m_data_type)
    (hrange x.m_data_type)
    (c.SaveIndex x.m_frame_size ++ (c.SaveIndex x.m_frame_stride ++ (c.SaveIndex x.m_node_size
      ++ (c.SaveIndices x.m_node_shape ++ (c.TensorSave x.m_tensor ++ rest)))))
  have hs : x.Save c ++ rest = b0 :: b1 :: b2 :: b3 :: (c.SaveIndex x.m_frame_size
      ++ (c.SaveIndex x.m_frame_stride ++ (c.SaveIndex x.m_node_size
      ++ (c.SaveIndices x.m_node_shape ++ (c.TensorSave x.m_tensor ++ rest))))) := by
    rw [← hb]
    simp [FrameBuffer.Save, List.append_assoc]
  rw [hs]
  simp only [FrameBuffer.Load, hval, find_BB_TYPE _ hinj, hIndex, hIndices, hTensor]

/-- Witness of C4: the example codec satisfies the inverse laws, and the
`UINT8` example buffer is reproduced from its saved bytes. -/
theorem C4_Load_Save_witness :
    ∃ y, FrameBuffer.Load exampleCodec exampleBIT (exampleUINT8.Save exampleCodec ++ [7])
        = some (y, [7])
      ∧ y.GetType = exampleUINT8.GetType ∧ y.GetFrameSize = exampleUINT8.GetFrameSize
      ∧ y.GetFrameStride = exampleUINT8.GetFrameStride
      ∧ y.GetNodeSize = exampleUINT8.GetNodeSize
      ∧ y.GetShape = exampleUINT8.GetShape
      ∧ y.m_tensor.m_mem = exampleUINT8.m_tensor.m_mem ∧ y = exampleUINT8 :=
  C4_Load_Save exampleCodec exampleUINT8 exampleBIT [7] exampleBB_TYPE_injective
    (fun t => by cases t <;> decide)
    (fun i _ => by
      show some (decodeInt (encodeInt i), _) = _
      rw [decodeInt_encodeInt]
      rfl)
    exampleCodec_LoadIndices exampleCodec_TensorLoad

/-- C8: `Reshape` preserves `node_size`: whenever `Reshape(shape)` is
accepted, the `node_size` after it equals the one before and equals the
product of the resolved `node_shape`. -/
theorem C8_Reshape_node_size (fb fb2 : FrameBuffer) (shape : List Int)
    (h : fb.Reshape shape = some fb2) :
    fb2.GetNodeSize = fb.GetNodeSize ∧ fb2.GetNodeSize = fb2.GetShape.prod :=
  Reshape_some fb fb2 shape h

/-- Witness of C8, the scenario of the specification: a buffer with
`node_size = 6` reshaped to `[-1, 2]` is accepted and has the resolved shape
`[3, 2]`. -/
theorem C8_Reshape_node_size_witness :
    exampleFP32.GetNodeSize = 6
      ∧ exampleFP32.Reshape [-1, 2] = some exampleReshaped
      ∧ exampleReshaped.GetShape = [3, 2]
      ∧ (exampleReshaped.GetNodeSize = exampleFP32.GetNodeSize
          ∧ exampleReshaped.GetNodeSize = exampleReshaped.GetShape.prod) :=
  ⟨by decide!, by decide!, by decide!,
    C8_Reshape_node_size exampleFP32 exampleReshaped [-1, 2] (by decide!)⟩

/-- C9 fails on the code: on a buffer with `node_size = 6` the shape
`[-1, -1, -1]`, which has three negative entries, passes the assertion of
`Reshape`, and the accepted `node_shape` is `[-1, -1, 6]`, with two negative
entries; no coordinate can then satisfy the bounds assertion of
`GetNodeIndex`. -/
theorem C9_Reshape_accepts_negative_entries :
    exampleFP32.GetNodeSize = 6
      ∧ (exampleFP32.Reshape [-1, -1, -1]).map FrameBuffer.GetShape = some [-1, -1, 6]
      ∧ (∀ r ∈ exampleFP32.Reshape [-1, -1, -1],
          ∀ i0 ∈ List.range 4, ∀ i1 ∈ List.range 4, ∀ i2 ∈ List.range 8,
            r.GetNodeIndex_debug [(i0 : Int), (i1 : Int), (i2 : Int)] = none) := by
  decide!

/-- C10, amended: for every node shape and every coordinate tuple,
`GetNodeIndex` returns the sum over `j` of `indices[j]` times the product of
the dimensions before `j`: the first coordinate varies fastest. -/
theorem C10_GetNodeIndex_first_fastest (fb : FrameBuffer) (indices : List Int) :
    fb.GetNodeIndex indices = firstFastestIndex fb.GetShape indices :=
  GetNodeIndex_eq fb indices

/-- Counterexample to C10 as stated: for the node shape `[2, 3]` and the
in-bounds coordinates `(0, 1)` `GetNodeIndex` returns `2`, while the
row-major index (last coordinate fastest) is `1`. -/
theorem C10_GetNodeIndex_not_row_major :
    exampleFP32.GetShape = [2, 3]
      ∧ exampleFP32.GetNodeIndex [0, 1] = 2
      ∧ rowMajorIndex exampleFP32.GetShape [0, 1] = 1
      ∧ exampleFP32.GetNodeIndex_debug [0, 1] = some 2 := by
  decide!

/-- C6, amended: for two buffers of the same element type, explicit positive
`frame_size` and `node_size` and non-negative offsets that pass the
assertions of `CopyTo` (the rectangle lies inside both buffers), `CopyTo`
returns and afterwards `dst.Get(f + dst_frame_offset, n + dst_node_offset)`
equals `src.Get(f + src_frame_offset, n + src_node_offset)` for all
`0 ≤ f < frame_size` and `0 ≤ n < node_size`. -/
theorem C6_CopyTo_rectangle (src dst : FrameBuffer)
    (frame_size src_frame_offset dst_frame_offset node_size src_node_offset
      dst_node_offset : Int)
    (hwf : dst.WF) (htype : dst.GetType = src.GetType)
    (hfs : 0 < frame_size) (hns : 0 < node_size)
    (hsfo : 0 ≤ src_frame_offset) (hdfo : 0 ≤ dst_frame_offset)
    (hsno : 0 ≤ src_node_offset) (hdno : 0 ≤ dst_node_offset)
    (h1 : frame_size + src_frame_offset ≤ src.GetFrameSize)
    (h2 : frame_size + dst_frame_offset ≤ dst.GetFrameSize)
    (h3 : node_size + src_node_offset ≤ src.GetNodeSize)
    (h4 : node_size + dst_node_offset ≤ dst.GetNodeSize) :
    ∃ dst2, src.CopyTo dst frame_size src_frame_offset dst_frame_offset node_size
          src_node_offset dst_node_offset = some dst2
      ∧ ∀ f n, 0 ≤ f → f < frame_size → 0 ≤ n → n < node_size →
          src.ValidIndex (f + src_frame_offset) (n + src_node_offset)
          ∧ dst.ValidIndex (f + dst_frame_offset) (n + dst_node_offset)
          ∧ FrameBufferConstPtr_.Get dst.GetType dst2 (f + dst_frame_offset)
                (n + dst_node_offset)
              = FrameBufferConstPtr_.Get src.GetType src (f + src_frame_offset)
                (n + src_node_offset) := by
  refine ⟨_, CopyTo_eq_some src dst _ _ _ _ _ _ htype hfs hns h1 h2 h3 h4, ?_⟩
  intro f n hf0 hf1 hn0 hn1
  obtain ⟨_, _, hg⟩ := CopyTo__spec src dst frame_size src_frame_offset dst_frame_offset
    node_size src_node_offset dst_node_offset hwf hdfo hdno h2 h4
  have hvs : src.ValidIndex (f + src_frame_offset) (n + src_node_offset) :=
    ⟨by omega, by omega, by omega, by omega⟩
  have hvd : dst.ValidIndex (f + dst_frame_offset) (n + dst_node_offset) :=
    ⟨by omega, by omega, by omega, by omega⟩
  refine ⟨hvs, hvd, ?_⟩
  have := (hg _ _ hvd).1 ⟨by omega, by omega, by omega, by omega⟩
  rw [← htype]
  show FrameBuffer.Get dst.m_data_type _ _ _ = FrameBuffer.Get dst.m_data_type src _ _
  rw [this]
  congr 1 <;> omega

/-- Witness of C6: two frames of two nodes copied between the `UINT64`
example buffers with offsets `1`, `1`, `0`, `1`; the element `(1, 1)` of the
rectangle arrives at `(2, 2)`. -/
theorem C6_CopyTo_rectangle_witness :
    ∃ dst2, exampleSrc64.CopyTo exampleDst64 2 1 1 2 0 1 = some dst2
      ∧ FrameBufferConstPtr_.Get exampleDst64.GetType dst2 (1 + 1) (1 + 1)
          = FrameBufferConstPtr_.Get exampleSrc64.GetType exampleSrc64 (1 + 1) (1 + 0) :=
  (C6_CopyTo_rectangle exampleSrc64 exampleDst64 2 1 1 2 0 1 (by decide!) (by decide!)
    (by decide) (by decide) (by decide) (by decide) (by decide) (by decide)
    (by decide!) (by decide!) (by decide!) (by decide!)).imp
    (fun _ h => ⟨h.1, (h.2 1 1 (by decide) (by decide) (by decide) (by decide)).2.2⟩)

/-- Counterexample to C6 as stated: the call with `frame_size = 5`,
`dst_frame_offset = -1`, `node_size = 2`, `dst_node_offset = 1` between the
`UINT64` example buffers has the same element type, explicit positive sizes
and passes every assertion of `CopyTo`, yet afterwards
`dst.Get(4 + (-1), 0 + 1)` is `110`, the value of `src.Get(0, 1)`, and not
`src.Get(4 + 0, 0 + 0) = 104`. -/
theorem C6_CopyTo_negative_offset :
    exampleDst64.GetType = exampleSrc64.GetType
      ∧ ((5 : Int) + 0 ≤ exampleSrc64.GetFrameSize ∧ (5 : Int) + -1 ≤ exampleDst64.GetFrameSize
          ∧ (2 : Int) + 0 ≤ exampleSrc64.GetNodeSize ∧ (2 : Int) + 1 ≤ exampleDst64.GetNodeSize)
      ∧ (exampleSrc64.CopyTo exampleDst64 5 0 (-1) 2 0 1).map
          (fun dst2 => FrameBufferConstPtr_.Get DType.UINT64 dst2 (4 + -1) (0 + 1)) = some 110
      ∧ FrameBufferConstPtr_.Get DType.UINT64 exampleSrc64 (4 + 0) (0 + 0) = 104 := by
  decide!

/-- C7, amended: for two buffers of the same element type that do not share
storage, explicit positive sizes and non-negative offsets that pass the
assertions of `CopyTo`, every destination element outside the rectangle
`[dst_frame_offset, dst_frame_offset + frame_size) x [dst_node_offset,
dst_node_offset + node_size)` reads the same value after the call as before,
and the sizes and element type of the destination are unchanged. -/
theorem C7_CopyTo_outside (src dst : FrameBuffer)
    (frame_size src_frame_offset dst_frame_offset node_size src_node_offset
      dst_node_offset : Int)
    (hwf : dst.WF) (htype : dst.GetType = src.GetType)
    (hfs : 0 < frame_size) (hns : 0 < node_size)
    (hdfo : 0 ≤ dst_frame_offset) (hdno : 0 ≤ dst_node_offset)
    (h1 : frame_size + src_frame_offset ≤ src.GetFrameSize)
    (h2 : frame_size + dst_frame_offset ≤ dst.GetFrameSize)
    (h3 : node_size + src_node_offset ≤ src.GetNodeSize)
    (h4 : node_size + dst_node_offset ≤ dst.GetNodeSize) :
    ∃ dst2, src.CopyTo dst frame_size src_frame_offset dst_frame_offset node_size
          src_node_offset dst_node_offset = some dst2
      ∧ dst2.SameLayout dst
      ∧ ∀ f n, dst.ValidIndex f n →
          ¬ (dst_frame_offset ≤ f ∧ f < dst_frame_offset + frame_size
              ∧ dst_node_offset ≤ n ∧ n < dst_node_offset + node_size) →
          FrameBufferConstPtr_.Get dst.GetType dst2 f n
            = FrameBufferConstPtr_.Get dst.GetType dst f n := by
  refine ⟨_, CopyTo_eq_some src dst _ _ _ _ _ _ htype hfs hns h1 h2 h3 h4, ?_⟩
  obtain ⟨_, hl, hg⟩ := CopyTo__spec src dst frame_size src_frame_offset dst_frame_offset
    node_size src_node_offset dst_node_offset hwf hdfo hdno h2 h4
  exact ⟨hl, fun f n hv hout => (hg f n hv).2 hout⟩

/-- Witness of C7: in the copy of the C6 witness the destination element
`(0, 1)`, which lies outside the rectangle, keeps its value. -/
theorem C7_CopyTo_outside_witness :
    ∃ dst2, exampleSrc64.CopyTo exampleDst64 2 1 1 2 0 1 = some dst2
      ∧ FrameBufferConstPtr_.Get exampleDst64.GetType dst2 0 1
          = FrameBufferConstPtr_.Get exampleDst64.GetType exampleDst64 0 1 :=
  (C7_CopyTo_outside exampleSrc64 exampleDst64 2 1 1 2 0 1 (by decide!) (by decide!)
    (by decide) (by decide) (by decide) (by decide)
    (by decide!) (by decide!) (by decide!) (by decide!)).imp
    (fun _ h => ⟨h.1, h.2.2 0 1 (by decide!) (by decide)⟩)

/-- Counterexample to C7 as stated: in the accepted call with
`dst_frame_offset = -1` and `dst_node_offset = 1` the rectangle is
`[-1, 4) x [1, 3)`; the destination element `(3, 0)` lies outside it and
changes from `0` to `100`, the value of `src.Get(0, 0)`. -/
theorem C7_CopyTo_writes_outside :
    exampleDst64.ValidIndex 3 0
      ∧ ¬ ((-1 : Int) ≤ 3 ∧ (3 : Int) < -1 + 5 ∧ (1 : Int) ≤ 0 ∧ (0 : Int) < 1 + 2)
      ∧ FrameBufferConstPtr_.Get DType.UINT64 exampleDst64 3 0 = 0
      ∧ (exampleSrc64.CopyTo exampleDst64 5 0 (-1) 2 0 1).map
          (fun dst2 => FrameBufferConstPtr_.Get DType.UINT64 dst2 3 0) = some 100 := by
  decide!

/-- C5 fails on the code: for the `BIT` buffer with `frame_size = 300`
(stride 64) and two nodes, `GetRange(1, 10)` is accepted and takes the
bit-by-bit branch; the result has stride 32, the branch addresses node 1 of
the result with the stride 64 of the source, past the 64 bytes of the
result, and `r.Get(0, 1)` reads `0` although `src.Get(1 + 0, 1)` is `1`. -/
theorem C5_GetRange_unaligned_bit_diverges :
    exampleBIT300.GetFrameStride = 64
      ∧ (exampleBIT300.GetRange 1 10).map FrameBuffer.GetFrameStride = some 32
      ∧ (exampleBIT300.GetRange 1 10).map (fun r => r.m_tensor.m_mem.length) = some 64
      ∧ (exampleBIT300.GetRange 1 10).map
          (fun r => FrameBufferConstPtr_.Get DType.BIT r 0 1) = some 0
      ∧ FrameBufferConstPtr_.Get DType.BIT exampleBIT300 (1 + 0) 1 = 1
      ∧ (exampleBIT300.GetRange 1 10).map
          (fun r => FrameBufferConstPtr_.Get DType.BIT r 0 0) = some 0
      ∧ FrameBufferConstPtr_.Get DType.BIT exampleBIT300 (1 + 0) 0 = 0 := by
  decide!

/-- C16 fails on the code: `GetRange(start, size)` is accepted exactly when
`0 ≤ start < frame_size` and `0 ≤ size < frame_size - start`, so a range
that ends at the last frame is rejected: on a buffer with `frame_size = 4`
the calls `GetRange(0, 4)` and `GetRange(3, 1)` abort although both ranges
lie inside `[0, 4)`, while `GetRange(0, 3)` is accepted. -/
theorem C16_GetRange_acceptance :
    (∀ (self : FrameBuffer) (start size : Int),
        (self.GetRange start size).isSome = true
          ↔ (0 ≤ start ∧ start < self.GetFrameSize ∧ 0 ≤ size
              ∧ size < self.GetFrameSize - start))
      ∧ exampleFP32.GetFrameSize = 4
      ∧ exampleFP32.GetRange 0 4 = none
      ∧ exampleFP32.GetRange 3 1 = none
      ∧ (exampleFP32.GetRange 0 3).isSome = true := by
  refine ⟨?_, by decide!, by decide!, by decide!, by decide!⟩
  intro self start size
  unfold FrameBuffer.GetRange FrameBuffer.GetFrameSize
  by_cases h1 : start ≥ 0 ∧ start < self.m_frame_size
  · by_cases h2 : size ≥ 0 ∧ size < self.m_frame_size - start
    · rw [if_neg (not_not.mpr h1), if_neg (not_not.mpr h2)]
      constructor
      · intro _
        exact ⟨h1.1, h1.2, h2.1, h2.2⟩
      · intro _
        by_cases h3 : self.m_data_type = DType.BIT ∧ start.tmod 8 ≠ 0
        · simp only [if_pos h3, Option.isSome_some]
        · simp only [if_neg h3, Option.isSome_some]
    · rw [if_neg (not_not.mpr h1), if_pos h2]
      constructor
      · intro h; exact absurd h (by simp)
      · intro h; exact absurd ⟨h.2.2.1, h.2.2.2⟩ h2
  · rw [if_pos h1]
    constructor
    · intro h; exact absurd h (by simp)
    · intro h; exact absurd ⟨h.1, h.2.1⟩ h1

/-- C11: node-major, frame-minor layout.  The base address of node `n` is
`buffer_base + frame_stride * n`, in the buffer and in both views; for a
non-`BIT` element type of byte size `s` the element `(frame, node)` is read
from exactly the bytes `[frame_stride * node + frame * s, frame_stride * node
+ frame * s + s)`, a store to it changes no byte outside that range, and the
next frame of the same node starts `s` bytes further. -/
theorem C11_node_major_layout (fb : FrameBuffer) (t : DType) (base frame node : Int) (v : Nat)
    (ht : t ≠ DType.BIT)
    (ha : 0 ≤ fb.GetFrameStride * node + frame * DataType_GetByteSize t) :
    fb.GetNodeBaseAddr base node = base + fb.GetFrameStride * node
      ∧ FrameBufferConstPtr_.GetNodeBaseAddr fb node = 0 + fb.GetFrameStride * node
      ∧ FrameBufferPtr_.GetNodeBaseAddr fb node = 0 + fb.GetFrameStride * node
      ∧ fb.Get t frame node
          = readBytes fb.m_tensor.m_mem
              (fb.GetFrameStride * node + frame * DataType_GetByteSize t).toNat
              (DataType_GetByteSize t).toNat
      ∧ (∀ j : Nat,
          (j < (fb.GetFrameStride * node + frame * DataType_GetByteSize t).toNat
            ∨ (fb.GetFrameStride * node + frame * DataType_GetByteSize t).toNat
                + (DataType_GetByteSize t).toNat ≤ j) →
          (fb.Set t frame node v).m_tensor.m_mem.getD j 0 = fb.m_tensor.m_mem.getD j 0)
      ∧ fb.GetFrameStride * node + (frame + 1) * DataType_GetByteSize t
          = fb.GetFrameStride * node + frame * DataType_GetByteSize t
              + DataType_GetByteSize t := by
  have e0 : (0 : Int) + fb.m_frame_stride * node + frame * DataType_GetByteSize t
      = fb.m_frame_stride * node + frame * DataType_GetByteSize t := by omega
  simp only [FrameBuffer.GetFrameStride] at ha
  refine ⟨rfl, rfl, rfl, ?_, ?_, by ring⟩
  · show DataType_Read t _ (0 + fb.m_frame_stride * node) frame = _
    simp only [FrameBuffer.GetFrameStride]
    rw [DataType_Read_eq t ht, e0]
    unfold readAt
    rw [if_neg (not_lt.mpr ha)]
  · intro j hj
    simp only [FrameBuffer.GetFrameStride] at hj
    show (DataType_Write t _ (0 + fb.m_frame_stride * node) frame v).getD j 0 = _
    rw [DataType_Write_eq t ht, e0]
    exact writeAt_getD _ _ _ _ _ hj

/-- Witness of C11: element `(2, 5)` of the `FP32` example buffer (stride
32, byte size 4) is read from the bytes `[168, 172)`. -/
theorem C11_node_major_layout_witness :
    exampleFP32.Get DType.FP32 2 5
        = readBytes exampleFP32.m_tensor.m_mem
            (exampleFP32.GetFrameStride * 5 + 2 * DataType_GetByteSize DType.FP32).toNat
            (DataType_GetByteSize DType.FP32).toNat
      ∧ (exampleFP32.GetFrameStride * 5 + 2 * DataType_GetByteSize DType.FP32).toNat = 168
      ∧ (DataType_GetByteSize DType.FP32).toNat = 4 :=
  ⟨(C11_node_major_layout exampleFP32 DType.FP32 0 2 5 0 (by decide) (by decide!)).2.2.2.1,
    by decide!, by decide⟩

/-- C12: after `Resize(frame_size, shape, dtype)` the tensor has the
effective element type (`UINT8` for `BIT`, `dtype` otherwise) and the shape
`[frame_stride / byte_size(effective_dtype)]` followed by `shape`; the
division is exact for each of the eleven types, and the storage of the
tensor has `frame_stride * node_size` bytes. -/
theorem C12_Resize_tensor_shape (self : FrameBuffer) (frame_size : Int) (shape : List Int)
    (t : DType) :
    (self.Resize frame_size shape t).m_tensor.m_type
        = (if t = DType.BIT then DType.UINT8 else t)
      ∧ (self.Resize frame_size shape t).m_tensor.m_shape
          = (self.Resize frame_size shape t).GetFrameStride.tdiv
              (DataType_GetByteSize (if t = DType.BIT then DType.UINT8 else t)) :: shape
      ∧ (self.Resize frame_size shape t).GetFrameStride.tdiv
            (DataType_GetByteSize (if t = DType.BIT then DType.UINT8 else t))
          * DataType_GetByteSize (if t = DType.BIT then DType.UINT8 else t)
          = (self.Resize frame_size shape t).GetFrameStride
      ∧ (self.Resize frame_size shape t).m_tensor.m_mem.length
          = ((self.Resize frame_size shape t).GetFrameStride
              * (self.Resize frame_size shape t).GetNodeSize).toNat := by
  refine ⟨rfl, rfl, ?_, Resize_mem_length self frame_size shape t⟩
  apply Resize_stride_dvd
  cases t <;> decide

/-- C13, amended: in every state reachable from construction through
`Resize`, `ResizeLike`, `Reshape`, `Clone` and assignment, `node_size` is the
product of the entries of `node_shape`, or the buffer still has the members
of the default constructor, `node_size = 0` with the empty `node_shape`. -/
theorem C13_node_size_product (fb : FrameBuffer) (h : Reachable fb) :
    fb.GetNodeSize = fb.GetShape.prod ∨ (fb.GetNodeSize = 0 ∧ fb.GetShape = []) :=
  Reachable_node_size fb h

/-- Witness of C13: the clone of a sized buffer with node shape `[2, 3]` is
reachable, and its `node_size` is the product of its shape. -/
theorem C13_node_size_product_witness :
    Reachable exampleClone
      ∧ (exampleClone.GetNodeSize = exampleClone.GetShape.prod
          ∨ (exampleClone.GetNodeSize = 0 ∧ exampleClone.GetShape = [])) :=
  ⟨Reachable.Clone _ (Reachable.ctor_sized _ _ _ _ _),
    C13_node_size_product exampleClone (Reachable.Clone _ (Reachable.ctor_sized _ _ _ _ _))⟩

/-- Counterexample to C13 as stated: the default-constructed buffer has
`node_size = 0` and the empty `node_shape`, whose product is `1`, the value
that `Resize` computes for an empty shape. -/
theorem C13_default_state_violates :
    Reachable exampleDefault
      ∧ exampleDefault.GetNodeSize = 0
      ∧ exampleDefault.GetShape.prod = 1
      ∧ (exampleDefault.Resize 0 [] DType.FP32).GetNodeSize = 1 :=
  ⟨Reachable.ctor _ _, by decide, by decide, by decide⟩

/-- C14: for `BIT` and `frame_size = 40` the frame stride is 32 bytes, one
256-bit unit; in any node a store to frame 31 changes at most byte 3 of the
node and a store to frame 32 at most byte 4, and these bytes lie in the
32-bit words 0 and 1 (`31 / 32 = 0`, `32 / 32 = 1`). -/
theorem C14_bit_frame_words (self : FrameBuffer) (shape : List Int) (node : Int) (v : Nat)
    (j : Nat) :
    (self.Resize 40 shape DType.BIT).GetFrameStride = 32
      ∧ (j ≠ (0 + (self.Resize 40 shape DType.BIT).GetFrameStride * node + 3).toNat →
          (((self.Resize 40 shape DType.BIT).Set DType.BIT 31 node v).m_tensor.m_mem.getD j 0
            = (self.Resize 40 shape DType.BIT).m_tensor.m_mem.getD j 0))
      ∧ (j ≠ (0 + (self.Resize 40 shape DType.BIT).GetFrameStride * node + 4).toNat →
          (((self.Resize 40 shape DType.BIT).Set DType.BIT 32 node v).m_tensor.m_mem.getD j 0
            = (self.Resize 40 shape DType.BIT).m_tensor.m_mem.getD j 0))
      ∧ ((3 : Int).tdiv 4 = 0 ∧ (4 : Int).tdiv 4 = 1)
      ∧ ((31 : Int).tdiv 32 = 0 ∧ (32 : Int).tdiv 32 = 1) := by
  refine ⟨rfl, ?_, ?_, by decide, by decide⟩
  · intro hj
    exact writeBitAt_getD _ _ _ _ _ hj
  · intro hj
    exact writeBitAt_getD _ _ _ _ _ hj

/-- C17 fails on the code: with explicit positive sizes `CopyTo` is accepted
exactly when the element types agree and the four upper bounds hold; no
lower bound is asserted.  The calls with `dst_node_offset = -1` and with
`src_frame_offset = -1` between the `UINT64` example buffers are accepted,
although the first writes the destination node `-1` and the second reads the
source frame `-1`. -/
theorem C17_CopyTo_accepts_negative_offsets :
    (∀ (src dst : FrameBuffer) (fs sfo dfo ns sno dno : Int), 0 < fs → 0 < ns →
        ((src.CopyTo dst fs sfo dfo ns sno dno).isSome = true
          ↔ (dst.GetType = src.GetType ∧ fs + sfo ≤ src.GetFrameSize
              ∧ fs + dfo ≤ dst.GetFrameSize ∧ ns + sno ≤ src.GetNodeSize
              ∧ ns + dno ≤ dst.GetNodeSize)))
      ∧ (exampleSrc64.CopyTo exampleDst64 1 0 0 1 0 (-1)).isSome = true
      ∧ ¬ exampleDst64.ValidIndex (0 + 0) (0 + -1)
      ∧ (exampleSrc64.CopyTo exampleDst64 1 (-1) 0 1 0 0).isSome = true
      ∧ ¬ exampleSrc64.ValidIndex (0 + -1) (0 + 0) := by
  refine ⟨?_, by decide!, by decide!, by decide!, by decide!⟩
  intro src dst fs sfo dfo ns sno dno hfs hns
  constructor
  · intro h
    unfold FrameBuffer.CopyTo at h
    simp only [if_neg (not_le.mpr hfs), if_neg (not_le.mpr hns)] at h
    by_cases h0 : dst.GetType = src.GetType
    · by_cases h1 : fs + sfo ≤ src.GetFrameSize
      · by_cases h2 : fs + dfo ≤ dst.GetFrameSize
        · by_cases h3 : ns + sno ≤ src.GetNodeSize
          · by_cases h4 : ns + dno ≤ dst.GetNodeSize
            · exact ⟨h0, h1, h2, h3, h4⟩
            · simp [h0, h1, h2, h3, h4] at h
          · simp [h0, h1, h2, h3] at h
        · simp [h0, h1, h2] at h
      · simp [h0, h1] at h
    · simp [h0] at h
  · rintro ⟨h0, h1, h2, h3, h4⟩
    rw [CopyTo_eq_some src dst _ _ _ _ _ _ h0 hfs hns h1 h2 h3 h4]
    rfl

/-- C19, amended: in a build with debug assertions, `Set` through a
mutable view fails an assertion exactly when the node is outside
`[0, node_size)`; `FrameBuffer::Get` and `FrameBuffer::Set` fail one when
the element type differs from `MemTp` or the node is `node_size` or more;
`FrameBuffer::GetNodeIndex` fails one unless the number of coordinates is
the rank and every coordinate lies inside its dimension.  No accessor checks
the frame: for a node inside `[0, node_size)` (and a matching element type
where one is asserted) the access goes through for every frame. -/
theorem C19_debug_assertions (fb : FrameBuffer) (Tp : DType) (frame node : Int) (v : Nat)
    (indices : List Int) :
    (FrameBufferPtr_.Set_debug Tp fb frame node v = none
        ↔ ¬ (0 ≤ node ∧ node < fb.GetNodeSize))
      ∧ ((fb.GetType ≠ Tp ∨ fb.GetNodeSize ≤ node) →
          fb.Get_debug Tp frame node = none ∧ fb.Set_debug Tp frame node v = none)
      ∧ ((fb.GetNodeIndex_debug indices).isSome = true
          ↔ (indices.length = fb.GetShape.length
              ∧ ∀ i, i < fb.GetShape.length →
                  0 ≤ indices.getD i 0 ∧ indices.getD i 0 < fb.GetShape.getD i 0))
      ∧ ((0 ≤ node ∧ node < fb.GetNodeSize) →
          (FrameBufferPtr_.Set_debug Tp fb frame node v).isSome = true
            ∧ (FrameBufferConstPtr_.Get_debug Tp fb frame node).isSome = true
            ∧ (fb.GetType = Tp →
                (fb.Get_debug Tp frame node).isSome = true
                  ∧ (fb.Set_debug Tp frame node v).isSome = true)) := by
  refine ⟨?_, ?_, ?_, ?_⟩
  · unfold FrameBufferPtr_.Set_debug FrameBufferPtr_.GetNodeBaseAddr_debug
    by_cases h : node ≥ 0 ∧ node < fb.GetNodeSize
    · simp only [if_pos h]
      constructor
      · intro h2; exact absurd h2 (by simp)
      · intro h2; exact absurd ⟨h.1, h.2⟩ h2
    · simp only [if_neg h]
      exact ⟨fun _ h2 => h ⟨h2.1, h2.2⟩, fun _ => trivial⟩
  · intro h
    unfold FrameBuffer.Get_debug FrameBuffer.Set_debug FrameBuffer.GetNodeBaseAddr_debug
    by_cases h1 : fb.m_data_type = Tp
    · have h2 : ¬ (node < fb.m_node_size) := by
        rcases h with h | h
        · exact absurd h1 h
        · exact not_lt.mpr h
      simp only [if_pos h1, if_neg h2, and_self]
    · simp only [if_neg h1, and_self]
  · unfold FrameBuffer.GetNodeIndex_debug FrameBuffer.GetShape
    by_cases hlen : indices.length = fb.m_node_shape.length
    · have key := GetNodeIndex_debug_loop fb.m_node_shape indices fb.m_node_shape.length
      simp only [if_pos hlen]
      rw [← key]
      constructor
      · intro h
        refine ⟨hlen, ?_⟩
        split at h
        · exact absurd h (by simp)
        · rename_i st hst
          rw [hst]; rfl
      · rintro ⟨_, h⟩
        split
        · rename_i hst
          rw [hst] at h
          exact absurd h (by simp)
        · rfl
    · simp only [if_neg hlen]
      constructor
      · intro h; exact absurd h (by simp)
      · intro h; exact absurd h.1 hlen
  · intro h
    have hv : node ≥ 0 ∧ node < fb.GetNodeSize := ⟨h.1, h.2⟩
    have hu : node < fb.m_node_size := h.2
    refine ⟨?_, rfl, ?_⟩
    · unfold FrameBufferPtr_.Set_debug FrameBufferPtr_.GetNodeBaseAddr_debug
      simp only [if_pos hv, Option.isSome_some]
    · intro ht
      have ht2 : fb.m_data_type = Tp := ht
      unfold FrameBuffer.Get_debug FrameBuffer.Set_debug FrameBuffer.GetNodeBaseAddr_debug
      simp only [if_pos ht2, if_pos hu, Option.isSome_some, and_self]

/-- Counterexample to C19 as stated: on the `FP32` example buffer
(`frame_size = 4`, `node_size = 6`), in a build with debug assertions, frame
`4` lies outside `[0, frame_size)`, and at frame `4` of node `0` the mutable
view writes, the const view reads, and `FrameBuffer::Get` and
`FrameBuffer::Set` read and write, each without a failed assertion. -/
theorem C19_out_of_range_not_asserted :
    exampleFP32.GetFrameSize = 4 ∧ ¬ exampleFP32.ValidIndex 4 0
      ∧ (FrameBufferPtr_.Set_debug DType.FP32 exampleFP32 4 0 1).isSome = true
      ∧ (FrameBufferConstPtr_.Get_debug DType.FP32 exampleFP32 4 0).isSome = true
      ∧ (exampleFP32.Get_debug DType.FP32 4 0).isSome = true
      ∧ (exampleFP32.Set_debug DType.FP32 4 0 1).isSome = true := by
  decide!

/-- C20 fails on the code: in a `UINT8` buffer, after
`SetValue<int32_t>(frame, node, u)` with `128 ≤ u < 256` the call
`GetValue<int32_t>(frame, node)` returns `u - 256` and `GetValue<double>`
the same number, because `ReadValue` reads a `UINT8` element through
`std::int8_t`. -/
theorem C20_GetValue_UINT8_sign_extends (conv : FloatConv) (fb : FrameBuffer)
    (frame node u : Int) (hwf : fb.WF) (ht : fb.GetType = DType.UINT8)
    (hidx : fb.ValidIndex frame node) (hu : 128 ≤ u ∧ u < 256) :
    (fb.SetValue conv frame node u).GetValue conv DType.INT32 frame node = u - 256
      ∧ (fb.SetValue conv frame node u).GetValue conv DType.FP64 frame node = u - 256 := by
  have ht2 : fb.m_data_type = DType.UINT8 := ht
  obtain ⟨a1, a2⟩ := WF_addr fb hwf frame node hidx
  rw [ht2] at a2
  have hpat : (static_cast DType.UINT8 u % 2 ^ 8).toNat = u.toNat := by
    unfold static_cast
    norm_num
    omega
  have hread : (fb.Set DType.INT8 frame node u.toNat).Get DType.INT8 frame node = u.toNat :=
    DataType_Read_Write_same DType.INT8 _ _ _ _ a1 hidx.1 a2 (by
      show u.toNat < 2 ^ 8
      omega)
  have ht3 : (fb.Set DType.INT8 frame node u.toNat).m_data_type = DType.UINT8 := ht2
  rw [SetValue_UINT8 conv fb frame node u ht2, hpat,
    GetValue_UINT8 conv DType.INT32 _ frame node ht3,
    GetValue_UINT8 conv DType.FP64 _ frame node ht3, hread]
  have hs : toSigned 8 u.toNat = u - 256 := by
    unfold toSigned
    norm_num
    split <;> omega
  rw [hs]
  refine ⟨?_, rfl⟩
  unfold static_cast toSigned
  norm_num
  split <;> omega

/-- Witness of C20 on the scenario of the specification: in a `UINT8`
buffer `SetValue<int32_t>(0, 0, 200)` followed by `GetValue<int32_t>(0, 0)`
gives `-56`, not `200`. -/
theorem C20_GetValue_UINT8_sign_extends_witness :
    exampleUINT8.GetType = DType.UINT8
      ∧ (exampleUINT8.SetValue exampleConv 0 0 200).GetValue exampleConv DType.INT32 0 0 = -56
      ∧ (exampleUINT8.SetValue exampleConv 0 0 200).GetValue exampleConv DType.FP64 0 0 = -56
      ∧ exampleUINT8.GetValue exampleConv DType.INT32 1 1 = -56 :=
  ⟨by decide!,
    (C20_GetValue_UINT8_sign_extends exampleConv exampleUINT8 0 0 200 (by decide!) (by decide!)
      (by decide!) (by decide)).1,
    (C20_GetValue_UINT8_sign_extends exampleConv exampleUINT8 0 0 200 (by decide!) (by decide!)
      (by decide!) (by decide)).2,
    by decide!⟩

/-- C25 fails on the code: `LockConst<Tp>()` and `Get<MemTp, ValueTp>` take
the const host lock and leave a buffer in state `Both` in state `Both`, but
`GetValue<Tp>` (and with it `GetBit`, `GetFP32`, ... and `IsZero` on a
non-empty buffer) takes the mutable lock `LockMemory()`, after which a
buffer that was in state `Both` is in state `HostValid`. -/
theorem C25_GetValue_takes_mutable_lock :
    FrameBuffer.LockConst_residency Residency.Both = Residency.Both
      ∧ FrameBuffer.Get_residency Residency.Both = Residency.Both
      ∧ FrameBuffer.GetValue_residency Residency.Both = Residency.HostValid
      ∧ exampleFP32.IsZero_residency Residency.Both = Residency.HostValid
      ∧ (∀ s : Residency, FrameBuffer.GetValue_residency s = s.LockMemory false) := by
  refine ⟨by decide, by decide, by decide, by decide!, fun _ => rfl⟩

/-- C28: `Reshape` reinterprets only `node_shape`: after an accepted
`Reshape` the element type, `frame_size`, `frame_stride` and `node_size` are
unchanged, and `Get(frame, node)` returns the same value as before at every
position, through the buffer and through a const view. -/
theorem C28_Reshape_keeps_elements (fb fb2 : FrameBuffer) (shape : List Int) (Tp : DType)
    (frame node : Int) (h : fb.Reshape shape = some fb2) :
    fb2.GetType = fb.GetType ∧ fb2.GetFrameSize = fb.GetFrameSize
      ∧ fb2.GetFrameStride = fb.GetFrameStride ∧ fb2.GetNodeSize = fb.GetNodeSize
      ∧ fb2.Get Tp frame node = fb.Get Tp frame node
      ∧ FrameBufferConstPtr_.Get Tp fb2 frame node = FrameBufferConstPtr_.Get Tp fb frame node := by
  obtain ⟨h1, h2, h3, h4, h5⟩ := Reshape_keeps fb fb2 shape h
  refine ⟨h1, h2, h3, h4, ?_, ?_⟩
  · unfold FrameBuffer.Get FrameBuffer.GetNodeBaseAddr
    rw [h5, h3]
  · unfold FrameBufferConstPtr_.Get FrameBufferConstPtr_.GetNodeBaseAddr
    rw [h5, h3]

/-- Witness of C28: `Reshape({1, -1})` on the `UINT8` example buffer (node
shape `[2]`) is accepted with the shape `[1, 2]`, and the element `(1, 1)`
still reads `200`. -/
theorem C28_Reshape_keeps_elements_witness :
    exampleUINT8.Reshape [1, -1] = some exampleUINT8Reshaped
      ∧ exampleUINT8Reshaped.GetShape = [1, 2]
      ∧ exampleUINT8.Get DType.UINT8 1 1 = 200
      ∧ exampleUINT8Reshaped.Get DType.UINT8 1 1 = exampleUINT8.Get DType.UINT8 1 1 :=
  ⟨by decide!, by decide!, by decide!,
    (C28_Reshape_keeps_elements exampleUINT8 exampleUINT8Reshaped [1, -1] DType.UINT8 1 1
      (by decide!)).2.2.2.2.1⟩

/-- C30 fails on the code: with the default `node_size` the extent used is
`min(dst.node_size - dst_node_offset, src.frame_size - src_node_offset)`,
formed with the frame size of the source.  Between two `UINT8` buffers of
identical `frame_size = 1`, node shape `[2]` and element type,
`src.CopyTo(dst)` with all-default arguments is accepted and copies node `0`
only: `dst.Get(0, 1)` stays `0` while `src.Get(0, 1)` is `7`. -/
theorem C30_CopyTo_default_extent :
    exampleDst8.SameLayout exampleSrc8 ∧ exampleDst8.GetShape = exampleSrc8.GetShape
      ∧ exampleSrc8.CopyTo exampleDst8 0 0 0 0 0 0
          = some (exampleSrc8.CopyTo_ DType.UINT8 exampleDst8 1 0 0 1 0 0)
      ∧ (exampleSrc8.CopyTo exampleDst8 0 0 0 0 0 0).map
          (fun dst2 => FrameBufferConstPtr_.Get DType.UINT8 dst2 0 0) = some 5
      ∧ (exampleSrc8.CopyTo exampleDst8 0 0 0 0 0 0).map
          (fun dst2 => FrameBufferConstPtr_.Get DType.UINT8 dst2 0 1) = some 0
      ∧ FrameBufferConstPtr_.Get DType.UINT8 exampleSrc8 0 1 = 7
      ∧ exampleSrc8.ValidIndex 0 1 := by
  decide!

/-- C22: `Save` writes exactly the four bytes of the element-type tag, then
`frame_size`, `frame_stride` and `node_size` with `SaveIndex`, then
`node_shape` with `SaveIndices`, then the tensor with `Tensor::Save`, in
that order and nothing else; `Load` reads the fields in the same order, so
that the second index of a stream becomes `frame_stride` and the third
`node_size`, and it leaves the bytes after those of `Save` untouched. -/
theorem C22_Save_Load_field_order (c : StreamCodec) (x self : FrameBuffer) (t : DType)
    (a b n : Int) (l : List Int) (ten : Tensor) (rest : List Nat)
    (hinj : Function.Injective c.BB_TYPE)
    (hrange : ∀ t, -2 ^ 31 ≤ c.BB_TYPE t ∧ c.BB_TYPE t < 2 ^ 31)
    (hIndex : ∀ i is, c.LoadIndex (c.SaveIndex i ++ is) = some (i, is))
    (hIndices : ∀ l is, c.LoadIndices (c.SaveIndices l ++ is) = some (l, is))
    (hTensor : ∀ t old is, c.TensorLoad old (c.TensorSave t ++ is) = some (t, is)) :
    x.Save c
        = intBytes (c.BB_TYPE x.GetType) ++ (c.SaveIndex x.GetFrameSize
            ++ (c.SaveIndex x.GetFrameStride ++ (c.SaveIndex x.GetNodeSize
            ++ (c.SaveIndices x.GetShape ++ c.TensorSave x.m_tensor))))
      ∧ (intBytes (c.BB_TYPE x.GetType)).length = 4
      ∧ ∃ y, FrameBuffer.Load c self
            (intBytes (c.BB_TYPE t) ++ (c.SaveIndex a ++ (c.SaveIndex b ++ (c.SaveIndex n
              ++ (c.SaveIndices l ++ (c.TensorSave ten ++ rest)))))) = some (y, rest)
          ∧ y.GetType = t ∧ y.GetFrameSize = a ∧ y.GetFrameStride = b ∧ y.GetNodeSize = n
          ∧ y.GetShape = l ∧ y.m_tensor = ten :=
  ⟨rfl, rfl, _, Load_fields c self t a b n l ten rest hinj hrange hIndex hIndices hTensor,
    rfl, rfl, rfl, rfl, rfl, rfl⟩

/-- Witness of C22 with the example codec: a stream holding the tag of
`INT16`, the indices `1`, `2`, `3`, the shape `[4, 5]` and the tensor of the
`UINT8` example buffer loads as `frame_size = 1`, `frame_stride = 2`,
`node_size = 3`, and the trailing cell `9` is left in the stream. -/
theorem C22_Save_Load_field_order_witness :
    ∃ y, FrameBuffer.Load exampleCodec exampleBIT
          (intBytes (exampleCodec.BB_TYPE DType.INT16) ++ (exampleCodec.SaveIndex 1
            ++ (exampleCodec.SaveIndex 2 ++ (exampleCodec.SaveIndex 3
            ++ (exampleCodec.SaveIndices [4, 5]
            ++ (exampleCodec.TensorSave exampleUINT8.m_tensor ++ [9])))))) = some (y, [9])
        ∧ y.GetType = DType.INT16 ∧ y.GetFrameSize = 1 ∧ y.GetFrameStride = 2
        ∧ y.GetNodeSize = 3 ∧ y.GetShape = [4, 5] ∧ y.m_tensor = exampleUINT8.m_tensor :=
  (C22_Save_Load_field_order exampleCodec exampleUINT8 exampleBIT DType.INT16 1 2 3 [4, 5]
    exampleUINT8.m_tensor [9] exampleBB_TYPE_injective
    (fun t => by cases t <;> decide)
    (fun i _ => by
      show some (decodeInt (encodeInt i), _) = _
      rw [decodeInt_encodeInt]
      rfl)
    exampleCodec_LoadIndices exampleCodec_TensorLoad).2.2

/-- C26: in a buffer produced by `Resize`, for every valid `(frame, node)`
the byte range `[frame_stride * node, frame_stride * (node + 1))` of the
node lies inside the storage of the tensor, the bits of the element lie
inside that range, a store to the element changes no byte outside it, a read
of the element depends on no byte outside it, and the ranges of two
distinct nodes are disjoint. -/
theorem C26_nodes_do_not_alias (self fb : FrameBuffer) (frame_size : Int) (shape : List Int)
    (t : DType) (frame node : Int) (v j x : Nat)
    (hfb : fb = self.Resize frame_size shape t) (hfs : 0 ≤ frame_size)
    (hv : fb.ValidIndex frame node) :
    (0 ≤ fb.GetFrameStride * node
        ∧ fb.GetFrameStride * (node + 1) ≤ fb.GetFrameStride * fb.GetNodeSize
        ∧ (fb.m_tensor.m_mem.length : Int) = fb.GetFrameStride * fb.GetNodeSize)
      ∧ (8 * (fb.GetFrameStride * node)
            ≤ 8 * (fb.GetFrameStride * node) + frame * DataType_GetBitSize t
          ∧ 8 * (fb.GetFrameStride * node) + (frame + 1) * DataType_GetBitSize t
            ≤ 8 * (fb.GetFrameStride * (node + 1)))
      ∧ ((j < (fb.GetFrameStride * node).toNat ∨ (fb.GetFrameStride * (node + 1)).toNat ≤ j) →
          (fb.Set t frame node v).m_tensor.m_mem.getD j 0 = fb.m_tensor.m_mem.getD j 0
          ∧ FrameBuffer.Get t
              { fb with m_tensor := { fb.m_tensor with m_mem := fb.m_tensor.m_mem.set j x } }
              frame node = fb.Get t frame node)
      ∧ (∀ node2 : Int, node ≠ node2 →
          fb.GetFrameStride * (node + 1) ≤ fb.GetFrameStride * node2
          ∨ fb.GetFrameStride * (node2 + 1) ≤ fb.GetFrameStride * node) := by
  have hwf : fb.WF := by rw [hfb]; exact Resize_WF self frame_size shape t hfs
  have ht : fb.m_data_type = t := by rw [hfb]; rfl
  obtain ⟨a1, a2, a3, a4⟩ := WF_node_range fb hwf frame node hv
  obtain ⟨hS, _⟩ := WF_stride fb hwf
  have hlen : (fb.m_tensor.m_mem.length : Int) = fb.m_frame_stride * fb.m_node_size := by
    rw [hwf.2.2]
    have : fb.m_frame_stride * (node + 1) ≤ fb.m_frame_stride * fb.m_node_size :=
      Int.mul_le_mul_of_nonneg_left (by have := hv.2.2.2; exact this) hS
    exact Int.toNat_of_nonneg (by
      have := Int.mul_add fb.m_frame_stride node 1
      omega)
  rw [ht] at a3 a4
  simp only [FrameBuffer.GetFrameStride, FrameBuffer.GetNodeSize]
  refine ⟨⟨a1, by omega, hlen⟩, ⟨a3, a4⟩, ?_, ?_⟩
  · intro hj
    rw [← ht]
    exact ⟨Set_outside_node fb hwf frame node v hv j hj,
      Get_outside_node fb hwf frame node hv j x hj⟩
  · intro node2 hne
    exact WF_nodes_disjoint fb hwf node node2 hne

/-- Witness of C26: element `(39, 5)` of the `BIT` buffer with
`frame_size = 40` and node shape `[2, 3]` lies in the bytes `[160, 192)` of
the 192-byte storage. -/
theorem C26_nodes_do_not_alias_witness :
    (0 ≤ (FrameBuffer.Resize exampleDefault 40 [2, 3] DType.BIT).GetFrameStride * 5
        ∧ (FrameBuffer.Resize exampleDefault 40 [2, 3] DType.BIT).GetFrameStride * (5 + 1)
            ≤ (FrameBuffer.Resize exampleDefault 40 [2, 3] DType.BIT).GetFrameStride
                * (FrameBuffer.Resize exampleDefault 40 [2, 3] DType.BIT).GetNodeSize
        ∧ ((FrameBuffer.Resize exampleDefault 40 [2, 3]
              DType.BIT).m_tensor.m_mem.length : Int)
            = (FrameBuffer.Resize exampleDefault 40 [2, 3] DType.BIT).GetFrameStride
                * (FrameBuffer.Resize exampleDefault 40 [2, 3] DType.BIT).GetNodeSize)
      ∧ (FrameBuffer.Resize exampleDefault 40 [2, 3] DType.BIT).GetFrameStride * 5 = 160
      ∧ (FrameBuffer.Resize exampleDefault 40 [2, 3] DType.BIT).m_tensor.m_mem.length = 192 :=
  ⟨(C26_nodes_do_not_alias exampleDefault (FrameBuffer.Resize exampleDefault 40 [2, 3] DType.BIT)
      40 [2, 3] DType.BIT 39 5 1 0 0 rfl (by decide) (by decide!)).1,
    by decide!, by decide!⟩

/-- C27: node flattening is a bijection.  For a node shape with positive
entries whose product is `node_size`, `GetNodeIndex` maps every in-bounds
coordinate tuple into `[0, node_size)`, two in-bounds tuples with the same
index are equal, and every node of `[0, node_size)` is the index of an
in-bounds tuple. -/
theorem C27_GetNodeIndex_bijection (fb : FrameBuffer) (hpos : ∀ s ∈ fb.GetShape, 0 < s)
    (hns : fb.GetNodeSize = fb.GetShape.prod) :
    (∀ indices, InBounds fb.GetShape indices →
        0 ≤ fb.GetNodeIndex indices ∧ fb.GetNodeIndex indices < fb.GetNodeSize)
      ∧ (∀ indices indices2, InBounds fb.GetShape indices → InBounds fb.GetShape indices2 →
          fb.GetNodeIndex indices = fb.GetNodeIndex indices2 → indices = indices2)
      ∧ (∀ node, 0 ≤ node → node < fb.GetNodeSize →
          ∃ indices, InBounds fb.GetShape indices ∧ fb.GetNodeIndex indices = node) := by
  refine ⟨?_, ?_, ?_⟩
  · intro indices h
    rw [GetNodeIndex_eq, hns]
    exact firstFastestIndex_range _ _ hpos h
  · intro indices indices2 h h2 he
    rw [GetNodeIndex_eq, GetNodeIndex_eq] at he
    have e1 := toIndices_firstFastestIndex _ _ h
    have e2 := toIndices_firstFastestIndex _ _ h2
    simp only [FrameBuffer.GetShape] at e1 e2
    rw [← e1, ← e2, he]
  · intro node h0 h1
    rw [hns] at h1
    obtain ⟨a, b⟩ := firstFastestIndex_toIndices _ node hpos h0 h1
    exact ⟨toIndices fb.GetShape node, a, by rw [GetNodeIndex_eq]; exact b⟩

/-- Witness of C27 on the node shape `[2, 3]`: the tuple `(1, 2)` is in
bounds with index `5`, the last of the six nodes, and node `4` is the index
of the in-bounds tuple `(0, 2)`. -/
theorem C27_GetNodeIndex_bijection_witness :
    (0 ≤ exampleFP32.GetNodeIndex [1, 2]
        ∧ exampleFP32.GetNodeIndex [1, 2] < exampleFP32.GetNodeSize)
      ∧ exampleFP32.GetNodeIndex [1, 2] = 5
      ∧ (∃ indices, InBounds exampleFP32.GetShape indices
          ∧ exampleFP32.GetNodeIndex indices = 4)
      ∧ toIndices exampleFP32.GetShape 4 = [0, 2] :=
  ⟨(C27_GetNodeIndex_bijection exampleFP32 (by decide!) (by decide!)).1 [1, 2] (by decide!),
    by decide!,
    (C27_GetNodeIndex_bijection exampleFP32 (by decide!) (by decide!)).2.2 4 (by decide)
      (by decide!),
    by decide!⟩

/-- C29 fails on the code for shapes with two or more negative entries.  The
two cases the claim spells out hold: a shape without a negative entry is
accepted exactly when its product is `node_size` and is kept as it is; a
shape with one negative entry is accepted exactly when the product `p` of
the other entries is non-zero and divides `node_size`, and the negative
entry becomes `node_size / p`.  But `Reshape({2, -1, -1, -1})` on a buffer
with `node_size = 6`, which is neither case, is accepted with the shape
`[2, -1, -1, 3]`. -/
theorem C29_Reshape_acceptance :
    (∀ (fb : FrameBuffer) (shape : List Int), (∀ x ∈ shape, 0 ≤ x) →
        ((fb.Reshape shape).isSome = true ↔ shape.prod = fb.GetNodeSize)
        ∧ (∀ r ∈ fb.Reshape shape, r.GetShape = shape))
      ∧ (∀ (fb : FrameBuffer) (pre post : List Int) (x : Int), x < 0 →
          (∀ y ∈ pre, 0 ≤ y) → (∀ y ∈ post, 0 ≤ y) →
          ((fb.Reshape (pre ++ x :: post)).isSome = true
              ↔ (pre.prod * post.prod ≠ 0 ∧ pre.prod * post.prod ∣ fb.GetNodeSize))
          ∧ (∀ r ∈ fb.Reshape (pre ++ x :: post),
              r.GetShape = pre ++ fb.GetNodeSize.tdiv (pre.prod * post.prod) :: post))
      ∧ exampleFP32.GetNodeSize = 6
      ∧ (exampleFP32.Reshape [2, -1, -1, -1]).map FrameBuffer.GetShape
          = some [2, -1, -1, 3] := by
  refine ⟨?_, ?_, by decide!, by decide!⟩
  · intro fb shape h
    rw [Reshape_nonneg fb shape h]
    simp only [FrameBuffer.GetNodeSize]
    by_cases hp : shape.prod = fb.m_node_size
    · rw [if_pos hp]
      refine ⟨⟨fun _ => hp, fun _ => rfl⟩, fun r hr => ?_⟩
      have := Option.some.inj (Option.mem_def.mp hr)
      rw [← this]
      rfl
    · rw [if_neg hp]
      refine ⟨⟨fun hc => absurd hc (by simp), fun hc => absurd hc hp⟩, fun r hr => ?_⟩
      exact absurd (Option.mem_def.mp hr) (by simp)
  · intro fb pre post x hx hpre hpost
    rw [Reshape_one_negative fb pre post x hx hpre hpost]
    simp only [FrameBuffer.GetNodeSize]
    have hprod : (pre ++ fb.m_node_size.tdiv (pre.prod * post.prod) :: post).prod
        = pre.prod * post.prod * fb.m_node_size.tdiv (pre.prod * post.prod) := by
      rw [List.prod_append, List.prod_cons]
      ring
    by_cases hp : pre.prod * post.prod = 0
    · rw [if_pos hp]
      refine ⟨⟨fun hc => absurd hc (by simp), fun hc => absurd hp hc.1⟩, fun r hr => ?_⟩
      exact absurd (Option.mem_def.mp hr) (by simp)
    · rw [if_neg hp, hprod]
      by_cases hd : pre.prod * post.prod * fb.m_node_size.tdiv (pre.prod * post.prod)
          = fb.m_node_size
      · rw [if_pos hd]
        refine ⟨⟨fun _ => ⟨hp, Dvd.intro _ hd⟩, fun _ => rfl⟩, fun r hr => ?_⟩
        have := Option.some.inj (Option.mem_def.mp hr)
        rw [← this]
        rfl
      · rw [if_neg hd]
        refine ⟨⟨fun hc => absurd hc (by simp),
          fun hc => absurd (Int.mul_tdiv_cancel' hc.2) hd⟩, fun r hr => ?_⟩
        exact absurd (Option.mem_def.mp hr) (by simp)

/-- C21: with storage shared by reference, `Clone` gives a handle with the
same element type, sizes and shape and the same value at every position; a
`Set` through the clone changes no value read through the original and a
`Set` through the original none read through the clone; after the
assignment `b = a` the two handles have the same members and a `Set`
through `b` at a valid position is read back by `Get` through `a`. -/
theorem C21_Clone_and_assignment (heap : List (List Nat)) (a b0 : BufferHandle) (Tp : DType)
    (frame node frame2 node2 : Int) (v : Nat)
    (ha : a.m_memory < heap.length) (hwf : (a.deref heap).WF)
    (hidx : (a.deref heap).ValidIndex frame node)
    (hv : FrameBuffer.ValidValue (a.deref heap).GetType v) :
    ((a.Clone heap).2.m_members.GetType = a.m_members.GetType
        ∧ (a.Clone heap).2.m_members.GetFrameSize = a.m_members.GetFrameSize
        ∧ (a.Clone heap).2.m_members.GetFrameStride = a.m_members.GetFrameStride
        ∧ (a.Clone heap).2.m_members.GetNodeSize = a.m_members.GetNodeSize
        ∧ (a.Clone heap).2.m_members.GetShape = a.m_members.GetShape)
      ∧ (a.Clone heap).2.Get (a.Clone heap).1 Tp frame2 node2 = a.Get heap Tp frame2 node2
      ∧ a.Get ((a.Clone heap).2.Set (a.Clone heap).1 Tp frame node v) Tp frame2 node2
          = a.Get heap Tp frame2 node2
      ∧ (a.Clone heap).2.Get (a.Set (a.Clone heap).1 Tp frame node v) Tp frame2 node2
          = a.Get heap Tp frame2 node2
      ∧ ((b0.operator_assign a).m_members = a.m_members
          ∧ (b0.operator_assign a).m_memory = a.m_memory)
      ∧ a.Get ((b0.operator_assign a).Set heap (a.deref heap).GetType frame node v)
          (a.deref heap).GetType frame node = v := by
  obtain ⟨c1, c2, c3, c4, c5⟩ := deref_Clone heap a ha
  refine ⟨⟨rfl, rfl, rfl, rfl, rfl⟩, ?_, ?_, ?_, ⟨rfl, rfl⟩, ?_⟩
  · unfold BufferHandle.Get
    rw [c1]
  · unfold BufferHandle.Get
    rw [deref_Set_other _ _ _ _ _ _ _ c3, c2]
  · unfold BufferHandle.Get
    rw [deref_Set_other _ _ _ _ _ _ _ (Ne.symm c3), c1]
  · have e : (b0.operator_assign a).Set heap (a.deref heap).GetType frame node v
        = a.Set heap (a.deref heap).GetType frame node v := rfl
    unfold BufferHandle.Get
    rw [e, deref_Set _ _ _ _ _ _ ha]
    exact Get_Set_same (a.deref heap) hwf frame node v hidx hv

/-- Witness of C21 on the `UINT8` example buffer: after cloning, writing `9`
at `(0, 0)` through the clone leaves `200` at `(1, 1)` and `0` at `(0, 0)`
of the original, while writing through an assigned handle is read back
through the original. -/
theorem C21_Clone_and_assignment_witness :
    (exampleHandle.Clone exampleHeap).2.Get (exampleHandle.Clone exampleHeap).1 DType.UINT8 1 1
        = exampleHandle.Get exampleHeap DType.UINT8 1 1
      ∧ exampleHandle.Get exampleHeap DType.UINT8 1 1 = 200
      ∧ exampleHandle.Get
          ((exampleHandle.Clone exampleHeap).2.Set (exampleHandle.Clone exampleHeap).1
            DType.UINT8 0 0 9) DType.UINT8 0 0 = 0
      ∧ exampleHandle.Get
          ((exampleHandle.operator_assign exampleHandle).Set exampleHeap
            (exampleHandle.deref exampleHeap).GetType 0 0 9)
          (exampleHandle.deref exampleHeap).GetType 0 0 = 9 :=
  ⟨(C21_Clone_and_assignment exampleHeap exampleHandle exampleHandle DType.UINT8 0 0 1 1 9
      (by decide) (by decide!) (by decide!) (by decide!)).2.1,
    by decide!, by decide!,
    (C21_Clone_and_assignment exampleHeap exampleHandle exampleHandle DType.UINT8 0 0 1 1 9
      (by decide) (by decide!) (by decide!) (by decide!)).2.2.2.2.2⟩

/-- C24, amended: in exact arithmetic `Norm()^2` is the sum of the squares
of all slots of the tensor.  For a buffer of a byte-sized element type whose
`N = frame_size * node_size` elements all denote `c` (`3.0` in the scenario)
and whose padding slots between `frame_size` and the end of the frame run
denote `0`, `Norm()^2` equals `c^2 * N`, so `9 * N` for `3.0`. -/
theorem C24_Norm_squared (val : Nat → ℚ) (fb : FrameBuffer) (c : ℚ) (hwf : fb.WF)
    (ht : fb.GetType ≠ DType.BIT) (hns : 0 ≤ fb.GetNodeSize)
    (hvalid : ∀ f n, fb.ValidIndex f n → val (fb.Get fb.m_data_type f n) = c)
    (hpad : ∀ f n, fb.m_frame_size ≤ f → f < fb.tensorFrames → 0 ≤ n → n < fb.m_node_size →
      val (fb.Get fb.m_data_type f n) = 0) :
    fb.NormSq val = c ^ 2 * (fb.GetFrameSize : ℚ) * (fb.GetNodeSize : ℚ) :=
  NormSq_eq val fb c hwf ht hns hvalid hpad

/-- Witness of C24: the zero-filled `FP32` buffer with four frames and one
node whose four elements hold `3.0` has `Norm()^2 = 9 * 4`. -/
theorem C24_Norm_squared_witness :
    exampleNorm.NormSq fp32Value
        = 3 ^ 2 * (exampleNorm.GetFrameSize : ℚ) * (exampleNorm.GetNodeSize : ℚ)
      ∧ exampleNorm.NormSq fp32Value = 36 :=
  ⟨C24_Norm_squared fp32Value exampleNorm 3 (by decide!) (by decide!) (by decide!)
      exampleNorm_valid exampleNorm_padding,
    by decide!⟩

/-- Counterexample to C24 as stated: in the `FP32` buffer with four frames
and one node whose `N = 4` elements all hold `3.0` and whose padding slot of
frame `4` holds `3.0` as well, `Norm()^2` is `45`, not `9 * N = 36`: the
padding contributes to the sum. -/
theorem C24_padding_contributes :
    (∀ f ∈ List.range 4,
        fp32Value (exampleNormPadded.Get DType.FP32 (Int.ofNat f) 0) = 3)
      ∧ exampleNormPadded.GetFrameSize = 4 ∧ exampleNormPadded.GetNodeSize = 1
      ∧ exampleNormPadded.tensorFrames = 8
      ∧ exampleNormPadded.NormSq fp32Value = 45
      ∧ exampleNorm.NormSq fp32Value = 36 := by
  decide!

/-- C31, as the code behaves: `SetVector(frame, data)` rejects frame `0`.
Its second assertion is `frame > 0 && frame < m_frame_size`, so for every
buffer and every `data` the call with `frame = 0` fails, also when `0` is a
frame of the buffer and `data` has `node_size` entries, as on the `UINT8`
example buffer with `data = {7, 9}`; frame `1` of that buffer is accepted
and reads back `7` and `9`. -/
theorem C31_SetVector_rejects_frame_zero :
    (∀ (conv : FloatConv) (fb : FrameBuffer) (data : List Int),
        fb.SetVector conv 0 data = none)
      ∧ (0 : Int) < exampleUINT8.GetFrameSize
      ∧ (([7, 9] : List Int).length : Int) = exampleUINT8.GetNodeSize
      ∧ exampleUINT8.SetVector exampleConv 0 [7, 9] = none
      ∧ (exampleUINT8.SetVector exampleConv 1 [7, 9]).map
          (fun r => [r.GetValue exampleConv DType.UINT8 1 0,
            r.GetValue exampleConv DType.UINT8 1 1]) = some [7, 9] := by
  refine ⟨?_, by decide!, by decide!, by decide!, by decide!⟩
  intro conv fb data
  unfold FrameBuffer.SetVector
  split
  · rfl
  · rw [if_pos (fun h => absurd h.1 (by decide))]

/-- C32, as the code behaves: `SetVector(data, offset)` checks the length
of row `data[frame]` and then reads row `data[frame + offset]`.  On the
`UINT8` example buffer (three frames, two nodes) with `offset = 1`: when the
last row read has three entries the call completes although that row does
not have `node_size` entries, and when it has one entry no assertion fails
and the read of its second entry is outside the row. -/
theorem C32_SetVector_checks_another_row :
    (∃ r, exampleUINT8.SetVector_offset DType.UINT8 [[1, 2], [3, 4], [5, 6], [7, 8, 9]] 1
        = Outcome.done r)
      ∧ (([[1, 2], [3, 4], [5, 6], [7, 8, 9]] : List (List Nat)).getD (2 + 1) []).length = 3
      ∧ exampleUINT8.GetNodeSize = 2
      ∧ exampleUINT8.SetVector_offset DType.UINT8 [[1, 2], [3, 4], [5, 6], [7]] 1
        = Outcome.undefined := by
  refine ⟨⟨_, rfl⟩, by decide, by decide!, by decide!⟩

/-- C35, as the code behaves: with batch normalization disabled `Forward`
is `activation.Forward` after `lut.Forward`, but `Backward` still runs
`batch_norm.Backward` between `activation.Backward` and `lut.Backward`: its
call is not guarded by `m_bn_enable`.  With sub-layers whose passes are the
identity for the LUT and the activation and clear the buffer for the batch
normalization, `Backward` of the `UINT8` example buffer is the cleared
buffer and not `lut.Backward(activation.Backward(dy))`. -/
theorem C35_Backward_runs_batch_norm :
    (∀ (L B A : Type) (lut : SubLayer L) (batch_norm : SubLayer B) (activation : SubLayer A)
        (empty : FrameBuffer) (l : L) (b : B) (a : A) (x dy : FrameBuffer),
        (SparseLutDiscreteN.Forward lut batch_norm activation empty
            ⟨false, false, l, b, a⟩ x true).2
          = (activation.Forward a (lut.Forward l x true).2 true).2
        ∧ (SparseLutDiscreteN.Backward lut batch_norm activation ⟨false, false, l, b, a⟩ dy).2
          = (lut.Backward l
              (batch_norm.Backward b (activation.Backward a dy).2).2).2)
      ∧ (SparseLutDiscreteN.Backward exampleIdentityLayer exampleClearingLayer
            exampleIdentityLayer exampleSparseLut exampleUINT8).2 = exampleUINT8.FillZero
      ∧ (exampleIdentityLayer.Backward ()
            (exampleIdentityLayer.Backward () exampleUINT8).2).2 = exampleUINT8
      ∧ exampleUINT8.FillZero ≠ exampleUINT8 := by
  refine ⟨fun L B A lut batch_norm activation empty l b a x dy => ⟨rfl, rfl⟩, rfl, rfl,
    by decide!⟩

/-- C39, as the code behaves: the parameter-copy step of `SparseLutCnn`
leaves `layer_cnv1_bl0` without an import.  Eighteen `BinaryLutN` layers are
created and there are eighteen `ImportLayer` calls, each from the
`SparseLutN` layer of the target's position, but the third call targets
`layer_cnv1_bl2` (imported a second time by the fifth call) where
`layer_cnv1_bl0` belongs: `layer_cnv1_bl0` is the one created layer that is
the target of no call. -/
theorem C39_layer_cnv1_bl0_not_imported :
    SparseLutCnn.created.length = 18 ∧ SparseLutCnn.imports.length = 18
      ∧ (∀ c ∈ SparseLutCnn.imports, c ∈ SparseLutCnn.created)
      ∧ (LayerVar.layer_cnv1_bl0, LayerVar.layer_cnv1_sl0) ∈ SparseLutCnn.created
      ∧ LayerVar.layer_cnv1_bl0 ∉ SparseLutCnn.imports.map Prod.fst
      ∧ SparseLutCnn.imports.count (LayerVar.layer_cnv1_bl2, LayerVar.layer_cnv1_sl2) = 2
      ∧ (∀ c ∈ SparseLutCnn.created,
          c.1 ≠ LayerVar.layer_cnv1_bl0 → c ∈ SparseLutCnn.imports) := by
  decide

/-- C37, as the code behaves: the assertions of `W` and `dW` bound `y` by
`m_input_h_size` and `x` by `m_input_w_size`, not by the filter sizes.
After `Resize(1, 3, 3, 1, 2, 2)` the weight vectors have `4` elements;
`W(0, 0, 2, 2)` and `dW(0, 0, 2, 2)` pass the assertions with index `6`,
outside the vector, and the accepted tuples `(0, 0, 0, 2)` and
`(0, 0, 1, 0)` both address element `2`. -/
theorem C37_W_assertions_use_input_sizes :
    exampleConvolution.m_W.length = 4 ∧ exampleConvolution.m_dW.length = 4
      ∧ exampleConvolution.W 0 0 2 2 = some 6
      ∧ exampleConvolution.dW 0 0 2 2 = some 6
      ∧ exampleConvolution.W 0 0 0 2 = some 2
      ∧ exampleConvolution.W 0 0 1 0 = some 2
      ∧ exampleConvolution.dW 0 0 0 2 = exampleConvolution.dW 0 0 1 0 := by
  decide

/-- C36: after `Resize` with `1 ≤ filter_h ≤ input_h` and
`1 ≤ filter_w ≤ input_w` (sizes and their products within `int`),
`output_h = input_h - filter_h + 1` and `output_w = input_w - filter_w + 1`;
for every iteration `(n, y, x, c, fy, fx)` of the loops of `Forward` the
input node `(c*input_h + y+fy)*input_w + x+fx` is below `GetInputNodeSize()`,
the output node `(n*output_h + y)*output_w + x` is below
`GetOutputNodeSize()`, and `W(n, c, fy, fx)` passes its assertions with the
index `((n*input_c + c)*filter_h + fy)*filter_w + fx` below the length of
`m_W`; and every access in the run of `Forward` is in range. -/
theorem C36_Forward_in_range (self : NeuralNetConvolution) (ic ih iw oc fh fw : Nat)
    (hfh1 : 1 ≤ fh) (hfh2 : fh ≤ ih) (hfw1 : 1 ≤ fw) (hfw2 : fw ≤ iw)
    (hic : ic < 2 ^ 31) (hih : ih < 2 ^ 31) (hiw : iw < 2 ^ 31) (hoc : oc < 2 ^ 31)
    (hW : oc * ic * fh * fw < 2 ^ 31) (hin : ic * ih * iw < 2 ^ 31)
    (hout : oc * (ih - fh + 1) * (iw - fw + 1) < 2 ^ 31) :
    (self.Resize ic ih iw oc fh fw).m_output_h_size = (ih : Int) - fh + 1
      ∧ (self.Resize ic ih iw oc fh fw).m_output_w_size = (iw : Int) - fw + 1
      ∧ (∀ n y x c fy fx : Nat, n < oc → y < ih - fh + 1 → x < iw - fw + 1 → c < ic →
          fy < fh → fx < fw →
          (self.Resize ic ih iw oc fh fw).GetInputPtr c ((y : Int) + fy) ((x : Int) + fx)
              = ((c : Int) * ih + (y + fy)) * iw + (x + fx)
            ∧ (self.Resize ic ih iw oc fh fw).GetInputPtr c ((y : Int) + fy) ((x : Int) + fx)
              < (self.Resize ic ih iw oc fh fw).GetInputNodeSize
            ∧ (self.Resize ic ih iw oc fh fw).GetOutputPtr n y x
              = ((n : Int) * ((ih : Int) - fh + 1) + y) * ((iw : Int) - fw + 1) + x
            ∧ (self.Resize ic ih iw oc fh fw).GetOutputPtr n y x
              < (self.Resize ic ih iw oc fh fw).GetOutputNodeSize
            ∧ ∃ k : Nat, (self.Resize ic ih iw oc fh fw).W n c fy fx = some (k : Int)
                ∧ k = ((n * ic + c) * fh + fy) * fw + fx
                ∧ k < (self.Resize ic ih iw oc fh fw).m_W.length)
      ∧ ∀ a ∈ (self.Resize ic ih iw oc fh fw).Forward,
          (self.Resize ic ih iw oc fh fw).InRange a := by
  obtain ⟨f1, f2, f3, f4, f5, f6, f7, f8, _, _, _, _⟩ :=
    Convolution_Resize_fields self ic ih iw oc fh fw hic hih hiw hoc (by omega) (by omega) hW
  refine ⟨f7, f8, ?_, ?_⟩
  · intro n y x c fy fx hn hy hx hc hfy hfx
    obtain ⟨h1, h2, h3, _⟩ := Convolution_indices self ic ih iw oc fh fw hfh1 hfh2 hfw1 hfw2 hic
      hih hiw hoc hW hin hout n y x c fy fx hn hy hx hc hfy hfx
    refine ⟨?_, h1.2, ?_, h2.2, h3⟩
    · unfold NeuralNetConvolution.GetInputPtr
      rw [f2, f3]
    · unfold NeuralNetConvolution.GetOutputPtr
      rw [f7, f8]
  · intro a ha
    unfold NeuralNetConvolution.Forward at ha
    rw [f4, f7, f8, f1, f5, f6] at ha
    obtain ⟨n, hn, ha⟩ := (mem_loopAccesses _ _ _).mp ha
    obtain ⟨y, hy, ha⟩ := (mem_loopAccesses _ _ _).mp ha
    obtain ⟨x, hx, ha⟩ := (mem_loopAccesses _ _ _).mp ha
    have hO := Convolution_output_index self ic ih iw oc fh fw hfh2 hfw2 hic
      hih hiw hoc hW hout n y x (by omega) (by omega) (by omega)
    rcases List.mem_cons.mp ha with rfl | ha
    · exact hO.1
    obtain ⟨fr, _, ha⟩ := (mem_loopAccesses _ _ _).mp ha
    rcases List.mem_cons.mp ha with rfl | ha
    · rw [Int.toNat_ofNat]
      exact hO.2
    obtain ⟨c, hc, ha⟩ := (mem_loopAccesses _ _ _).mp ha
    obtain ⟨fy, hfy, ha⟩ := (mem_loopAccesses _ _ _).mp ha
    obtain ⟨fx, hfx, ha⟩ := (mem_loopAccesses _ _ _).mp ha
    obtain ⟨h1, _, h3, _⟩ := Convolution_indices self ic ih iw oc fh fw hfh1 hfh2 hfw1 hfw2 hic
      hih hiw hoc hW hin hout n y x c fy fx (by omega) (by omega) (by omega) (by omega)
      (by omega) (by omega)
    rcases List.mem_cons.mp ha with rfl | ha
    · exact h1
    rcases List.mem_cons.mp ha with rfl | ha
    · obtain ⟨k, hk, _, hk2⟩ := h3
      rw [Int.toNat_ofNat, Int.toNat_ofNat, Int.toNat_ofNat, Int.toNat_ofNat]
      exact ⟨k, hk, hk2⟩
    · exact absurd ha (List.not_mem_nil _)

/-- Witness of C36 on `Resize(1, 3, 3, 1, 2, 2)`: the output is `2 x 2` and
each of the accesses of `Forward` is in range. -/
theorem C36_Forward_in_range_witness :
    exampleConvolution.m_output_h_size = 2 ∧ exampleConvolution.m_output_w_size = 2
      ∧ exampleConvolution.Forward.length = 4 * (2 + 2 * 4)
      ∧ ∀ a ∈ exampleConvolution.Forward, exampleConvolution.InRange a :=
  ⟨by decide, by decide, by decide,
    (C36_Forward_in_range exampleConvolutionInit 1 3 3 1 2 2 (by decide) (by decide)
      (by decide) (by decide) (by decide) (by decide) (by decide) (by decide) (by decide)
      (by decide) (by decide)).2.2.2⟩

/-- C38: on a layer whose output nodes `0 .. m-1` have input counts
`k 0 .. k (m-1)` (none negative) and whose input node size `N` is positive,
the `"serial"` branch of `InitializeNodeInput` calls
`SetNodeInput(o, i, (k 0 + ... + k (o-1) + i) mod N)` for every output node
`o` and slot `i < k o`; these are all its calls, every input node assigned
lies in `[0, N)`, and no pair `(o, i)` is assigned twice. -/
theorem C38_serial_wiring (k : Int → Int) (N M : Int) (hN : 0 < N)
    (hk : ∀ o : Int, 0 ≤ o → o < M → 0 ≤ k o) :
    (∀ o i : Int, 0 ≤ o → o < M → 0 ≤ i → i < k o →
        (o, i, (SparseLayer.inputsBefore k o + i) % N) ∈ SparseLayer.serialCalls k N M)
      ∧ (∀ c ∈ SparseLayer.serialCalls k N M,
          (0 ≤ c.1 ∧ c.1 < M) ∧ (0 ≤ c.2.1 ∧ c.2.1 < k c.1)
            ∧ c.2.2 = (SparseLayer.inputsBefore k c.1 + c.2.1) % N
            ∧ 0 ≤ c.2.2 ∧ c.2.2 < N)
      ∧ ((SparseLayer.serialCalls k N M).map (fun c => (c.1, c.2.1))).Nodup := by
  rw [serialCalls_eq k N M hk]
  refine ⟨?_, ?_, ?_⟩
  · intro o i ho hoM hi hik
    rw [List.mem_flatMap]
    refine ⟨o.toNat, List.mem_range.mpr (by omega), ?_⟩
    rw [List.mem_map]
    have eo : ((o.toNat : Nat) : Int) = o := Int.toNat_of_nonneg ho
    have ei : ((i.toNat : Nat) : Int) = i := Int.toNat_of_nonneg hi
    refine ⟨i.toNat, List.mem_range.mpr (by rw [eo]; omega), ?_⟩
    rw [eo, ei, Int.tmod_eq_emod
      (by have := inputsBefore_nonneg k M hk o hoM.le; omega) hN.le]
  · intro c hc
    obtain ⟨o, ho, hc⟩ := List.mem_flatMap.mp hc
    obtain ⟨i, hi, rfl⟩ := List.mem_map.mp hc
    have ho2 := List.mem_range.mp ho
    have hi2 := List.mem_range.mp hi
    have hs := inputsBefore_nonneg k M hk (o : Int) (by omega)
    have hko := hk (o : Int) (by omega) (by omega)
    refine ⟨⟨by omega, by omega⟩,
      ⟨Int.ofNat_nonneg i, show (i : Int) < k (o : Int) by omega⟩, ?_, ?_, ?_⟩
    · exact Int.tmod_eq_emod (by omega) hN.le
    · show 0 ≤ (SparseLayer.inputsBefore k (o : Int) + (i : Int)).tmod N
      rw [Int.tmod_eq_emod (by omega) hN.le]
      exact Int.emod_nonneg _ (by omega)
    · show (SparseLayer.inputsBefore k (o : Int) + (i : Int)).tmod N < N
      rw [Int.tmod_eq_emod (by omega) hN.le]
      exact Int.emod_lt_of_pos _ hN
  · rw [List.map_flatMap, List.nodup_flatMap]
    constructor
    · intro o _
      rw [List.map_map]
      apply List.Nodup.map _ (List.nodup_range _)
      intro a b hab
      have h2 : ((a : Nat) : Int) = (b : Int) := (Prod.mk.inj hab).2
      exact Int.ofNat_inj.mp h2
    · apply List.Nodup.pairwise_of_forall_ne (List.nodup_range _)
      intro a _ b _ hab x hxa hxb
      simp only [List.map_map] at hxa hxb
      obtain ⟨i, _, rfl⟩ := List.mem_map.mp hxa
      obtain ⟨j, _, hj⟩ := List.mem_map.mp hxb
      have h2 : ((b : Nat) : Int) = (a : Int) := (Prod.mk.inj hj).1
      exact hab (Int.ofNat_inj.mp h2).symm

/-- Witness of C38: three output nodes with `2`, `3` and `1` inputs over
`N = 4` input nodes are wired to `0, 1`, then `2, 3, 0`, then `1`. -/
theorem C38_serial_wiring_witness :
    SparseLayer.serialCalls exampleInputCounts 4 3
        = [(0, 0, 0), (0, 1, 1), (1, 0, 2), (1, 1, 3), (1, 2, 0), (2, 0, 1)]
      ∧ (1, 2, (SparseLayer.inputsBefore exampleInputCounts 1 + 2) % 4)
          ∈ SparseLayer.serialCalls exampleInputCounts 4 3
      ∧ ((SparseLayer.serialCalls exampleInputCounts 4 3).map (fun c => (c.1, c.2.1))).Nodup :=
  ⟨by decide,
    (C38_serial_wiring exampleInputCounts 4 3 (by decide)
      (fun o _ _ => by unfold exampleInputCounts; split_ifs <;> decide)).1 1 2 (by decide)
      (by decide) (by decide) (by decide),
    (C38_serial_wiring exampleInputCounts 4 3 (by decide)
      (fun o _ _ => by unfold exampleInputCounts; split_ifs <;> decide)).2.2⟩

/-- C33: for an input of type `FT` whose frame size `F ≥ 0` is divisible by
`h * w` (`h, w > 0`, `C ≥ 0`), `Forward` returns a buffer of frame size
`F / (h * w)` and node shape `[w, h, C]`.  The map
`(y, x, c) ↦ (c*h + y)*w + x` sends `[0,h) × [0,w) × [0,C)` into
`[0, C*h*w)`, equals the node index of the coordinates `[x, y, c]` in the
returned buffer, is injective and reaches every node, and
`out(of, (c*h + y)*w + x) = in((of*h + y)*w + x, c)` for every `of`, `y`, `x`
and `c` in range. -/
theorem C33_Col2Im_Forward (FT : DType) (self : ConvolutionCol2Im) (x : FrameBuffer)
    (train : Bool) (hx : x.GetType = FT) (hh : 0 < self.m_h_size) (hw : 0 < self.m_w_size)
    (hC : 0 ≤ self.m_c_size) (hF : 0 ≤ x.GetFrameSize)
    (hdiv : x.GetFrameSize % (self.m_h_size * self.m_w_size) = 0) :
    ∃ r, self.Forward FT x train = some r
      ∧ r.2.GetFrameSize = x.GetFrameSize / (self.m_h_size * self.m_w_size)
      ∧ r.2.GetFrameSize * (self.m_h_size * self.m_w_size) = x.GetFrameSize
      ∧ r.2.GetShape = [self.m_w_size, self.m_h_size, self.m_c_size]
      ∧ r.2.GetNodeSize = self.m_c_size * self.m_h_size * self.m_w_size
      ∧ (∀ y x_ c, 0 ≤ y → y < self.m_h_size → 0 ≤ x_ → x_ < self.m_w_size → 0 ≤ c →
          c < self.m_c_size →
          0 ≤ (c * self.m_h_size + y) * self.m_w_size + x_
            ∧ (c * self.m_h_size + y) * self.m_w_size + x_
              < self.m_c_size * self.m_h_size * self.m_w_size
            ∧ r.2.GetNodeIndex [x_, y, c] = (c * self.m_h_size + y) * self.m_w_size + x_)
      ∧ (∀ y x_ c y2 x2 c2, 0 ≤ y → y < self.m_h_size → 0 ≤ x_ → x_ < self.m_w_size →
          0 ≤ y2 → y2 < self.m_h_size → 0 ≤ x2 → x2 < self.m_w_size →
          (c * self.m_h_size + y) * self.m_w_size + x_
            = (c2 * self.m_h_size + y2) * self.m_w_size + x2 →
          y = y2 ∧ x_ = x2 ∧ c = c2)
      ∧ (∀ n, 0 ≤ n → n < self.m_c_size * self.m_h_size * self.m_w_size →
          ∃ y x_ c, (0 ≤ y ∧ y < self.m_h_size) ∧ (0 ≤ x_ ∧ x_ < self.m_w_size)
            ∧ (0 ≤ c ∧ c < self.m_c_size)
            ∧ n = (c * self.m_h_size + y) * self.m_w_size + x_)
      ∧ ∀ of y x_ c, 0 ≤ of → of < x.GetFrameSize / (self.m_h_size * self.m_w_size) →
          0 ≤ y → y < self.m_h_size → 0 ≤ x_ → x_ < self.m_w_size → 0 ≤ c →
          c < self.m_c_size →
          r.2.Get FT of ((c * self.m_h_size + y) * self.m_w_size + x_)
            = x.Get FT ((of * self.m_h_size + y) * self.m_w_size + x_) c := by
  have hhw : 0 < self.m_h_size * self.m_w_size := Int.mul_pos hh hw
  have hdiv2 : x.GetFrameSize.tmod (self.m_h_size * self.m_w_size) = 0 := by
    rw [Int.tmod_eq_emod hF hhw.le]
    exact hdiv
  obtain ⟨r, h1, _, _, _, h5, h6, h7, h8⟩ :=
    Col2Im_Forward_spec FT self x train hx hh hw hC hF hdiv2
  refine ⟨r, h1, h5, ?_, h6, h7, ?_, ?_, ?_, ?_⟩
  · show r.2.m_frame_size * _ = _
    rw [h5]
    exact Int.ediv_mul_cancel (Int.dvd_of_emod_eq_zero hdiv)
  · intro y x_ c hy0 hy hx0 hx1 hc0 hc
    have ir := index_range self.m_w_size self.m_h_size self.m_c_size x_ y c hx0 hx1 hy0 hy hc0 hc
    refine ⟨ir.1, ir.2, ?_⟩
    rw [GetNodeIndex_eq, h6, firstFastestIndex_cons, firstFastestIndex_cons,
      firstFastestIndex_cons]
    have e0 : firstFastestIndex [] [] = 0 := rfl
    rw [e0]
    ring
  · intro y x_ c y2 x2 c2 hy0 hy hx0 hx1 hy20 hy2 hx20 hx2 he
    obtain ⟨a1, a2, a3⟩ := digits_of_index self.m_w_size self.m_h_size x_ y c hx0 hx1 hy0 hy
    obtain ⟨b1, b2, b3⟩ := digits_of_index self.m_w_size self.m_h_size x2 y2 c2 hx20 hx2 hy20 hy2
    rw [he] at a1 a2 a3
    exact ⟨a2.symm.trans b2, a1.symm.trans b1, a3.symm.trans b3⟩
  · intro n hn0 hn1
    obtain ⟨d1, d2, d3⟩ := digits_range self.m_w_size self.m_h_size self.m_c_size n hw hh hn0 hn1
    exact ⟨n / self.m_w_size % self.m_h_size, n % self.m_w_size,
      n / self.m_w_size / self.m_h_size, d2, d1, d3,
      (index_of_digits self.m_w_size self.m_h_size n).symm⟩
  · intro of y x_ c hof0 hof hy0 hy hx0 hx1 hc0 hc
    have ir := index_range self.m_w_size self.m_h_size self.m_c_size x_ y c hx0 hx1 hy0 hy hc0 hc
    obtain ⟨a1, a2, a3⟩ := digits_of_index self.m_w_size self.m_h_size x_ y c hx0 hx1 hy0 hy
    rw [h8 of _ hof0 hof ir.1 ir.2, a1, a2, a3]

/-- Witness of C33: with `C = 2`, `h = 1`, `w = 3` the `UINT8` example buffer
(three frames, two nodes, `200` at frame `1` of node `1`) is turned into one
frame of six nodes, and the value `200` arrives at node `(1*1 + 0)*3 + 1 = 4`. -/
theorem C33_Col2Im_Forward_witness :
    (∃ r, exampleCol2Im.Forward DType.UINT8 exampleUINT8 true = some r
        ∧ r.2.GetFrameSize = exampleUINT8.GetFrameSize
            / (exampleCol2Im.m_h_size * exampleCol2Im.m_w_size)
        ∧ r.2.GetShape = [3, 1, 2])
      ∧ (exampleCol2Im.Forward DType.UINT8 exampleUINT8 true).map
          (fun r => (r.2.GetFrameSize, r.2.GetNodeSize,
            (List.range 6).map (fun n => r.2.Get DType.UINT8 0 (Int.ofNat n))))
        = some (1, 6, [0, 0, 0, 0, 200, 0]) :=
  ⟨(C33_Col2Im_Forward DType.UINT8 exampleCol2Im exampleUINT8 true (by decide!) (by decide)
      (by decide) (by decide) (by decide!) (by decide!)).imp
      (fun _ hr => ⟨hr.1, hr.2.1, hr.2.2.2.1⟩),
    by decide!⟩

/-- C34: with `FT = BT = T`, `h, w > 0` and `C ≥ 0`: for an input `x` of
type `T` whose frame size is divisible by `h * w` and whose node size is
`C`, `Backward(Forward(x))` is returned, has the frame size and the node
size of `x` and holds the value of `x` at every `(frame, c)`; and for a
`dy` of type `T` with node size `C*h*w`, `Forward(Backward(dy))` is
returned, has the frame size and the node size of `dy` and holds the value
of `dy` at every `(frame, node)`. -/
theorem C34_Col2Im_Backward_inverts_Forward (T : DType) (self : ConvolutionCol2Im)
    (x dy : FrameBuffer) (train : Bool) (hh : 0 < self.m_h_size) (hw : 0 < self.m_w_size)
    (hC : 0 ≤ self.m_c_size) (hx : x.GetType = T) (hF : 0 ≤ x.GetFrameSize)
    (hdiv : x.GetFrameSize % (self.m_h_size * self.m_w_size) = 0)
    (hxn : x.GetNodeSize = self.m_c_size) (hdy : dy.GetType = T) (hG : 0 ≤ dy.GetFrameSize)
    (hdyn : dy.GetNodeSize = self.m_c_size * self.m_h_size * self.m_w_size) :
    (∃ r1 r2, self.Forward T x train = some r1 ∧ r1.1.Backward T r1.2 = some r2
        ∧ r2.2.GetFrameSize = x.GetFrameSize ∧ r2.2.GetNodeSize = x.GetNodeSize
        ∧ ∀ f c, x.ValidIndex f c → r2.2.Get T f c = x.Get T f c)
      ∧ (∃ r1 r2, self.Backward T dy = some r1 ∧ r1.1.Forward T r1.2 train = some r2
        ∧ r2.2.GetFrameSize = dy.GetFrameSize ∧ r2.2.GetNodeSize = dy.GetNodeSize
        ∧ ∀ f n, dy.ValidIndex f n → r2.2.Get T f n = dy.Get T f n) := by
  have hhw : 0 < self.m_h_size * self.m_w_size := Int.mul_pos hh hw
  have hdiv2 : x.GetFrameSize.tmod (self.m_h_size * self.m_w_size) = 0 := by
    rw [Int.tmod_eq_emod hF hhw.le]
    exact hdiv
  have eF : x.GetFrameSize / (self.m_h_size * self.m_w_size)
      * (self.m_h_size * self.m_w_size) = x.GetFrameSize :=
    Int.ediv_mul_cancel (Int.dvd_of_emod_eq_zero hdiv)
  constructor
  · obtain ⟨⟨s1, o1⟩, a1, a2, _, a4, a5, _, a7, a8⟩ :=
      Col2Im_Forward_spec T self x train hx hh hw hC hF hdiv2
    simp only at a2 a4 a5 a7 a8
    subst a2
    have ho : 0 ≤ o1.GetFrameSize := by
      show 0 ≤ o1.m_frame_size
      rw [a5]
      exact Int.ediv_nonneg hF hhw.le
    obtain ⟨r2, b1, _, _, _, b5, _, b7, b8⟩ :=
      Col2Im_Backward_spec T { self with m_y := o1 } o1 a4 hh hw hC ho
    have eo : o1.GetFrameSize = x.GetFrameSize / (self.m_h_size * self.m_w_size) := a5
    simp only [eo, eF] at b5 b8
    refine ⟨_, r2, a1, b1, b5, b7.trans hxn.symm, ?_⟩
    intro f c hv
    obtain ⟨v1, v2, v3, v4⟩ := hv
    rw [hxn] at v4
    have v2' : f < x.GetFrameSize / (self.m_h_size * self.m_w_size) * self.m_h_size
        * self.m_w_size := by
      rw [mul_assoc, eF]
      exact v2
    obtain ⟨d1, d2, d3⟩ := digits_range self.m_w_size self.m_h_size _ f hw hh v1 v2'
    have ir := index_range self.m_w_size self.m_h_size self.m_c_size (f % self.m_w_size)
      (f / self.m_w_size % self.m_h_size) c d1.1 d1.2 d2.1 d2.2 v3 v4
    obtain ⟨e1, e2, e3⟩ := digits_of_index self.m_w_size self.m_h_size (f % self.m_w_size)
      (f / self.m_w_size % self.m_h_size) c d1.1 d1.2 d2.1 d2.2
    rw [b8 f c v1 v2 v3 v4, a8 _ _ d3.1 d3.2 ir.1 ir.2, e1, e2, e3, index_of_digits]
  · obtain ⟨⟨s1, o1⟩, a1, a2, _, a4, a5, _, a7, a8⟩ :=
      Col2Im_Backward_spec T self dy hdy hh hw hC hG
    simp only at a2 a4 a5 a7 a8
    subst a2
    have eo : o1.GetFrameSize = dy.GetFrameSize * (self.m_h_size * self.m_w_size) := a5
    have ho : 0 ≤ o1.GetFrameSize := by
      rw [eo]
      exact Int.mul_nonneg hG hhw.le
    have hd : o1.GetFrameSize.tmod (self.m_h_size * self.m_w_size) = 0 := by
      rw [eo]
      exact Int.mul_tmod_left _ _
    obtain ⟨r2, b1, _, _, _, b5, _, b7, b8⟩ :=
      Col2Im_Forward_spec T { self with m_dx := o1 } o1 train a4 hh hw hC ho hd
    have eG : dy.GetFrameSize * (self.m_h_size * self.m_w_size)
        / (self.m_h_size * self.m_w_size) = dy.GetFrameSize :=
      Int.mul_ediv_cancel _ (by omega)
    simp only [eo, eG] at b5 b8
    refine ⟨_, r2, a1, b1, b5, b7.trans hdyn.symm, ?_⟩
    intro f n hv
    obtain ⟨v1, v2, v3, v4⟩ := hv
    rw [hdyn] at v4
    obtain ⟨d1, d2, d3⟩ := digits_range self.m_w_size self.m_h_size _ n hw hh v3 v4
    have ir := index_range self.m_w_size self.m_h_size dy.GetFrameSize (n % self.m_w_size)
      (n / self.m_w_size % self.m_h_size) f d1.1 d1.2 d2.1 d2.2 v1 v2
    obtain ⟨e1, e2, e3⟩ := digits_of_index self.m_w_size self.m_h_size (n % self.m_w_size)
      (n / self.m_w_size % self.m_h_size) f d1.1 d1.2 d2.1 d2.2
    rw [b8 f n v1 v2 v3 v4, a8 _ _ ir.1 (by rw [← mul_assoc]; exact ir.2) d3.1 d3.2, e1, e2, e3,
      index_of_digits]

/-- Witness of C34 with `C = 2`, `h = 1`, `w = 3`: `Backward(Forward(x))`
gives back the `UINT8` example buffer (three frames, two nodes, `200` at
`(1, 1)`), and `Forward(Backward(dy))` gives back the gradient example
(one frame, six nodes, `9` at node `4`). -/
theorem C34_Col2Im_Backward_inverts_Forward_witness :
    ((∃ r1 r2, exampleCol2Im.Forward DType.UINT8 exampleUINT8 true = some r1
          ∧ r1.1.Backward DType.UINT8 r1.2 = some r2
          ∧ r2.2.GetFrameSize = exampleUINT8.GetFrameSize
          ∧ r2.2.GetNodeSize = exampleUINT8.GetNodeSize
          ∧ ∀ f c, exampleUINT8.ValidIndex f c →
              r2.2.Get DType.UINT8 f c = exampleUINT8.Get DType.UINT8 f c)
        ∧ (∃ r1 r2, exampleCol2Im.Backward DType.UINT8 exampleGradient = some r1
          ∧ r1.1.Forward DType.UINT8 r1.2 true = some r2
          ∧ r2.2.GetFrameSize = exampleGradient.GetFrameSize
          ∧ r2.2.GetNodeSize = exampleGradient.GetNodeSize
          ∧ ∀ f n, exampleGradient.ValidIndex f n →
              r2.2.Get DType.UINT8 f n = exampleGradient.Get DType.UINT8 f n))
      ∧ ((exampleCol2Im.Forward DType.UINT8 exampleUINT8 true).bind
            (fun r1 => r1.1.Backward DType.UINT8 r1.2)).map
          (fun r2 => (r2.2.GetFrameSize, r2.2.GetNodeSize, r2.2.Get DType.UINT8 1 1))
        = some (3, 2, 200)
      ∧ ((exampleCol2Im.Backward DType.UINT8 exampleGradient).bind
            (fun r1 => r1.1.Forward DType.UINT8 r1.2 true)).map
          (fun r2 => (r2.2.GetFrameSize, r2.2.GetNodeSize, r2.2.Get DType.UINT8 0 4))
        = some (1, 6, 9) :=
  ⟨C34_Col2Im_Backward_inverts_Forward DType.UINT8 exampleCol2Im exampleUINT8 exampleGradient
      true (by decide) (by decide) (by decide) (by decide!) (by decide!) (by decide!)
      (by decide!) (by decide!) (by decide!) (by decide!),
    by decide!, by decide!⟩

end bb
